import Mathlib

/-!
Verification development for the javascript load/validate/render pipeline
(`src/javascript/jsparser.py`).  The generic (loosely typed) syntax tree is
modelled by `GVal`; the typed node graph by `JNode`; the Loader by the
fuel-indexed `load*` family; the Renderer by `pretty` (returning `Option
String`, `none` at exactly the places where the python renderer would raise
on a malformed node).
-/

set_option maxHeartbeats 1000000

mutual
/-- Generic (loosely typed) values of the external AST: python `None`,
booleans, numbers, strings, dicts (nodes) and lists.  `GFields` and `GList`
spell out the nested lists so that structural recursion is available. -/
inductive GVal : Type where
  | null : GVal
  | bool : Bool → GVal
  | num : Int → GVal
  | str : String → GVal
  | node : GFields → GVal
  | list : GList → GVal

inductive GFields : Type where
  | nil : GFields
  | cons : String → GVal → GFields → GFields

inductive GList : Type where
  | nil : GList
  | cons : GVal → GList → GList
end

/-- Build a `GFields` from an ordinary list (convenience for examples). -/
def gfieldsOf : List (String × GVal) → GFields
  | [] => .nil
  | (k, v) :: rest => .cons k v (gfieldsOf rest)

/-- Build a `GList` from an ordinary list (convenience for examples). -/
def glistOf : List GVal → GList
  | [] => .nil
  | v :: rest => .cons v (glistOf rest)

/-- A generic dict node from a key/value list (convenience for examples). -/
def gnode (l : List (String × GVal)) : GVal := .node (gfieldsOf l)

/-- A generic list value from a value list (convenience for examples). -/
def glist (l : List GVal) : GVal := .list (glistOf l)

/-- The key/value pairs of a `GFields`, as an ordinary list. -/
def GFields.toList : GFields → List (String × GVal)
  | .nil => []
  | .cons k v rest => (k, v) :: rest.toList

/-- The elements of a `GList`, as an ordinary list. -/
def GList.toList : GList → List GVal
  | .nil => []
  | .cons v rest => v :: rest.toList

/-- Dictionary lookup, first match (python `node[k]` when it succeeds). -/
def getF : GFields → String → Option GVal
  | .nil, _ => none
  | .cons k v rest, key => if k = key then some v else getF rest key

/-- python `k in node`. -/
def hasKey (fs : GFields) (key : String) : Bool := (getF fs key).isSome

/-- Subscripting an arbitrary generic value (python `v[k]`): `KeyError` on a
dict without the key, `TypeError` on anything that is not a dict. -/
def getKey (v : GVal) (key : String) : Except String GVal :=
  match v with
  | .node fs =>
    match getF fs key with
    | some x => .ok x
    | none => .error ("KeyError " ++ key)
  | _ => .error ("TypeError subscript " ++ key)

/-- python truthiness of a generic value. -/
def truthy : GVal → Bool
  | .null => false
  | .bool b => b
  | .num n => n != 0
  | .str s => s ≠ ""
  | .node fs => match fs with | .nil => false | _ => true
  | .list l => match l with | .nil => false | _ => true

/-- python `v == some_string` for a generic value. -/
def isStrVal (v : GVal) (s : String) : Bool :=
  match v with
  | .str t => t = s
  | _ => false

/-- python `v == None`. -/
def gIsNull : GVal → Bool
  | .null => true
  | _ => false

/-- python `len(v)`: `none` encodes the `TypeError` of `len` on an
unsized value. -/
def pyLen : GVal → Option Nat
  | .str s => some s.length
  | .node fs => some fs.toList.length
  | .list l => some l.toList.length
  | _ => none

/-- python iteration `for x in v`: lists yield elements, dicts yield their
keys, strings yield their one-character substrings; `none` encodes the
`TypeError` on non-iterables. -/
def pyIter : GVal → Option (List GVal)
  | .list l => some l.toList
  | .node fs => some (fs.toList.map (fun kv => GVal.str kv.1))
  | .str s => some (s.toList.map (fun c => GVal.str (String.singleton c)))
  | _ => none

/-- The key scan of `checknode`: reject (python `raise`) the first key of the
node that is not among the allowed ones. -/
def checkkeys : List (String × GVal) → List String → Except String Unit
  | [], _ => .ok ()
  | (k, _) :: rest, allowed =>
    if k ∈ allowed then checkkeys rest allowed
    else .error ("Unknown key " ++ k)

/-- `checknode(node, keys, nodetype)` from `jsparser.py`: optional structural
tag comparison, then the whitelist scan of the node's keys (the always
allowed `type` tag is appended to the list, as by `keys.append('type')`).
Passing a non-dict raises (`TypeError`). -/
def checknode (v : GVal) (keys : List String) (nodetype : Option String) :
    Except String Unit := do
  match v with
  | .node fs =>
    match nodetype with
    | some t =>
      let tv ← getKey v "type"
      if isStrVal tv t then
        checkkeys fs.toList (keys ++ ["type"])
      else
        .error ("Mismatched node type (should be " ++ t ++ ")")
    | none => checkkeys fs.toList (keys ++ ["type"])
  | _ => .error "TypeError checknode on a non-dict"

/-- `e` is an error (a raised exception in the python source). -/
def isErr {α : Type} : Except String α → Bool
  | .error _ => true
  | .ok _ => false

mutual
/-- The typed node graph: one constructor per python class of `jsparser.py`
(`Operand`, `Operation`, `Modifier`, `ConditionalExpression`,
`ConditionalStatement`, `Handler`, `Block`, `Iterator`, `Loop`, `Function`,
`Call`, `Property`, `Object`, `Combinator`, `Action`, the bare `Expression`
instance used for empty statements, `VariableDeclaration`, `Program`).
Fields that the python constructors initialise to `None` and that the
loader may or may not fill are `JOpt`/`Option`; fields that hold generic
values copied verbatim from the input (`raw`, `operator`, names, the
declaration keyword) are `GVal`.  `stmtList` stands for a bare python list
of statements stored where a single node is expected (what
`Block.loadstatement` returns for a variable declaration). -/
inductive JNode : Type where
  | operand (kind : Nat) (value : GVal) (raw : GVal)
  | operation (operator : GVal) (left right : JNode) (kind : Nat)
  | modifier (operator : GVal) (argument : JNode) (pfx : Bool)
  | conditionalExpression (test consequent alternate : JNode)
  | conditionalStatement (test consequent : JNode) (alternate : JOpt)
  | handler (block : JOpt) (param : Option GVal) (catcher finalizer : JOpt)
  | block (vardecl exprs funcs statements : JList) (top : Bool)
  | iterator (itervar rangedecl body : JNode)
  | loop (kind : Nat) (init : JList) (test update body : JOpt)
  | func (name : Option GVal) (kind : Nat) (params : JList) (body : JNode)
  | call (callee : JNode) (kind : Nat) (args : JNode)
  | prop (kind : Nat) (key : GVal) (value : JNode)
  | object (properties : JList)
  | combinator (openB closeB : Char) (args : JList)
  | action (expression : JOpt) (kind : Nat)
  | emptyExpr
  | variableDeclaration (id : Option GVal) (kind : Option GVal) (expression : JOpt)
  | stmtList (l : JList)
  | program (body : JNode)

inductive JList : Type where
  | nil : JList
  | cons : JNode → JList → JList

inductive JOpt : Type where
  | none : JOpt
  | some : JNode → JOpt
end

/-- `Operand.literal` from the source. -/
def OperandK.literal : Nat := 1

/-- `Operand.identifier` from the source. -/
def OperandK.identifier : Nat := 2

/-- `Operand.parameter` from the source. -/
def OperandK.parameter : Nat := 3

/-- `Operand.this` from the source. -/
def OperandK.this : Nat := 4

/-- `Operand.regex` from the source. -/
def OperandK.regex : Nat := 5

/-- `Operation.general` from the source. -/
def OperationK.general : Nat := 1

/-- `Operation.assignment` from the source. -/
def OperationK.assignment : Nat := 2

/-- `Operation.dotmember` from the source. -/
def OperationK.dotmember : Nat := 3

/-- `Operation.bracketmember` from the source. -/
def OperationK.bracketmember : Nat := 4

/-- `Operation.logical` from the source. -/
def OperationK.logical : Nat := 5

/-- `Loop.For` from the source. -/
def LoopK.forK : Nat := 1

/-- `Loop.While` from the source. -/
def LoopK.whileK : Nat := 2

/-- `Function.declaration` from the source. -/
def FunctionK.declaration : Nat := 1

/-- `Function.inline` from the source. -/
def FunctionK.inline : Nat := 2

/-- `Function.objprop` from the source. -/
def FunctionK.objprop : Nat := 3

/-- `Call.call` from the source. -/
def CallK.call : Nat := 1

/-- `Call.new` from the source. -/
def CallK.newK : Nat := 2

/-- `Property.init` from the source. -/
def PropertyK.init : Nat := 1

/-- `Property.shorthand` from the source. -/
def PropertyK.shorthand : Nat := 2

/-- `Property.method` from the source. -/
def PropertyK.method : Nat := 3

/-- `Property.setter` from the source. -/
def PropertyK.setter : Nat := 4

/-- `Property.getter` from the source. -/
def PropertyK.getter : Nat := 5

/-- `Action.Return` from the source. -/
def ActionK.returnK : Nat := 1

/-- `Action.Throw` from the source. -/
def ActionK.throwK : Nat := 2

/-- `Action.Break` from the source. -/
def ActionK.breakK : Nat := 3

/-- `Action.Continue` from the source. -/
def ActionK.continueK : Nat := 4

/-- `Property.__init__` from the source: builds the property node, and for a
method / setter / getter whose value is a `Function` node it overwrites that
function's `kind` with `Function.objprop` and its `name` with the empty
string. -/
def mkProperty (kind : Nat) (key : GVal) (value : JNode) : JNode :=
  if (kind = PropertyK.method ∨ kind = PropertyK.setter ∨ kind = PropertyK.getter) then
    match value with
    | .func _ _ params body => .prop kind key (.func (some (.str "")) FunctionK.objprop params body)
    | v => .prop kind key v
  else
    .prop kind key value

/-- `Program.__init__` from the source: wraps the body and overwrites its
`top` flag with `True`. -/
def mkProgram (body : JNode) : JNode :=
  match body with
  | .block v e f s _ => .program (.block v e f s true)
  | b => .program b

/-- The string content of a generic value, `none` when the value is not a
python string (where the renderer would raise a `TypeError` on
concatenation). -/
def asStr : GVal → Option String
  | .str s => some s
  | _ => none

/-- As `asStr`, for optional fields initialised to `None`. -/
def optStr : Option GVal → Option String
  | some v => asStr v
  | none => none

/-- `Rules.indent` from the source. -/
def rulesIndent : String := "    "

/-- `Rules.applyindent` from the source: prefix every line with the indent,
leaving a trailing empty line (after a final newline) unindented. -/
def applyindent (code : String) : String :=
  let lines := code.splitOn "\n"
  if lines.getLast? = some "" then
    String.intercalate "\n" ((lines.dropLast.map (fun x => rulesIndent ++ x)) ++ [""])
  else
    String.intercalate "\n" (lines.map (fun x => rulesIndent ++ x))

/-- Membership of a statement's class in `Rules.reqsm`, the list
`[Operation, Operand, Modifier, ConditionalExpression, Call, Action,
VariableDeclaration, Object]` from the source. -/
def reqsm : JNode → Bool
  | .operation .. => true
  | .operand .. => true
  | .modifier .. => true
  | .conditionalExpression .. => true
  | .call .. => true
  | .action .. => true
  | .variableDeclaration .. => true
  | .object .. => true
  | _ => false

/-- `Rules.endmark` from the source. -/
def endmark (stmt : JNode) : String :=
  if reqsm stmt then ";\n" else ""

/-- `isinstance(op, Operand)` from `Operation.prettyoperand`. -/
def isOperandLeaf : JNode → Bool
  | .operand .. => true
  | _ => false

mutual
/-- The renderer: the `pretty` methods of all classes of `jsparser.py`,
collapsed into one function on the typed node graph.  The result is `none`
exactly where the python renderer would raise: dereferencing a still-`None`
field, string concatenation with a non-string or `None`, the `KeyError` of
the kind-indexed dictionaries in `Property.pretty` / `Action.pretty`, and
calling `.pretty` on a bare statement list. -/
def pretty : JNode → Option String
  | .operand kind _ raw => do
    let s ← asStr raw
    if kind = OperandK.regex then some ("(" ++ s ++ ")") else some s
  | .operation operator left right kind =>
    if kind = OperationK.assignment then do
      let a ← pretty left
      let o ← asStr operator
      let b ← pretty right
      some (a ++ " " ++ o ++ " " ++ b)
    else if kind = OperationK.dotmember then do
      let a ← pretty left
      let b ← pretty right
      some (a ++ "." ++ b)
    else if kind = OperationK.bracketmember then do
      let a ← pretty left
      let b ← pretty right
      some (a ++ "[" ++ b ++ "]")
    else do
      let a ← if isOperandLeaf left then pretty left
              else (pretty left).map (fun s => "(" ++ s ++ ")")
      let o ← asStr operator
      let b ← if isOperandLeaf right then pretty right
              else (pretty right).map (fun s => "(" ++ s ++ ")")
      some (a ++ " " ++ o ++ " " ++ b)
  | .modifier operator argument pfx => do
    let o ← asStr operator
    let a ← if isOperandLeaf argument then pretty argument
            else (pretty argument).map (fun s => "(" ++ s ++ ")")
    if pfx then some (o ++ a) else some (a ++ o)
  | .conditionalExpression test consequent alternate => do
    let t ← pretty test
    let c ← if isOperandLeaf consequent then pretty consequent
            else (pretty consequent).map (fun s => "(" ++ s ++ ")")
    let a ← if isOperandLeaf alternate then pretty alternate
            else (pretty alternate).map (fun s => "(" ++ s ++ ")")
    some ("(" ++ t ++ ") ? " ++ c ++ " : " ++ a)
  | .conditionalStatement test consequent alternate => do
    let t ← pretty test
    let c ← pretty consequent
    let buf := "if ( " ++ t ++ " )\n" ++ applyindent (c ++ endmark consequent)
    match alternate with
    | .none => some buf
    | .some alt => do
      let a ← pretty alt
      some (buf ++ "else\n" ++ applyindent (a ++ endmark alt))
  | .handler block param catcher finalizer =>
    match block with
    | .none => none
    | .some b => do
      let bs ← pretty b
      let buf := "try\n" ++ applyindent (bs ++ endmark b)
      let buf ← match catcher with
        | .none => some buf
        | .some c => do
          let p ← optStr param
          let cs ← pretty c
          some (buf ++ "catch ( " ++ p ++ " )\n" ++ applyindent (cs ++ endmark c))
      match finalizer with
      | .none => some buf
      | .some f => do
        let fs ← pretty f
        some (buf ++ "finally \n" ++ applyindent (fs ++ endmark f))
  | .block _ _ _ statements top => do
    let body ← prettyStmts statements
    if top then some body
    else some ("\x7b\n" ++ applyindent body ++ "\x7d\n")
  | .iterator itervar rangedecl body => do
    let a ← pretty itervar
    let b ← pretty rangedecl
    let c ← pretty body
    some ("for(" ++ a ++ " in " ++ b ++ ")\n" ++ applyindent (c ++ endmark body))
  | .loop kind init test update body => do
    let start ←
      if kind = LoopK.forK then do
        let l ← prettyJoinList init
        some ("for(" ++ String.intercalate " ," l ++ "; ")
      else some "while( "
    let afterTest ← match test with
      | .none => some start
      | .some t => do
        let ts ← pretty t
        some (start ++ ts)
    let afterUpd ←
      if kind = LoopK.forK then
        match update with
        | .none => some (afterTest ++ "; ")
        | .some u => do
          let us ← pretty u
          some (afterTest ++ "; " ++ us)
      else some afterTest
    match body with
    | .none => none
    | .some b => do
      let bs ← pretty b
      some (afterUpd ++ ")\n" ++ applyindent (bs ++ endmark b))
  | .func name kind params body => do
    let start := if kind ≠ FunctionK.objprop then "function" else ""
    let named ← match name with
      | some n => do
        let s ← asStr n
        some (start ++ " " ++ s)
      | none => some start
    let ps ← prettyJoinList params
    let bs ← pretty body
    let buf := named ++ "(" ++ String.intercalate "," ps ++ ")\n" ++ bs
    let buf := if kind = FunctionK.inline then "(" ++ buf ++ ")" else buf
    if kind ≠ FunctionK.objprop then some (buf ++ "\n") else some buf
  | .call callee kind args => do
    let pre := if kind = CallK.newK then "new " else ""
    let c ← pretty callee
    let a ← pretty args
    some (pre ++ c ++ a)
  | .prop kind key value => do
    let k ← asStr key
    if kind = PropertyK.init then do
      let v ← pretty value
      some (k ++ " : " ++ v)
    else if kind = PropertyK.shorthand then some k
    else if kind = PropertyK.method then do
      let v ← pretty value
      some (k ++ " " ++ v)
    else if kind = PropertyK.setter then do
      let v ← pretty value
      some ("set " ++ k ++ " " ++ v)
    else if kind = PropertyK.getter then do
      let v ← pretty value
      some ("get " ++ k ++ " " ++ v)
    else none
  | .object properties => do
    let l ← prettyJoinList properties
    some ("\x7b\n" ++ applyindent (String.join (l.map (fun s => s ++ ",\n"))) ++ "\x7d")
  | .combinator openB closeB args => do
    let l ← prettyJoinList args
    some (String.singleton openB ++ String.intercalate " ," l ++ String.singleton closeB)
  | .action expression kind => do
    let kw ←
      if kind = ActionK.returnK then some "return"
      else if kind = ActionK.throwK then some "throw"
      else if kind = ActionK.breakK then some "break"
      else if kind = ActionK.continueK then some "continue"
      else none
    match expression with
    | .none => some kw
    | .some x => do
      let xs ← pretty x
      some (kw ++ " " ++ xs)
  | .emptyExpr => some ""
  | .variableDeclaration id kind expression => do
    let k ← optStr kind
    let i ← optStr id
    match expression with
    | .none => some (k ++ " " ++ i)
    | .some x => do
      let xs ← pretty x
      some (k ++ " " ++ i ++ " = " ++ xs)
  | .stmtList _ => none
  | .program body => pretty body

/-- The statement fold of `Block.pretty`: each statement's rendering
followed by its `endmark`. -/
def prettyStmts : JList → Option String
  | .nil => some ""
  | .cons s rest => do
    let a ← pretty s
    let b ← prettyStmts rest
    some (a ++ endmark s ++ b)

/-- Renderings of a list of nodes (the `map(lambda x: x.pretty(rules), …)`
iterations of `Loop.pretty`, `Function.pretty`, `Object.pretty` and
`Combinator.pretty`). -/
def prettyJoinList : JList → Option (List String)
  | .nil => some []
  | .cons s rest => do
    let a ← pretty s
    let b ← prettyJoinList rest
    some (a :: b)
end

/-- `Operation.prettyoperand` from the source: a bare `Operand` leaf is
rendered as is, anything else is wrapped in parentheses. -/
def prettyoperand (op : JNode) : Option String :=
  if isOperandLeaf op then pretty op
  else (pretty op).map (fun s => "(" ++ s ++ ")")

/-- `Block.loadcontrol` from the source: break/continue statements reject
any label and carry no expression. -/
def loadcontrol (astnode : GVal) (kind : Nat) : Except String JNode := do
  let l ← getKey astnode "label"
  if ¬ gIsNull l then .error "statements with labels are unsupported"
  else .ok (.action .none kind)

/-- `Property.getkind` from the source: the property kind derived from the
generic `kind` string and the `method` / `shorthand` booleans. -/
def getkind (p : GVal) : Except String Nat := do
  let k ← getKey p "kind"
  if isStrVal k "init" then do
    let m ← getKey p "method"
    if truthy m then .ok PropertyK.method
    else do
      let sh ← getKey p "shorthand"
      if truthy sh then .ok PropertyK.shorthand
      else .ok PropertyK.init
  else if isStrVal k "set" then .ok PropertyK.setter
  else if isStrVal k "get" then .ok PropertyK.getter
  else .error "Unknown property kind"

/-- The `Block.checks` table from the source: for each recognised statement
tag, the allow-list handed to `checknode` (`none` inside means the python
`None` entry, i.e. no statement-level check). -/
def checksOf : String → Option (Option (List String))
  | "VariableDeclaration" => some (some ["declarations", "kind"])
  | "ExpressionStatement" => some (some ["expression"])
  | "FunctionDeclaration" => some none
  | "EmptyStatement" => some (some [])
  | "ReturnStatement" => some (some ["argument"])
  | "IfStatement" => some (some ["test", "consequent", "alternate"])
  | "BlockStatement" => some (some ["body"])
  | "ThrowStatement" => some (some ["argument"])
  | "ForStatement" => some none
  | "ForInStatement" => some none
  | "BreakStatement" => some (some ["label"])
  | "ContinueStatement" => some (some ["label"])
  | "WhileStatement" => some none
  | "TryStatement" => some none
  | _ => none

/-- The `dispatch` table of `Block.load`: which kind-specific list of the
block a loaded statement is appended to (`0` = `vardecl`, `1` = `exprs`,
`2` = `funcs`); an unknown tag is the python `KeyError`. -/
def dispatchOf (tv : GVal) : Except String Nat :=
  match tv with
  | .str s =>
    if s = "VariableDeclaration" then .ok 0
    else if s = "FunctionDeclaration" then .ok 2
    else if s ∈ ["ExpressionStatement", "EmptyStatement", "ReturnStatement",
        "ThrowStatement", "IfStatement", "BlockStatement", "ForStatement",
        "ForInStatement", "BreakStatement", "ContinueStatement",
        "WhileStatement", "TryStatement"] then .ok 1
    else .error "KeyError dispatch"
  | _ => .error "KeyError dispatch"

/-- The `isinstance(stmt, list)` wrapping of `Block.load`: a bare statement
list is spliced, a single node becomes a one-element list. -/
def toStmts : JNode → JList
  | .stmtList l => l
  | n => .cons n .nil

/-- List append on `JList` (python `list.extend`). -/
def jappend : JList → JList → JList
  | .nil, ys => ys
  | .cons x xs, ys => .cons x (jappend xs ys)

mutual
/-- `Expression.load` from the source: the fuel-indexed recursive expression
dispatcher (fuel only bounds the recursion depth; every recursive call uses
one unit). -/
def loadExpr : Nat → GVal → Except String JNode
  | 0, _ => .error "Fuel exhausted"
  | fuel + 1, ast =>
    match ast with
    | .node fs => do
      let tv ← getKey ast "type"
      if isStrVal tv "Literal" then do
        checknode ast ["value", "raw", "regex"] none
        let v ← getKey ast "value"
        let r ← getKey ast "raw"
        .ok (.operand (if hasKey fs "regex" then OperandK.regex else OperandK.literal) v r)
      else if isStrVal tv "CallExpression" then loadCall fuel ast CallK.call
      else if isStrVal tv "NewExpression" then loadCall fuel ast CallK.newK
      else if isStrVal tv "FunctionExpression" then loadFunction fuel ast FunctionK.inline
      else if isStrVal tv "MemberExpression" then do
        checknode ast ["computed", "object", "property"] none
        let c ← getKey ast "computed"
        let kind := if truthy c then OperationK.bracketmember else OperationK.dotmember
        let o ← loadExpr fuel (← getKey ast "object")
        let p ← loadExpr fuel (← getKey ast "property")
        .ok (.operation (.str ".") o p kind)
      else if isStrVal tv "Identifier" then do
        checknode ast ["name"] none
        let n ← getKey ast "name"
        .ok (.operand OperandK.identifier n n)
      else if isStrVal tv "ThisExpression" then do
        checknode ast [] none
        .ok (.operand OperandK.this (.str "this") (.str "this"))
      else if isStrVal tv "BinaryExpression" then do
        checknode ast ["operator", "left", "right"] none
        let o ← getKey ast "operator"
        let l ← loadExpr fuel (← getKey ast "left")
        let r ← loadExpr fuel (← getKey ast "right")
        .ok (.operation o l r OperationK.general)
      else if isStrVal tv "AssignmentExpression" then do
        checknode ast ["operator", "left", "right"] none
        let o ← getKey ast "operator"
        let l ← loadExpr fuel (← getKey ast "left")
        let r ← loadExpr fuel (← getKey ast "right")
        .ok (.operation o l r OperationK.assignment)
      else if isStrVal tv "LogicalExpression" then do
        checknode ast ["operator", "left", "right"] none
        let o ← getKey ast "operator"
        let l ← loadExpr fuel (← getKey ast "left")
        let r ← loadExpr fuel (← getKey ast "right")
        .ok (.operation o l r OperationK.logical)
      else if isStrVal tv "ConditionalExpression" then do
        checknode ast ["test", "consequent", "alternate"] none
        let t ← loadExpr fuel (← getKey ast "test")
        let c ← loadExpr fuel (← getKey ast "consequent")
        let a ← loadExpr fuel (← getKey ast "alternate")
        .ok (.conditionalExpression t c a)
      else if isStrVal tv "UnaryExpression" ∨ isStrVal tv "UpdateExpression" then do
        checknode ast ["operator", "argument", "prefix"] none
        let o ← getKey ast "operator"
        let a ← loadExpr fuel (← getKey ast "argument")
        let p ← getKey ast "prefix"
        .ok (.modifier o a (truthy p))
      else if isStrVal tv "ArrayExpression" then do
        checknode ast ["elements"] none
        loadCombinator fuel (← getKey ast "elements") "[]"
      else if isStrVal tv "ObjectExpression" then loadObject fuel ast
      else .error "Unknown expression type"
    | _ => .error "TypeError subscript type"

/-- `Call.load` from the source. -/
def loadCall : Nat → GVal → Nat → Except String JNode
  | 0, _, _ => .error "Fuel exhausted"
  | fuel + 1, ast, kind => do
    checknode ast ["callee", "arguments"] none
    let c ← loadExpr fuel (← getKey ast "callee")
    let a ← loadCombinator fuel (← getKey ast "arguments") "()"
    .ok (.call c kind a)

/-- `Combinator.load` from the source: the bracket pair comes from the first
and last character of the `kind` string (`"()"` or `"[]"`). -/
def loadCombinator : Nat → GVal → String → Except String JNode
  | 0, _, _ => .error "Fuel exhausted"
  | fuel + 1, v, kind =>
    match pyIter v with
    | none => .error "TypeError not iterable"
    | some items => do
      let args ← loadCombItems fuel items
      .ok (.combinator kind.front kind.back args)

/-- The element loop of `Combinator.load`. -/
def loadCombItems : Nat → List GVal → Except String JList
  | 0, _ => .error "Fuel exhausted"
  | _ + 1, [] => .ok .nil
  | fuel + 1, x :: xs => do
    let e ← loadExpr fuel x
    let rest ← loadCombItems fuel xs
    .ok (.cons e rest)

/-- `Object.load` from the source. -/
def loadObject : Nat → GVal → Except String JNode
  | 0, _ => .error "Fuel exhausted"
  | fuel + 1, ast => do
    checknode ast ["properties"] none
    let ps ← getKey ast "properties"
    match pyIter ps with
    | none => .error "TypeError not iterable"
    | some items => do
      let props ← loadProps fuel items
      .ok (.object props)

/-- The property loop of `Object.load`, including the shape checks, the
rejection of computed keys, and `Property` construction (with its
function-value rewrite) per property. -/
def loadProps : Nat → List GVal → Except String JList
  | 0, _ => .error "Fuel exhausted"
  | _ + 1, [] => .ok .nil
  | fuel + 1, p :: rest => do
    checknode p ["key", "computed", "value", "kind", "method", "shorthand"] (some "Property")
    checknode (← getKey p "key") ["name"] (some "Identifier")
    let c ← getKey p "computed"
    if truthy c then .error "Computed properties are not supported"
    else do
      let kind ← getkind p
      let keyNode ← getKey p "key"
      let keyName ← getKey keyNode "name"
      let v ← loadExpr fuel (← getKey p "value")
      let rest2 ← loadProps fuel rest
      .ok (.cons (mkProperty kind keyName v) rest2)

/-- `Function.load` from the source: the id/name extraction, the
generator/expression rejection, the (ineffective) defaults check, the body
shape requirement, the body load and the parameter loop. -/
def loadFunction : Nat → GVal → Nat → Except String JNode
  | 0, _, _ => .error "Fuel exhausted"
  | fuel + 1, ast, decl => do
    checknode ast ["id", "params", "defaults", "body", "generator", "expression"] none
    let idv ← getKey ast "id"
    let funcname ←
      if ¬ gIsNull idv then do
        checknode idv ["name"] none
        let n ← getKey idv "name"
        pure (some n)
      else pure none
    let g ← getKey ast "generator"
    let e ← getKey ast "expression"
    if truthy g || truthy e then .error "Generators or expressions are not yet implemented"
    else do
      let d ← getKey ast "defaults"
      match pyLen d with
      | none => .error "TypeError len"
      | some n =>
        if n < 0 then .error "Defaults are not yet implemented"
        else do
          let b ← getKey ast "body"
          let bt ← getKey b "type"
          if ¬ isStrVal bt "BlockStatement" then .error "Unknown function body"
          else do
            let bb ← getKey b "body"
            let blk ← loadBlock fuel bb
            let pv ← getKey ast "params"
            match pyIter pv with
            | none => .error "TypeError not iterable"
            | some items => do
              let ps ← loadParams fuel items
              .ok (.func funcname decl ps blk)

/-- The parameter loop of `Function.load`: every parameter must be a simple
identifier and becomes a `parameter`-kind operand. -/
def loadParams : Nat → List GVal → Except String JList
  | 0, _ => .error "Fuel exhausted"
  | _ + 1, [] => .ok .nil
  | fuel + 1, p :: rest => do
    let pt ← getKey p "type"
    if ¬ isStrVal pt "Identifier" then .error "Unsupported parameter"
    else do
      checknode p ["name"] none
      let n ← getKey p "name"
      let rest2 ← loadParams fuel rest
      .ok (.cons (.operand OperandK.parameter n n) rest2)

/-- `VariableDeclaration.load` from the source: one declarator plus the
shared declaration keyword. -/
def loadVariableDeclaration : Nat → GVal → GVal → Except String JNode
  | 0, _, _ => .error "Fuel exhausted"
  | fuel + 1, vdn, kindv =>
    match vdn with
    | .node fs => do
      checknode vdn ["id", "init"] (some "VariableDeclarator")
      let idv ← getKey vdn "id"
      checknode idv ["name"] (some "Identifier")
      let n ← getKey idv "name"
      if hasKey fs "init" then do
        let iv ← getKey vdn "init"
        if ¬ gIsNull iv then do
          let e ← loadExpr fuel iv
          .ok (.variableDeclaration (some n) (some kindv) (.some e))
        else .ok (.variableDeclaration (some n) (some kindv) .none)
      else .ok (.variableDeclaration (some n) (some kindv) .none)
    | _ => .error "TypeError checknode on a non-dict"

/-- The declarator loop of `Block.loadvardecl` (the shared `kind` field is
read from the declaration node on every iteration, as in the source). -/
def loadDeclarators : Nat → List GVal → GVal → Except String JList
  | 0, _, _ => .error "Fuel exhausted"
  | _ + 1, [], _ => .ok .nil
  | fuel + 1, vdn :: rest, x => do
    let kv ← getKey x "kind"
    let vd ← loadVariableDeclaration fuel vdn kv
    let rest2 ← loadDeclarators fuel rest x
    .ok (.cons vd rest2)

/-- `Block.loadvardecl` from the source: expands one generic declaration into
the list of its typed declarators. -/
def loadVardecl : Nat → GVal → Except String JList
  | 0, _ => .error "Fuel exhausted"
  | fuel + 1, x => do
    let ds ← getKey x "declarations"
    match pyIter ds with
    | none => .error "TypeError not iterable"
    | some items => loadDeclarators fuel items x

/-- `Block.loadconditional` from the source. -/
def loadConditional : Nat → GVal → Except String JNode
  | 0, _ => .error "Fuel exhausted"
  | fuel + 1, x => do
    let t ← loadExpr fuel (← getKey x "test")
    let c ← loadStatement fuel (← getKey x "consequent")
    let av ← getKey x "alternate"
    if gIsNull av then .ok (.conditionalStatement t c .none)
    else do
      let a ← loadStatement fuel av
      .ok (.conditionalStatement t c (.some a))

/-- `Iterator.load` from the source. -/
def loadIterator : Nat → GVal → Except String JNode
  | 0, _ => .error "Fuel exhausted"
  | fuel + 1, x => do
    checknode x ["left", "right", "each", "body"] none
    let e ← getKey x "each"
    if truthy e then .error "each attribute should be false in for-in statement"
    else do
      let l ← loadExpr fuel (← getKey x "left")
      let r ← loadExpr fuel (← getKey x "right")
      let b ← loadStatement fuel (← getKey x "body")
      .ok (.iterator l r b)

/-- `Loop.loadfor` from the source: the init clause branches on whether the
generic init is itself a declaration. -/
def loadFor : Nat → GVal → Except String JNode
  | 0, _ => .error "Fuel exhausted"
  | fuel + 1, x => do
    checknode x ["init", "test", "update", "body"] none
    let iv ← getKey x "init"
    let initList ←
      if ¬ gIsNull iv then do
        let it ← getKey iv "type"
        if isStrVal it "VariableDeclaration" then do
          checknode iv ["declarations", "kind"] none
          loadVardecl fuel iv
        else do
          let e ← loadExpr fuel iv
          pure (JList.cons e .nil)
      else pure JList.nil
    let tv ← getKey x "test"
    let testOpt ←
      if ¬ gIsNull tv then do
        let t ← loadExpr fuel tv
        pure (JOpt.some t)
      else pure JOpt.none
    let uv ← getKey x "update"
    let updOpt ←
      if ¬ gIsNull uv then do
        let u ← loadExpr fuel uv
        pure (JOpt.some u)
      else pure JOpt.none
    let b ← loadStatement fuel (← getKey x "body")
    .ok (.loop LoopK.forK initList testOpt updOpt (.some b))

/-- `Loop.loadwhile` from the source. -/
def loadWhile : Nat → GVal → Except String JNode
  | 0, _ => .error "Fuel exhausted"
  | fuel + 1, x => do
    checknode x ["test", "body"] none
    let tv ← getKey x "test"
    let testOpt ←
      if ¬ gIsNull tv then do
        let t ← loadExpr fuel tv
        pure (JOpt.some t)
      else pure JOpt.none
    let b ← loadStatement fuel (← getKey x "body")
    .ok (.loop LoopK.whileK .nil testOpt .none (.some b))

/-- `Handler.load` from the source: try/catch/finally with the
guarded-handler rejection, the handlers-count checks and the catch
parameter shape check. -/
def loadHandler : Nat → GVal → Except String JNode
  | 0, _ => .error "Fuel exhausted"
  | fuel + 1, x => do
    checknode x ["block", "handler", "guardedHandlers", "handlers", "finalizer"] none
    let bv ← getKey x "block"
    checknode bv ["body"] (some "BlockStatement")
    let gh ← getKey x "guardedHandlers"
    match gh with
    | .list .nil => do
      let blk ← loadBlock fuel (← getKey bv "body")
      let hv ← getKey x "handler"
      let pc ←
        if ¬ gIsNull hv then do
          let hs ← getKey x "handlers"
          match pyLen hs with
          | none => .error "TypeError len"
          | some n =>
            if n ≠ 1 then .error "Handlers array is of unusual size in try-catch"
            else do
              checknode hv ["param", "body"] (some "CatchClause")
              let pv ← getKey hv "param"
              checknode pv ["name"] (some "Identifier")
              let hb ← getKey hv "body"
              checknode hb ["body"] (some "BlockStatement")
              let pname ← getKey pv "name"
              let cblk ← loadBlock fuel (← getKey hb "body")
              pure (some pname, JOpt.some cblk)
        else do
          let hs ← getKey x "handlers"
          match pyLen hs with
          | none => .error "TypeError len"
          | some n =>
            if n > 0 then .error "Handlers array is not empty in try-catch"
            else pure (none, JOpt.none)
      let fv ← getKey x "finalizer"
      if ¬ gIsNull fv then do
        checknode fv ["body"] (some "BlockStatement")
        let fblk ← loadBlock fuel (← getKey fv "body")
        .ok (.handler (.some blk) pc.1 pc.2 (.some fblk))
      else .ok (.handler (.some blk) pc.1 pc.2 .none)
    | _ => .error "Bad guardedHandlers in try-catch"

/-- `Block.loadstatement` from the source: the table-driven statement
dispatcher (tag check against `Block.checks`, then the `Block.loads`
handler). -/
def loadStatement : Nat → GVal → Except String JNode
  | 0, _ => .error "Fuel exhausted"
  | fuel + 1, x => do
    let tv ← getKey x "type"
    match tv with
    | .str xtype =>
      match checksOf xtype with
      | none => .error ("Unknown block statement " ++ xtype)
      | some c => do
        let _ ← (match c with
          | some keys => checknode x keys none
          | none => pure ())
        if xtype = "VariableDeclaration" then do
          let l ← loadVardecl fuel x
          .ok (.stmtList l)
        else if xtype = "ExpressionStatement" then
          loadExpr fuel (← getKey x "expression")
        else if xtype = "FunctionDeclaration" then
          loadFunction fuel x FunctionK.declaration
        else if xtype = "EmptyStatement" then .ok .emptyExpr
        else if xtype = "ReturnStatement" then do
          let e ← loadExpr fuel (← getKey x "argument")
          .ok (.action (.some e) ActionK.returnK)
        else if xtype = "IfStatement" then loadConditional fuel x
        else if xtype = "BlockStatement" then loadBlock fuel (← getKey x "body")
        else if xtype = "ThrowStatement" then do
          let e ← loadExpr fuel (← getKey x "argument")
          .ok (.action (.some e) ActionK.throwK)
        else if xtype = "ForStatement" then loadFor fuel x
        else if xtype = "ForInStatement" then loadIterator fuel x
        else if xtype = "BreakStatement" then loadcontrol x ActionK.breakK
        else if xtype = "ContinueStatement" then loadcontrol x ActionK.continueK
        else if xtype = "WhileStatement" then loadWhile fuel x
        else if xtype = "TryStatement" then loadHandler fuel x
        else .error ("Unknown block statement " ++ xtype)
    | _ => .error "Unknown block statement"

/-- `Block.load` from the source: iterate the generic statement list,
dispatching each loaded statement into its kind-specific list and into the
ordered `statements` list. -/
def loadBlock : Nat → GVal → Except String JNode
  | 0, _ => .error "Fuel exhausted"
  | fuel + 1, v =>
    match pyIter v with
    | none => .error "TypeError not iterable"
    | some items => do
      let r ← loadBlockItems fuel items
      .ok (.block r.1 r.2.1 r.2.2.1 r.2.2.2 false)

/-- The statement loop of `Block.load`; the quadruple is
(`vardecl`, `exprs`, `funcs`, `statements`). -/
def loadBlockItems : Nat → List GVal → Except String (JList × JList × JList × JList)
  | 0, _ => .error "Fuel exhausted"
  | _ + 1, [] => .ok (.nil, .nil, .nil, .nil)
  | fuel + 1, x :: xs => do
    let tv ← getKey x "type"
    let stmt ← loadStatement fuel x
    let parts := toStmts stmt
    let fieldIdx ← dispatchOf tv
    let rest ← loadBlockItems fuel xs
    if fieldIdx = 0 then
      .ok (jappend parts rest.1, rest.2.1, rest.2.2.1, jappend parts rest.2.2.2)
    else if fieldIdx = 2 then
      .ok (rest.1, rest.2.1, jappend parts rest.2.2.1, jappend parts rest.2.2.2)
    else
      .ok (rest.1, jappend parts rest.2.1, rest.2.2.1, jappend parts rest.2.2.2)
end

/-- `Program.load` from the source: shape-check the root, load the top-level
statement list as a block and wrap it (setting the `top` flag). -/
def loadProgram : Nat → GVal → Except String JNode
  | 0, _ => .error "Fuel exhausted"
  | fuel + 1, ast => do
    checknode ast ["body"] none
    let b ← loadBlock fuel (← getKey ast "body")
    .ok (mkProgram b)

deriving instance DecidableEq for GVal

deriving instance DecidableEq for JNode

/-- Unfolding a successful `Except` bind into its two successful stages. -/
theorem exbind_ok {α β : Type} {x : Except String α} {f : α → Except String β} {b : β} :
    (x >>= f) = .ok b ↔ ∃ a, x = .ok a ∧ f a = .ok b := by
  cases x <;> simp [Bind.bind, Except.bind]

/-- A successful subscript means the value was a dict carrying the key. -/
theorem getKey_ok {v : GVal} {key : String} {x : GVal} :
    getKey v key = .ok x ↔ ∃ fs, v = .node fs ∧ getF fs key = some x := by
  cases v <;> simp [getKey]
  rcases h : getF _ key <;> simp [h]

/-- `checkkeys` succeeds exactly when every key of the scanned list is
allowed. -/
theorem checkkeys_ok_iff (l : List (String × GVal)) (allowed : List String) :
    checkkeys l allowed = .ok () ↔ ∀ kv ∈ l, kv.1 ∈ allowed := by
  induction l with
  | nil => simp [checkkeys]
  | cons hd tl ih =>
    by_cases h : hd.1 ∈ allowed
    · simp [checkkeys, h, ih]
    · simp [checkkeys, h]

/-- An `Except String Unit` is an error exactly when it is not the unit
success. -/
theorem isErr_unit (e : Except String Unit) : isErr e = true ↔ e ≠ .ok () := by
  rcases e with msg | u
  · simp [isErr]
  · cases u; simp [isErr]

/-- C1: the shape check `checknode` raises on any node carrying a field
whose name is neither on the supplied allow-list nor the `type` tag, for
every allow-list and every optional expected structural tag. -/
theorem C1_checknode_rejects_extra_field (fs : GFields) (keys : List String)
    (nodetype : Option String) (k : String) (v : GVal)
    (hmem : (k, v) ∈ fs.toList) (hk : k ∉ keys) (ht : k ≠ "type") :
    isErr (checknode (.node fs) keys nodetype) = true := by
  have hck : isErr (checkkeys fs.toList (keys ++ ["type"])) = true := by
    rw [isErr_unit]
    intro hok
    have := (checkkeys_ok_iff _ _).mp hok (k, v) hmem
    simp at this
    rcases this with h1 | h2
    · exact hk h1
    · exact ht h2
  cases nodetype with
  | none => simpa [checknode] using hck
  | some t =>
    rcases hg : getF fs "type" with _ | tv
    · simp [checknode, getKey, hg, Bind.bind, Except.bind, isErr]
    · by_cases hs : isStrVal tv t = true
      · simpa [checknode, getKey, hg, hs, Bind.bind, Except.bind] using hck
      · simp [checknode, getKey, hg, hs, Bind.bind, Except.bind, isErr]

/-- Witness for C1: a generic identifier node with an extra `extra` field is
rejected by the shape check. -/
theorem C1_witness :
    isErr (checknode (gnode [("type", .str "Identifier"), ("name", .str "x"),
      ("extra", .null)]) ["name"] none) = true :=
  C1_checknode_rejects_extra_field
    (gfieldsOf [("type", .str "Identifier"), ("name", .str "x"), ("extra", .null)])
    ["name"] none "extra" .null (by decide) (by decide) (by decide)

/-- Counterexample for C5: a `VariableDeclarator` node that is missing the
expected `init` field passes the shape check, and the full declarator load
succeeds (producing a declaration with no initialiser) — a field set that
deviates from the allow-list by a missing field does not abort the load. -/
theorem C5_counterexample :
    checknode (gnode [("type", .str "VariableDeclarator"),
        ("id", gnode [("type", .str "Identifier"), ("name", .str "x")])])
      ["id", "init"] (some "VariableDeclarator") = .ok () ∧
    loadVariableDeclaration 5 (gnode [("type", .str "VariableDeclarator"),
        ("id", gnode [("type", .str "Identifier"), ("name", .str "x")])])
      (.str "var")
      = .ok (.variableDeclaration (some (.str "x")) (some (.str "var")) .none) := by
  exact ⟨rfl, rfl⟩

/-- C5 (amended): the shape check rejects a generic node exactly when the
node carries a field outside the allow-list plus the `type` tag; a missing
expected field is not detected (the check passes whenever every present
field is allowed). -/
theorem C5_checknode_ok_iff_no_extra (fs : GFields) (keys : List String) :
    checknode (.node fs) keys none = .ok () ↔
      ∀ kv ∈ fs.toList, kv.1 ∈ keys ++ ["type"] := by
  simp [checknode, checkkeys_ok_iff]

/-- C2: the generic function node for `function f(a) { }` together with a
non-empty `defaults` list is accepted by `Function.load` — the source tests
`len(astnode['defaults']) < 0`, which never holds, so default parameter
values never raise and are silently dropped (the claim and the spec demand
a `StructuralViolation` here). -/
theorem C2_defaults_accepted :
    loadFunction 10 (gnode [("type", .str "FunctionDeclaration"),
        ("id", gnode [("type", .str "Identifier"), ("name", .str "f")]),
        ("params", glist [gnode [("type", .str "Identifier"), ("name", .str "a")]]),
        ("defaults", glist [gnode [("type", .str "Literal"), ("value", .num 1), ("raw", .str "1")]]),
        ("body", gnode [("type", .str "BlockStatement"), ("body", glist [])]),
        ("generator", .bool false), ("expression", .bool false)])
      FunctionK.declaration
      = .ok (.func (some (.str "f")) FunctionK.declaration
          (.cons (.operand OperandK.parameter (.str "a") (.str "a")) .nil)
          (.block .nil .nil .nil .nil false)) := by
  rfl


/-- Unfolding of the renderer on a binary operation node. -/
theorem pretty_operation_eq (o : GVal) (l r : JNode) (k : Nat) :
    pretty (.operation o l r k) =
    (if k = OperationK.assignment then do
      let a ← pretty l
      let oo ← asStr o
      let b ← pretty r
      some (a ++ " " ++ oo ++ " " ++ b)
    else if k = OperationK.dotmember then do
      let a ← pretty l
      let b ← pretty r
      some (a ++ "." ++ b)
    else if k = OperationK.bracketmember then do
      let a ← pretty l
      let b ← pretty r
      some (a ++ "[" ++ b ++ "]")
    else do
      let a ← if isOperandLeaf l then pretty l
              else (pretty l).map (fun s => "(" ++ s ++ ")")
      let oo ← asStr o
      let b ← if isOperandLeaf r then pretty r
              else (pretty r).map (fun s => "(" ++ s ++ ")")
      some (a ++ " " ++ oo ++ " " ++ b)) := rfl

/-- Unfolding of the renderer on a ternary conditional expression node. -/
theorem pretty_condexpr_eq (t c a : JNode) :
    pretty (.conditionalExpression t c a) =
    (do
      let ts ← pretty t
      let cs ← if isOperandLeaf c then pretty c
               else (pretty c).map (fun s => "(" ++ s ++ ")")
      let bs ← if isOperandLeaf a then pretty a
               else (pretty a).map (fun s => "(" ++ s ++ ")")
      some ("(" ++ ts ++ ") ? " ++ cs ++ " : " ++ bs)) := rfl

/-- Counterexample for C3: an assignment `Operation` whose right operand is
a compound expression (a general `Operation`, not an `Operand` leaf)
renders without any parentheses — `x = a + b`, not `x = (a + b)` — because
`Operation.pretty` bypasses `prettyoperand` for the assignment kind. -/
theorem C3_counterexample :
    pretty (.operation (.str "=") (.operand OperandK.identifier (.str "x") (.str "x"))
        (.operation (.str "+") (.operand OperandK.identifier (.str "a") (.str "a"))
          (.operand OperandK.identifier (.str "b") (.str "b")) OperationK.general)
        OperationK.assignment) = some "x = a + b" ∧
    isOperandLeaf (.operation (.str "+") (.operand OperandK.identifier (.str "a") (.str "a"))
        (.operand OperandK.identifier (.str "b") (.str "b")) OperationK.general) = false ∧
    ("x = a + b").toList.contains (Char.ofNat 40) = false := by
  exact ⟨rfl, rfl, by decide⟩

/-- C3 (amended): `prettyoperand` wraps every compound (non-`Operand`)
operand in parentheses, and the wrapping is applied to both operands of
`general`- and `logical`-kind operations and to the consequent and
alternate of a ternary conditional expression; an assignment-kind operation
(like the member-access kinds) renders its operands without the wrapping,
which is the one exception the counterexample forces. -/
theorem C3_compound_operands_parenthesized :
    (∀ e s, isOperandLeaf e = false → pretty e = some s →
      prettyoperand e = some ("(" ++ s ++ ")")) ∧
    (∀ o l r k a oo b, (k = OperationK.general ∨ k = OperationK.logical) →
      prettyoperand l = some a → asStr o = some oo → prettyoperand r = some b →
      pretty (.operation o l r k) = some (a ++ " " ++ oo ++ " " ++ b)) ∧
    (∀ t c a ts cs bs, pretty t = some ts → prettyoperand c = some cs →
      prettyoperand a = some bs →
      pretty (.conditionalExpression t c a) =
        some ("(" ++ ts ++ ") ? " ++ cs ++ " : " ++ bs)) ∧
    (∀ o l r a oo b, pretty l = some a → asStr o = some oo → pretty r = some b →
      pretty (.operation o l r OperationK.assignment) =
        some (a ++ " " ++ oo ++ " " ++ b)) := by
  refine ⟨?_, ?_, ?_, ?_⟩
  · intro e s he hs
    simp [prettyoperand, he, hs]
  · intro o l r k a oo b hk ha ho hb
    have h2 : k ≠ OperationK.assignment := by
      rcases hk with h | h <;> subst h <;> decide
    have h3 : k ≠ OperationK.dotmember := by
      rcases hk with h | h <;> subst h <;> decide
    have h4 : k ≠ OperationK.bracketmember := by
      rcases hk with h | h <;> subst h <;> decide
    rw [pretty_operation_eq, if_neg h2, if_neg h3, if_neg h4]
    simp only [prettyoperand] at ha hb
    by_cases hl : isOperandLeaf l = true <;> by_cases hr : isOperandLeaf r = true <;>
        simp [hl, hr] at ha hb ⊢
    · simp [ha, hb, ho]
    · obtain ⟨rb, hrb, hbeq⟩ := hb
      subst hbeq
      simp [ha, hrb, ho]
    · obtain ⟨la, hla, haeq⟩ := ha
      subst haeq
      simp [hla, hb, ho]
    · obtain ⟨la, hla, haeq⟩ := ha
      obtain ⟨rb, hrb, hbeq⟩ := hb
      subst haeq
      subst hbeq
      simp [hla, hrb, ho]
  · intro t c a ts cs bs ht hc ha
    rw [pretty_condexpr_eq, ht]
    simp only [prettyoperand] at hc ha
    by_cases h1 : isOperandLeaf c = true <;> by_cases h2 : isOperandLeaf a = true <;>
        simp [h1, h2] at hc ha ⊢
    · simp [hc, ha]
    · obtain ⟨rb, hrb, hbeq⟩ := ha
      subst hbeq
      simp [hc, hrb]
    · obtain ⟨la, hla, haeq⟩ := hc
      subst haeq
      simp [hla, ha]
    · obtain ⟨la, hla, haeq⟩ := hc
      obtain ⟨rb, hrb, hbeq⟩ := ha
      subst haeq
      subst hbeq
      simp [hla, hrb]
  · intro o l r a oo b ha ho hb
    rw [pretty_operation_eq, if_pos rfl, ha]
    simp only [Option.bind_eq_bind, Option.some_bind]
    rw [ho]
    simp only [Option.bind_eq_bind, Option.some_bind]
    rw [hb]
    simp only [Option.bind_eq_bind, Option.some_bind]

/-- Witness for C3 (amended), on the spec's own example: `(a + b) * c`
renders with the compound left operand parenthesized. -/
theorem C3_witness :
    pretty (.operation (.str "*")
        (.operation (.str "+") (.operand OperandK.identifier (.str "a") (.str "a"))
          (.operand OperandK.identifier (.str "b") (.str "b")) OperationK.general)
        (.operand OperandK.identifier (.str "c") (.str "c"))
        OperationK.general) = some ("(a + b)" ++ " " ++ "*" ++ " " ++ "c") :=
  C3_compound_operands_parenthesized.2.1 (.str "*")
    (.operation (.str "+") (.operand OperandK.identifier (.str "a") (.str "a"))
      (.operand OperandK.identifier (.str "b") (.str "b")) OperationK.general)
    (.operand OperandK.identifier (.str "c") (.str "c"))
    OperationK.general "(a + b)" "*" "c" (Or.inl rfl) rfl rfl rfl

/-- The semicolon-requiring statement kinds as the spec lists them:
operations, operands, modifiers, conditional expressions, calls, actions,
variable declarations and object literals. -/
def specSemicolonRequiring : JNode → Bool
  | .operation .. => true
  | .operand .. => true
  | .modifier .. => true
  | .conditionalExpression .. => true
  | .call .. => true
  | .action .. => true
  | .variableDeclaration .. => true
  | .object .. => true
  | _ => false

/-- The block-shaped statement kinds as the spec lists them: if/else
statements, for/while loops, for-in iterators, try handlers and nested
blocks. -/
def specBlockShaped : JNode → Bool
  | .conditionalStatement .. => true
  | .loop .. => true
  | .iterator .. => true
  | .handler .. => true
  | .block .. => true
  | _ => false

/-- C4: the block renderer appends the `;` terminator (with its newline) to
a rendered statement exactly when the statement's kind is one of the
spec's semicolon-requiring kinds, never to a block-shaped kind, and the
statement fold of `Block.pretty` emits exactly the rendering followed by
that terminator for each statement. -/
theorem C4_endmark_characterisation (s : JNode) :
    (endmark s = ";\n" ↔ specSemicolonRequiring s = true) ∧
    (specBlockShaped s = true → endmark s = "") ∧
    (∀ rest a b, pretty s = some a → prettyStmts rest = some b →
      prettyStmts (.cons s rest) = some (a ++ endmark s ++ b)) := by
  refine ⟨?_, ?_, ?_⟩
  · cases s <;> simp [endmark, reqsm, specSemicolonRequiring]
  · cases s <;> simp [endmark, reqsm, specBlockShaped]
  · intro rest a b ha hb
    show (do
      let x ← pretty s
      let y ← prettyStmts rest
      some (x ++ endmark s ++ y)) = some (a ++ endmark s ++ b)
    rw [ha]
    simp only [Option.bind_eq_bind, Option.some_bind]
    rw [hb]
    simp only [Option.bind_eq_bind, Option.some_bind]

/-- Witness for C4: a call statement gets the terminator inside a block
fold, a nested block gets none. -/
theorem C4_witness :
    endmark (.block .nil .nil .nil .nil false) = "" ∧
    prettyStmts (.cons (.operand OperandK.identifier (.str "a") (.str "a")) .nil) =
      some ("a" ++ endmark (.operand OperandK.identifier (.str "a") (.str "a")) ++ "") :=
  ⟨(C4_endmark_characterisation (.block .nil .nil .nil .nil false)).2.1 rfl,
   (C4_endmark_characterisation (.operand OperandK.identifier (.str "a") (.str "a"))).2.2
     .nil "a" "" rfl rfl⟩

/-- Counterexample for C7: constructing a `Property` of kind `method` whose
value is an already-constructed `Function` node alters that function node
(its `kind` becomes `objprop`, its `name` the empty string), and
constructing a `Program` alters the already-constructed `Block` (its `top`
flag becomes true) — so typed nodes are not immutable after construction. -/
theorem C7_counterexample :
    mkProperty PropertyK.method (.str "m")
        (.func (some (.str "f")) FunctionK.inline .nil (.block .nil .nil .nil .nil false))
      = .prop PropertyK.method (.str "m")
          (.func (some (.str "")) FunctionK.objprop .nil (.block .nil .nil .nil .nil false)) ∧
    (JNode.func (some (.str "")) FunctionK.objprop .nil (.block .nil .nil .nil .nil false))
      ≠ (JNode.func (some (.str "f")) FunctionK.inline .nil (.block .nil .nil .nil .nil false)) ∧
    mkProgram (.block .nil .nil .nil .nil false) = .program (.block .nil .nil .nil .nil true) := by
  exact ⟨rfl, by decide, rfl⟩

/-- C7 (amended): typed nodes are changed after construction in exactly two
places: constructing a `Property` of kind method/setter/getter whose value
is a `Function` overwrites that function's `kind` with `objprop` and its
`name` with the empty string (its parameters and body are preserved), and
constructing a `Program` overwrites its body block's `top` flag with true
(all other block fields preserved); every other property or program
construction leaves its arguments untouched. -/
theorem C7_construction_rewrites :
    (∀ k key v, ¬ (k = PropertyK.method ∨ k = PropertyK.setter ∨ k = PropertyK.getter) →
      mkProperty k key v = .prop k key v) ∧
    (∀ k key n fk ps b, (k = PropertyK.method ∨ k = PropertyK.setter ∨ k = PropertyK.getter) →
      mkProperty k key (.func n fk ps b) =
        .prop k key (.func (some (.str "")) FunctionK.objprop ps b)) ∧
    (∀ k key v, (∀ n fk ps b, v ≠ .func n fk ps b) → mkProperty k key v = .prop k key v) ∧
    (∀ a b c d t, mkProgram (.block a b c d t) = .program (.block a b c d true)) := by
  refine ⟨?_, ?_, ?_, ?_⟩
  · intro k key v h
    simp only [mkProperty, if_neg h]
  · intro k key n fk ps b h
    simp only [mkProperty, if_pos h]
  · intro k key v h
    by_cases hk : (k = PropertyK.method ∨ k = PropertyK.setter ∨ k = PropertyK.getter)
    · simp only [mkProperty, if_pos hk]
    · simp only [mkProperty, if_neg hk]
  · intro a b c d t
    rfl

/-- Witness for C7 (amended): a method property with a function value gets
its function rewritten, and an init property is untouched. -/
theorem C7_witness :
    mkProperty PropertyK.method (.str "m")
        (.func (some (.str "g")) FunctionK.inline .nil (.block .nil .nil .nil .nil false))
      = .prop PropertyK.method (.str "m")
          (.func (some (.str "")) FunctionK.objprop .nil (.block .nil .nil .nil .nil false)) ∧
    mkProperty PropertyK.init (.str "k") (.operand OperandK.identifier (.str "v") (.str "v"))
      = .prop PropertyK.init (.str "k") (.operand OperandK.identifier (.str "v") (.str "v")) :=
  ⟨C7_construction_rewrites.2.1 PropertyK.method (.str "m") (some (.str "g"))
      FunctionK.inline .nil (.block .nil .nil .nil .nil false) (Or.inl rfl),
   C7_construction_rewrites.1 PropertyK.init (.str "k")
      (.operand OperandK.identifier (.str "v") (.str "v")) (by decide)⟩

/-- A bind raises whenever every successful first stage leads to a raise
(in particular when the first stage itself raises). -/
theorem isErr_bind {α β : Type} (a : Except String α) (f : α → Except String β)
    (h : ∀ x, a = .ok x → isErr (f x) = true) : isErr (a >>= f) = true := by
  cases a with
  | error m => simp [isErr, Bind.bind, Except.bind]
  | ok x => simpa [Bind.bind, Except.bind] using h x rfl

/-- C8: try/catch loading raises unless the guarded-handlers collection is
the empty list and the handlers count matches the optional catch handler —
(a) a non-empty (or non-list) `guardedHandlers` raises; (b) a present
handler with a handlers array whose length is not 1 raises; (c) a present
handler whose `param` fails the simple-identifier shape check (e.g. a
destructured pattern) raises; (d) an absent handler with a non-empty
handlers array raises. -/
theorem C8_handler_validation (fuel : Nat) (fs : GFields) :
    (∀ gv, getF fs "guardedHandlers" = some gv → gv ≠ .list .nil →
      isErr (loadHandler fuel (.node fs)) = true) ∧
    (∀ hv lv n, getF fs "handler" = some hv → gIsNull hv = false →
      getF fs "handlers" = some lv → pyLen lv = some n → n ≠ 1 →
      isErr (loadHandler fuel (.node fs)) = true) ∧
    (∀ hv hfs pv, getF fs "handler" = some hv → gIsNull hv = false →
      hv = .node hfs → getF hfs "param" = some pv →
      isErr (checknode pv ["name"] (some "Identifier")) = true →
      isErr (loadHandler fuel (.node fs)) = true) ∧
    (∀ hv lv n, getF fs "handler" = some hv → gIsNull hv = true →
      getF fs "handlers" = some lv → pyLen lv = some n → 0 < n →
      isErr (loadHandler fuel (.node fs)) = true) := by
  cases fuel with
  | zero => exact ⟨fun _ _ _ => rfl, fun _ _ _ _ _ _ _ _ => rfl,
      fun _ _ _ _ _ _ _ _ => rfl, fun _ _ _ _ _ _ _ _ => rfl⟩
  | succ fuel =>
    refine ⟨?_, ?_, ?_, ?_⟩
    · intro gv hg hne
      simp only [loadHandler]
      apply isErr_bind; intro u hu
      apply isErr_bind; intro bv hbv
      apply isErr_bind; intro u2 hu2
      apply isErr_bind; intro gh hgh
      rw [getKey_ok] at hgh
      obtain ⟨fs2, hfs2, hget⟩ := hgh
      cases hfs2
      rw [hg] at hget
      cases hget
      cases gv with
      | list l => cases l with
        | nil => exact absurd rfl hne
        | cons a b => rfl
      | null => rfl
      | bool b => rfl
      | num n => rfl
      | str s => rfl
      | node f => rfl
    · intro hv lv n hhv hnull hlv hlen hne
      simp only [loadHandler]
      apply isErr_bind; intro u hu
      apply isErr_bind; intro bv hbv
      apply isErr_bind; intro u2 hu2
      apply isErr_bind; intro gh hgh
      cases gh with
      | list l => cases l with
        | cons a b => rfl
        | nil =>
          apply isErr_bind; intro bb hbb
          apply isErr_bind; intro blk hblk
          apply isErr_bind; intro hv2 hhv2
          rw [getKey_ok] at hhv2
          obtain ⟨fs2, hfs2, hget2⟩ := hhv2
          cases hfs2
          rw [hhv] at hget2
          cases hget2
          simp only [hnull, Bool.false_eq_true, not_false_eq_true, if_true, reduceIte]
          apply isErr_bind; intro hs hhs
          rw [getKey_ok] at hhs
          obtain ⟨fs3, hfs3, hget3⟩ := hhs
          cases hfs3
          rw [hlv] at hget3
          cases hget3
          simp only [hlen]
          rw [if_pos hne]
          rfl
      | null => rfl
      | bool b => rfl
      | num m => rfl
      | str s => rfl
      | node f => rfl
    · intro hv hfs pv hhv hnull hnode hparam hpcheck
      simp only [loadHandler]
      apply isErr_bind; intro u hu
      apply isErr_bind; intro bv hbv
      apply isErr_bind; intro u2 hu2
      apply isErr_bind; intro gh hgh
      cases gh with
      | list l => cases l with
        | cons a b => rfl
        | nil =>
          apply isErr_bind; intro bb hbb
          apply isErr_bind; intro blk hblk
          apply isErr_bind; intro hv2 hhv2
          rw [getKey_ok] at hhv2
          obtain ⟨fs2, hfs2, hget2⟩ := hhv2
          cases hfs2
          rw [hhv] at hget2
          cases hget2
          simp only [hnull, Bool.false_eq_true, not_false_eq_true, if_true, reduceIte]
          apply isErr_bind; intro hs hhs
          rcases hpl : pyLen hs with _ | n
          · simp only [hpl]; rfl
          · simp only [hpl]
            by_cases hn : n ≠ 1
            · rw [if_pos hn]; rfl
            · rw [if_neg hn]
              apply isErr_bind; intro u3 hu3
              apply isErr_bind; intro pv2 hpv2
              subst hnode
              rw [getKey_ok] at hpv2
              obtain ⟨fs4, hfs4, hget4⟩ := hpv2
              cases hfs4
              rw [hparam] at hget4
              cases hget4
              apply isErr_bind; intro u4 hu4
              rw [hu4] at hpcheck
              simp [isErr] at hpcheck
      | null => rfl
      | bool b => rfl
      | num m => rfl
      | str s => rfl
      | node f => rfl
    · intro hv lv n hhv hnull hlv hlen hpos
      simp only [loadHandler]
      apply isErr_bind; intro u hu
      apply isErr_bind; intro bv hbv
      apply isErr_bind; intro u2 hu2
      apply isErr_bind; intro gh hgh
      cases gh with
      | list l => cases l with
        | cons a b => rfl
        | nil =>
          apply isErr_bind; intro bb hbb
          apply isErr_bind; intro blk hblk
          apply isErr_bind; intro hv2 hhv2
          rw [getKey_ok] at hhv2
          obtain ⟨fs2, hfs2, hget2⟩ := hhv2
          cases hfs2
          rw [hhv] at hget2
          cases hget2
          simp only [hnull, not_true_eq_false, if_false, reduceIte]
          apply isErr_bind; intro hs hhs
          rw [getKey_ok] at hhs
          obtain ⟨fs3, hfs3, hget3⟩ := hhs
          cases hfs3
          rw [hlv] at hget3
          cases hget3
          simp only [hlen]
          rw [if_pos hpos]
          rfl
      | null => rfl
      | bool b => rfl
      | num m => rfl
      | str s => rfl
      | node f => rfl

/-- Witness for C8: a try statement whose `guardedHandlers` is a non-empty
list is rejected. -/
theorem C8_witness :
    isErr (loadHandler 1 (gnode [("type", .str "TryStatement"),
      ("block", gnode [("type", .str "BlockStatement"), ("body", glist [])]),
      ("handler", .null), ("guardedHandlers", glist [gnode []]),
      ("handlers", glist []), ("finalizer", .null)])) = true :=
  (C8_handler_validation 1 (gfieldsOf [("type", .str "TryStatement"),
      ("block", gnode [("type", .str "BlockStatement"), ("body", glist [])]),
      ("handler", .null), ("guardedHandlers", glist [gnode []]),
      ("handlers", glist []), ("finalizer", .null)])).1
    (glist [gnode []]) (by decide) (by decide)

/-- The elements of a `JList`, as an ordinary list. -/
def JList.toList : JList → List JNode
  | .nil => []
  | .cons n rest => n :: rest.toList

/-- The declarator loop loads one typed declaration per declarator, in
order, each against the declaration node's shared `kind` value. -/
theorem loadDeclarators_spec (kv : GVal) :
    ∀ fuel (items : List GVal) (x : GVal) (l : JList),
      getKey x "kind" = .ok kv → loadDeclarators fuel items x = .ok l →
      l.toList.length = items.length ∧
      ∀ i (hi : i < items.length) (hi2 : i < l.toList.length),
        ∃ fu, loadVariableDeclaration fu (items.get ⟨i, hi⟩) kv
                = .ok (l.toList.get ⟨i, hi2⟩) := by
  intro fuel
  induction fuel with
  | zero => intro items x l _ h; exact absurd h (by simp [loadDeclarators])
  | succ fuel ih =>
    intro items x l hkv h
    cases items with
    | nil =>
      simp only [loadDeclarators] at h
      cases h
      exact ⟨rfl, fun i hi => absurd hi (by simp)⟩
    | cons vdn rest =>
      simp only [loadDeclarators] at h
      rw [exbind_ok] at h
      obtain ⟨kv2, hkv2, h⟩ := h
      rw [hkv] at hkv2
      cases hkv2
      rw [exbind_ok] at h
      obtain ⟨vd, hvd, h⟩ := h
      rw [exbind_ok] at h
      obtain ⟨rest2, hrest2, h⟩ := h
      cases h
      obtain ⟨hlen, hidx⟩ := ih rest x rest2 hkv hrest2
      refine ⟨by simp [JList.toList, hlen], ?_⟩
      intro i hi hi2
      cases i with
      | zero => exact ⟨fuel, hvd⟩
      | succ i =>
        have hi' : i < rest.length := by simpa using hi
        have hi2' : i < rest2.toList.length := by simpa [JList.toList] using hi2
        exact hidx i hi' hi2'

/-- A generic value is python `None` exactly when `gIsNull` says so. -/
theorem gIsNull_true_iff (v : GVal) : gIsNull v = true ↔ v = .null := by
  cases v <;> simp [gIsNull]

/-- Shape of a successfully loaded declarator: the target name comes from
the declarator's identifier, the kind is the shared keyword value, and the
expression is the loaded initialiser when one is present (and not null). -/
theorem loadVariableDeclaration_shape (fuel : Nat) (vdn kindv : GVal) (vd : JNode)
    (h : loadVariableDeclaration fuel vdn kindv = .ok vd) :
    ∃ fs idv namev, vdn = .node fs ∧ getF fs "id" = some idv ∧
      getKey idv "name" = .ok namev ∧
      ((∃ iv e, getF fs "init" = some iv ∧ gIsNull iv = false ∧
          loadExpr (fuel - 1) iv = .ok e ∧
          vd = .variableDeclaration (some namev) (some kindv) (.some e)) ∨
       ((getF fs "init" = none ∨ getF fs "init" = some .null) ∧
          vd = .variableDeclaration (some namev) (some kindv) .none)) := by
  cases fuel with
  | zero => exact absurd h (by simp [loadVariableDeclaration])
  | succ fuel =>
    cases vdn with
    | node fs =>
      simp only [loadVariableDeclaration] at h
      rw [exbind_ok] at h
      obtain ⟨u, hu, h⟩ := h
      rw [exbind_ok] at h
      obtain ⟨idv, hidv, h⟩ := h
      rw [exbind_ok] at h
      obtain ⟨u2, hu2, h⟩ := h
      rw [exbind_ok] at h
      obtain ⟨namev, hnv, h⟩ := h
      rw [getKey_ok] at hidv
      obtain ⟨fs2, hfs2, hgid⟩ := hidv
      cases hfs2
      by_cases hinit : hasKey fs "init" = true
      · rw [if_pos hinit] at h
        rw [exbind_ok] at h
        obtain ⟨iv, hiv, h⟩ := h
        rw [getKey_ok] at hiv
        obtain ⟨fs3, hfs3, hgiv⟩ := hiv
        cases hfs3
        by_cases hnull : gIsNull iv = true
        · rw [if_neg (by simp [hnull])] at h
          cases h
          refine ⟨fs, idv, namev, rfl, hgid, hnv,
            Or.inr ⟨Or.inr ?_, rfl⟩⟩
          rw [gIsNull_true_iff] at hnull
          rw [← hnull]
          exact hgiv
        · rw [if_pos (by simp [Bool.not_eq_true] at hnull; simp [hnull])] at h
          rw [exbind_ok] at h
          obtain ⟨e, he, h⟩ := h
          cases h
          refine ⟨fs, idv, namev, rfl, hgid, hnv,
            Or.inl ⟨iv, e, hgiv, by simpa using hnull, by simpa using he, rfl⟩⟩
      · rw [if_neg hinit] at h
        cases h
        refine ⟨fs, idv, namev, rfl, hgid, hnv, Or.inr ⟨Or.inl ?_, rfl⟩⟩
        have := by simpa [hasKey, Option.isSome_iff_exists] using hinit
        exact Option.eq_none_iff_forall_not_mem.mpr (by
          intro a ha
          exact this a ha)
    | null => exact absurd h (by simp [loadVariableDeclaration])
    | bool b => exact absurd h (by simp [loadVariableDeclaration])
    | num n => exact absurd h (by simp [loadVariableDeclaration])
    | str s => exact absurd h (by simp [loadVariableDeclaration])
    | list gl => exact absurd h (by simp [loadVariableDeclaration])

/-- C9: a statement-level generic declaration with N declarators expands to
exactly N typed declarations in declarator order; each one is loaded from
the corresponding declarator against the declaration's shared keyword, and
carries that keyword as its kind, the declarator's identifier value as its
target name, and the loaded initialiser expression exactly when the
declarator has a non-null `init`. -/
theorem C9_vardecl_expansion (fuel : Nat) (fs : GFields) (ds : GList) (kv : GVal) (l : JList)
    (hds : getF fs "declarations" = some (.list ds))
    (hkv : getF fs "kind" = some kv)
    (hload : loadVardecl fuel (.node fs) = .ok l) :
    l.toList.length = ds.toList.length ∧
    (∀ i (hi : i < ds.toList.length) (hi2 : i < l.toList.length),
      ∃ fu, loadVariableDeclaration fu (ds.toList.get ⟨i, hi⟩) kv
              = .ok (l.toList.get ⟨i, hi2⟩)) ∧
    (∀ fu vdn vd, loadVariableDeclaration fu vdn kv = .ok vd →
      ∃ fsv idv namev, vdn = .node fsv ∧ getF fsv "id" = some idv ∧
        getKey idv "name" = .ok namev ∧
        ((∃ iv e, getF fsv "init" = some iv ∧ gIsNull iv = false ∧
            loadExpr (fu - 1) iv = .ok e ∧
            vd = .variableDeclaration (some namev) (some kv) (.some e)) ∨
         ((getF fsv "init" = none ∨ getF fsv "init" = some .null) ∧
            vd = .variableDeclaration (some namev) (some kv) .none))) := by
  cases fuel with
  | zero => exact absurd hload (by simp [loadVardecl])
  | succ fuel =>
    simp only [loadVardecl] at hload
    rw [exbind_ok] at hload
    obtain ⟨dsv, hdsv, hload⟩ := hload
    rw [getKey_ok] at hdsv
    obtain ⟨fs2, hfs2, hg⟩ := hdsv
    cases hfs2
    rw [hds] at hg
    cases hg
    simp only [pyIter] at hload
    obtain ⟨hlen, hidx⟩ := loadDeclarators_spec kv fuel ds.toList (.node fs) l
      (by simp [getKey, hkv]) hload
    exact ⟨hlen, hidx, fun fu vdn vd h => loadVariableDeclaration_shape fu vdn kv vd h⟩

/-- The node is a typed `VariableDeclaration`. -/
def isVD : JNode → Bool
  | .variableDeclaration .. => true
  | _ => false

/-- The node is a `Function` of declaration kind (the shape statement-level
function declarations load to). -/
def isFD : JNode → Bool
  | .func _ k _ _ => k = FunctionK.declaration
  | _ => false

/-- The node is neither a typed declaration, nor a declaration-kind
function, nor a bare statement list. -/
def stmtShapeOk : JNode → Bool
  | .variableDeclaration .. => false
  | .func _ k _ _ => k ≠ FunctionK.declaration
  | .stmtList _ => false
  | _ => true

/-- A declaration-shaped node is never a declaration-kind function. -/
theorem isVD_isFD_disjoint (r : JNode) : isVD r = true → isFD r = false := by
  cases r <;> simp [isVD, isFD]

/-- `stmtShapeOk` excludes both partition shapes. -/
theorem stmtShapeOk_spec (r : JNode) (h : stmtShapeOk r = true) :
    isVD r = false ∧ isFD r = false ∧ ∀ dl, r ≠ .stmtList dl := by
  cases r <;> simp_all [stmtShapeOk, isVD, isFD]

/-- `jappend` concatenates the element lists. -/
theorem jappend_toList : ∀ (a b : JList),
    (jappend a b).toList = a.toList ++ b.toList
  | .nil, b => by simp [jappend, JList.toList]
  | .cons x xs, b => by simp [jappend, JList.toList, jappend_toList xs b]

/-- A successful `Function.load` returns a function node of the requested
kind. -/
theorem loadFunction_shape (fuel : Nat) (ast : GVal) (d : Nat) (r : JNode)
    (h : loadFunction fuel ast d = .ok r) : ∃ n ps b, r = .func n d ps b := by
  cases fuel with
  | zero => exact absurd h (by simp [loadFunction])
  | succ fuel =>
    simp only [loadFunction] at h
    repeat any_goals first
      | (rw [exbind_ok] at h; obtain ⟨_, _, h⟩ := h)
      | split at h
      | simp at h
    all_goals first
      | exact ⟨_, _, _, h.symm⟩
      | exact ⟨_, _, _, h⟩

/-- A successful `Call.load` returns a call node. -/
theorem loadCall_stmtShape (fuel : Nat) (ast : GVal) (k : Nat) (r : JNode)
    (h : loadCall fuel ast k = .ok r) : stmtShapeOk r = true := by
  cases fuel with
  | zero => exact absurd h (by simp [loadCall])
  | succ fuel =>
    simp only [loadCall] at h
    repeat any_goals first
      | (rw [exbind_ok] at h; obtain ⟨_, _, h⟩ := h)
      | split at h
      | simp at h
    all_goals subst h
    all_goals rfl

/-- A successful `Combinator.load` returns a combinator node. -/
theorem loadCombinator_stmtShape (fuel : Nat) (v : GVal) (kind : String) (r : JNode)
    (h : loadCombinator fuel v kind = .ok r) : stmtShapeOk r = true := by
  cases fuel with
  | zero => exact absurd h (by simp [loadCombinator])
  | succ fuel =>
    simp only [loadCombinator] at h
    repeat any_goals first
      | (rw [exbind_ok] at h; obtain ⟨_, _, h⟩ := h)
      | split at h
      | simp at h
    all_goals subst h
    all_goals rfl

/-- A successful `Object.load` returns an object node. -/
theorem loadObject_stmtShape (fuel : Nat) (ast : GVal) (r : JNode)
    (h : loadObject fuel ast = .ok r) : stmtShapeOk r = true := by
  cases fuel with
  | zero => exact absurd h (by simp [loadObject])
  | succ fuel =>
    simp only [loadObject] at h
    repeat any_goals first
      | (rw [exbind_ok] at h; obtain ⟨_, _, h⟩ := h)
      | split at h
      | simp at h
    all_goals subst h
    all_goals rfl

/-- A successful `Expression.load` returns an expression-shaped node: never
a typed declaration, a declaration-kind function, or a statement list. -/
theorem loadExpr_stmtShape (fuel : Nat) (ast : GVal) (r : JNode)
    (h : loadExpr fuel ast = .ok r) : stmtShapeOk r = true := by
  cases fuel with
  | zero => exact absurd h (by simp [loadExpr])
  | succ fuel =>
    simp only [loadExpr] at h
    split at h
    case _ fs =>
      rw [exbind_ok] at h
      obtain ⟨tv, htv, h⟩ := h
      by_cases h1 : isStrVal tv "Literal" = true
      · rw [if_pos h1] at h
        repeat (rw [exbind_ok] at h; obtain ⟨_, _, h⟩ := h)
        simp only [Except.ok.injEq] at h
        subst h
        rfl
      rw [if_neg h1] at h
      by_cases h2 : isStrVal tv "CallExpression" = true
      · rw [if_pos h2] at h
        exact loadCall_stmtShape _ _ _ _ h
      rw [if_neg h2] at h
      by_cases h3 : isStrVal tv "NewExpression" = true
      · rw [if_pos h3] at h
        exact loadCall_stmtShape _ _ _ _ h
      rw [if_neg h3] at h
      by_cases h4 : isStrVal tv "FunctionExpression" = true
      · rw [if_pos h4] at h
        obtain ⟨n, ps, b, hr⟩ := loadFunction_shape _ _ _ _ h
        subst hr
        rfl
      rw [if_neg h4] at h
      by_cases h5 : isStrVal tv "MemberExpression" = true
      · rw [if_pos h5] at h
        repeat (rw [exbind_ok] at h; obtain ⟨_, _, h⟩ := h)
        simp only [Except.ok.injEq] at h
        subst h
        rfl
      rw [if_neg h5] at h
      by_cases h6 : isStrVal tv "Identifier" = true
      · rw [if_pos h6] at h
        repeat (rw [exbind_ok] at h; obtain ⟨_, _, h⟩ := h)
        simp only [Except.ok.injEq] at h
        subst h
        rfl
      rw [if_neg h6] at h
      by_cases h7 : isStrVal tv "ThisExpression" = true
      · rw [if_pos h7] at h
        repeat (rw [exbind_ok] at h; obtain ⟨_, _, h⟩ := h)
        simp only [Except.ok.injEq] at h
        subst h
        rfl
      rw [if_neg h7] at h
      by_cases h8 : isStrVal tv "BinaryExpression" = true
      · rw [if_pos h8] at h
        repeat (rw [exbind_ok] at h; obtain ⟨_, _, h⟩ := h)
        simp only [Except.ok.injEq] at h
        subst h
        rfl
      rw [if_neg h8] at h
      by_cases h9 : isStrVal tv "AssignmentExpression" = true
      · rw [if_pos h9] at h
        repeat (rw [exbind_ok] at h; obtain ⟨_, _, h⟩ := h)
        simp only [Except.ok.injEq] at h
        subst h
        rfl
      rw [if_neg h9] at h
      by_cases h10 : isStrVal tv "LogicalExpression" = true
      · rw [if_pos h10] at h
        repeat (rw [exbind_ok] at h; obtain ⟨_, _, h⟩ := h)
        simp only [Except.ok.injEq] at h
        subst h
        rfl
      rw [if_neg h10] at h
      by_cases h11 : isStrVal tv "ConditionalExpression" = true
      · rw [if_pos h11] at h
        repeat (rw [exbind_ok] at h; obtain ⟨_, _, h⟩ := h)
        simp only [Except.ok.injEq] at h
        subst h
        rfl
      rw [if_neg h11] at h
      by_cases h12 : isStrVal tv "UnaryExpression" = true ∨ isStrVal tv "UpdateExpression" = true
      · rw [if_pos h12] at h
        repeat (rw [exbind_ok] at h; obtain ⟨_, _, h⟩ := h)
        simp only [Except.ok.injEq] at h
        subst h
        rfl
      rw [if_neg h12] at h
      by_cases h13 : isStrVal tv "ArrayExpression" = true
      · rw [if_pos h13] at h
        repeat (rw [exbind_ok] at h; obtain ⟨_, _, h⟩ := h)
        exact loadCombinator_stmtShape _ _ _ _ h
      rw [if_neg h13] at h
      by_cases h14 : isStrVal tv "ObjectExpression" = true
      · rw [if_pos h14] at h
        exact loadObject_stmtShape _ _ _ h
      rw [if_neg h14] at h
      simp at h
    case _ => simp at h

/-- A successful `Block.loadconditional` returns an if/else statement node. -/
theorem loadConditional_stmtShape (fuel : Nat) (x : GVal) (r : JNode)
    (h : loadConditional fuel x = .ok r) : stmtShapeOk r = true := by
  cases fuel with
  | zero => exact absurd h (by simp [loadConditional])
  | succ fuel =>
    simp only [loadConditional] at h
    repeat any_goals first
      | (rw [exbind_ok] at h; obtain ⟨_, _, h⟩ := h)
      | split at h
      | simp at h
    all_goals subst h
    all_goals rfl

/-- A successful `Iterator.load` returns a for-in iterator node. -/
theorem loadIterator_stmtShape (fuel : Nat) (x : GVal) (r : JNode)
    (h : loadIterator fuel x = .ok r) : stmtShapeOk r = true := by
  cases fuel with
  | zero => exact absurd h (by simp [loadIterator])
  | succ fuel =>
    simp only [loadIterator] at h
    repeat any_goals first
      | (rw [exbind_ok] at h; obtain ⟨_, _, h⟩ := h)
      | split at h
      | simp at h
    all_goals subst h
    all_goals rfl

/-- A successful `Loop.loadfor` returns a for-loop node. -/
theorem loadFor_stmtShape (fuel : Nat) (x : GVal) (r : JNode)
    (h : loadFor fuel x = .ok r) : stmtShapeOk r = true := by
  cases fuel with
  | zero => exact absurd h (by simp [loadFor])
  | succ fuel =>
    simp only [loadFor] at h
    repeat any_goals first
      | (rw [exbind_ok] at h; obtain ⟨_, _, h⟩ := h)
      | split at h
      | simp at h
    all_goals subst h
    all_goals rfl

/-- A successful `Loop.loadwhile` returns a while-loop node. -/
theorem loadWhile_stmtShape (fuel : Nat) (x : GVal) (r : JNode)
    (h : loadWhile fuel x = .ok r) : stmtShapeOk r = true := by
  cases fuel with
  | zero => exact absurd h (by simp [loadWhile])
  | succ fuel =>
    simp only [loadWhile] at h
    repeat any_goals first
      | (rw [exbind_ok] at h; obtain ⟨_, _, h⟩ := h)
      | split at h
      | simp at h
    all_goals subst h
    all_goals rfl

/-- A successful `Handler.load` returns a try/catch node. -/
theorem loadHandler_stmtShape (fuel : Nat) (x : GVal) (r : JNode)
    (h : loadHandler fuel x = .ok r) : stmtShapeOk r = true := by
  cases fuel with
  | zero => exact absurd h (by simp [loadHandler])
  | succ fuel =>
    simp only [loadHandler] at h
    repeat any_goals first
      | (rw [exbind_ok] at h; obtain ⟨_, _, h⟩ := h)
      | split at h
      | simp at h
    all_goals subst h
    all_goals rfl

/-- A successful `Block.load` returns a non-top block node. -/
theorem loadBlock_shape (fuel : Nat) (v : GVal) (r : JNode)
    (h : loadBlock fuel v = .ok r) :
    ∃ a b c d, r = .block a b c d false := by
  cases fuel with
  | zero => exact absurd h (by simp [loadBlock])
  | succ fuel =>
    simp only [loadBlock] at h
    repeat any_goals first
      | (rw [exbind_ok] at h; obtain ⟨_, _, h⟩ := h)
      | split at h
      | simp at h
    all_goals first
      | exact ⟨_, _, _, _, h.symm⟩
      | exact ⟨_, _, _, _, h⟩

/-- A successful `Block.loadcontrol` returns a break/continue action node. -/
theorem loadcontrol_shape (x : GVal) (k : Nat) (r : JNode)
    (h : loadcontrol x k = .ok r) : r = .action .none k := by
  simp only [loadcontrol] at h
  repeat any_goals first
    | (rw [exbind_ok] at h; obtain ⟨_, _, h⟩ := h)
    | split at h
    | simp at h
  all_goals first
    | exact h.symm
    | exact h

/-- Every node produced by the declarator loop is a typed declaration. -/
theorem loadDeclarators_allVD :
    ∀ fuel (items : List GVal) (x : GVal) (l : JList),
      loadDeclarators fuel items x = .ok l →
      ∀ st ∈ l.toList, isVD st = true := by
  intro fuel
  induction fuel with
  | zero => intro items x l h; exact absurd h (by simp [loadDeclarators])
  | succ fuel ih =>
    intro items x l h
    cases items with
    | nil =>
      simp only [loadDeclarators] at h
      cases h
      simp [JList.toList]
    | cons vdn rest =>
      simp only [loadDeclarators] at h
      rw [exbind_ok] at h
      obtain ⟨kv, hkv, h⟩ := h
      rw [exbind_ok] at h
      obtain ⟨vd, hvd, h⟩ := h
      rw [exbind_ok] at h
      obtain ⟨rest2, hrest2, h⟩ := h
      simp only [Except.ok.injEq] at h
      subst h
      intro st hst
      simp only [JList.toList, List.mem_cons] at hst
      rcases hst with hst | hst
      · subst hst
        obtain ⟨fs, idv, namev, _, _, _, hdisj⟩ :=
          loadVariableDeclaration_shape fuel vdn kv st hvd
        rcases hdisj with ⟨_, _, _, _, _, heq⟩ | ⟨_, heq⟩ <;> subst heq <;> rfl
      · exact ih rest x rest2 hrest2 st hst

/-- Every node produced by `Block.loadvardecl` is a typed declaration. -/
theorem loadVardecl_allVD (fuel : Nat) (x : GVal) (l : JList)
    (h : loadVardecl fuel x = .ok l) : ∀ st ∈ l.toList, isVD st = true := by
  cases fuel with
  | zero => exact absurd h (by simp [loadVardecl])
  | succ fuel =>
    simp only [loadVardecl] at h
    rw [exbind_ok] at h
    obtain ⟨ds, hds, h⟩ := h
    rcases hit : pyIter ds with _ | items
    · rw [hit] at h; exact absurd h (by simp)
    · rw [hit] at h
      exact loadDeclarators_allVD fuel items x l h

/-- Constructor disequality for generic strings. -/
theorem gstr_ne {s t : String} (h : s ≠ t) : GVal.str s ≠ GVal.str t := by
  intro heq
  injection heq with hh
  exact h hh

/-- A successful `Block.loadstatement` is fully characterised by the generic
type tag: a `VariableDeclaration` yields a bare list of typed declarations,
a `FunctionDeclaration` yields a declaration-kind function node, and every
other tag yields a node that is neither of those shapes nor a list. -/
theorem loadStatement_shape (fuel : Nat) (x : GVal) (r : JNode)
    (h : loadStatement fuel x = .ok r) :
    ∃ tv, getKey x "type" = .ok tv ∧
      ((tv = .str "VariableDeclaration" ∧ ∃ dl, r = .stmtList dl ∧
          ∀ st ∈ dl.toList, isVD st = true) ∨
       (tv = .str "FunctionDeclaration" ∧
          ∃ n ps b, r = .func n FunctionK.declaration ps b) ∨
       (tv ≠ .str "VariableDeclaration" ∧ tv ≠ .str "FunctionDeclaration" ∧
          stmtShapeOk r = true)) := by
  cases fuel with
  | zero => exact absurd h (by simp [loadStatement])
  | succ fuel =>
    simp only [loadStatement] at h
    rw [exbind_ok] at h
    obtain ⟨tv, htv, h⟩ := h
    refine ⟨tv, htv, ?_⟩
    split at h
    case _ s =>
      rcases hcs : checksOf s with _ | c
      · simp only [hcs] at h
        simp at h
      simp only [hcs] at h
      rw [exbind_ok] at h
      obtain ⟨u, hcheck, h⟩ := h
      by_cases hv : s = "VariableDeclaration"
      · rw [if_pos hv] at h
        rw [exbind_ok] at h
        obtain ⟨dl, hdl, h⟩ := h
        simp only [Except.ok.injEq] at h
        subst h
        exact Or.inl ⟨by rw [hv], dl, rfl, loadVardecl_allVD _ _ _ hdl⟩
      rw [if_neg hv] at h
      by_cases he : s = "ExpressionStatement"
      · rw [if_pos he] at h
        rw [exbind_ok] at h
        obtain ⟨v, _, h⟩ := h
        exact Or.inr (Or.inr ⟨gstr_ne hv, gstr_ne (by simp [he]),
          loadExpr_stmtShape _ _ _ h⟩)
      rw [if_neg he] at h
      by_cases hf : s = "FunctionDeclaration"
      · rw [if_pos hf] at h
        exact Or.inr (Or.inl ⟨by rw [hf], loadFunction_shape _ _ _ _ h⟩)
      rw [if_neg hf] at h
      by_cases hes : s = "EmptyStatement"
      · rw [if_pos hes] at h
        simp only [Except.ok.injEq] at h
        subst h
        exact Or.inr (Or.inr ⟨gstr_ne hv, gstr_ne hf, rfl⟩)
      rw [if_neg hes] at h
      by_cases hr : s = "ReturnStatement"
      · rw [if_pos hr] at h
        rw [exbind_ok] at h
        obtain ⟨v, _, h⟩ := h
        rw [exbind_ok] at h
        obtain ⟨e, _, h⟩ := h
        simp only [Except.ok.injEq] at h
        subst h
        exact Or.inr (Or.inr ⟨gstr_ne hv, gstr_ne hf, rfl⟩)
      rw [if_neg hr] at h
      by_cases hi : s = "IfStatement"
      · rw [if_pos hi] at h
        exact Or.inr (Or.inr ⟨gstr_ne hv, gstr_ne hf,
          loadConditional_stmtShape _ _ _ h⟩)
      rw [if_neg hi] at h
      by_cases hb : s = "BlockStatement"
      · rw [if_pos hb] at h
        rw [exbind_ok] at h
        obtain ⟨v, _, h⟩ := h
        obtain ⟨a, b2, c, d, hrr⟩ := loadBlock_shape _ _ _ h
        subst hrr
        exact Or.inr (Or.inr ⟨gstr_ne hv, gstr_ne hf, rfl⟩)
      rw [if_neg hb] at h
      by_cases ht : s = "ThrowStatement"
      · rw [if_pos ht] at h
        rw [exbind_ok] at h
        obtain ⟨v, _, h⟩ := h
        rw [exbind_ok] at h
        obtain ⟨e, _, h⟩ := h
        simp only [Except.ok.injEq] at h
        subst h
        exact Or.inr (Or.inr ⟨gstr_ne hv, gstr_ne hf, rfl⟩)
      rw [if_neg ht] at h
      by_cases hfo : s = "ForStatement"
      · rw [if_pos hfo] at h
        exact Or.inr (Or.inr ⟨gstr_ne hv, gstr_ne hf, loadFor_stmtShape _ _ _ h⟩)
      rw [if_neg hfo] at h
      by_cases hfi : s = "ForInStatement"
      · rw [if_pos hfi] at h
        exact Or.inr (Or.inr ⟨gstr_ne hv, gstr_ne hf,
          loadIterator_stmtShape _ _ _ h⟩)
      rw [if_neg hfi] at h
      by_cases hbr : s = "BreakStatement"
      · rw [if_pos hbr] at h
        rw [loadcontrol_shape _ _ _ h]
        exact Or.inr (Or.inr ⟨gstr_ne hv, gstr_ne hf, rfl⟩)
      rw [if_neg hbr] at h
      by_cases hco : s = "ContinueStatement"
      · rw [if_pos hco] at h
        rw [loadcontrol_shape _ _ _ h]
        exact Or.inr (Or.inr ⟨gstr_ne hv, gstr_ne hf, rfl⟩)
      rw [if_neg hco] at h
      by_cases hw : s = "WhileStatement"
      · rw [if_pos hw] at h
        exact Or.inr (Or.inr ⟨gstr_ne hv, gstr_ne hf, loadWhile_stmtShape _ _ _ h⟩)
      rw [if_neg hw] at h
      by_cases htr : s = "TryStatement"
      · rw [if_pos htr] at h
        exact Or.inr (Or.inr ⟨gstr_ne hv, gstr_ne hf,
          loadHandler_stmtShape _ _ _ h⟩)
      rw [if_neg htr] at h
      simp at h
    case _ => simp at h

/-- The `Block.load` dispatch table sends `VariableDeclaration` statements
to `vardecl` (0), `FunctionDeclaration` statements to `funcs` (2) and every
other recognised tag to `exprs` (1). -/
theorem dispatchOf_spec (tv : GVal) (i : Nat) (h : dispatchOf tv = .ok i) :
    (i = 0 ∧ tv = .str "VariableDeclaration") ∨
    (i = 2 ∧ tv = .str "FunctionDeclaration") ∨
    (i = 1 ∧ tv ≠ .str "VariableDeclaration" ∧ tv ≠ .str "FunctionDeclaration") := by
  cases tv with
  | str s =>
    simp only [dispatchOf] at h
    by_cases h1 : s = "VariableDeclaration"
    · rw [if_pos h1] at h
      simp only [Except.ok.injEq] at h
      exact Or.inl ⟨h.symm, by rw [h1]⟩
    rw [if_neg h1] at h
    by_cases h2 : s = "FunctionDeclaration"
    · rw [if_pos h2] at h
      simp only [Except.ok.injEq] at h
      exact Or.inr (Or.inl ⟨h.symm, by rw [h2]⟩)
    rw [if_neg h2] at h
    split at h
    · simp only [Except.ok.injEq] at h
      exact Or.inr (Or.inr ⟨h.symm, gstr_ne h1, gstr_ne h2⟩)
    · exact absurd h (by simp)
  | null => exact absurd h (by simp [dispatchOf])
  | bool b => exact absurd h (by simp [dispatchOf])
  | num n => exact absurd h (by simp [dispatchOf])
  | node fs => exact absurd h (by simp [dispatchOf])
  | list l => exact absurd h (by simp [dispatchOf])

/-- A statement that is not a bare list is wrapped as a one-element list. -/
theorem toStmts_eq_single (r : JNode) (h : ∀ dl, r ≠ .stmtList dl) :
    toStmts r = .cons r .nil := by
  cases r <;> first | rfl | exact absurd rfl (h _)

/-- The statement loop of `Block.load`: the kind-specific lists hold only
nodes of their kind (declarations in `vardecl`, declaration-kind functions
in `funcs`, neither shape in `exprs`), every statement lands in one of the
three lists, and the `statements` list is the in-order concatenation of the
per-input loaded statement lists. -/
theorem loadBlockItems_partition :
    ∀ fuel (items : List GVal) (v e f st : JList),
      loadBlockItems fuel items = .ok (v, e, f, st) →
      (∀ n ∈ v.toList, isVD n = true) ∧
      (∀ n ∈ e.toList, isVD n = false ∧ isFD n = false) ∧
      (∀ n ∈ f.toList, isFD n = true) ∧
      (∀ n ∈ st.toList, n ∈ v.toList ∨ n ∈ e.toList ∨ n ∈ f.toList) ∧
      (∃ rs : List (List JNode), st.toList = rs.flatten ∧ rs.length = items.length ∧
        ∀ i (hi : i < items.length) (hi2 : i < rs.length),
          ∃ fu r, loadStatement fu (items.get ⟨i, hi⟩) = .ok r ∧
            rs.get ⟨i, hi2⟩ = (toStmts r).toList) := by
  intro fuel
  induction fuel with
  | zero => intro items v e f st h; exact absurd h (by simp [loadBlockItems])
  | succ fuel ih =>
    intro items v e f st h
    cases items with
    | nil =>
      simp only [loadBlockItems] at h
      simp only [Except.ok.injEq, Prod.mk.injEq] at h
      obtain ⟨hv, he, hf, hst⟩ := h
      subst hv
      subst he
      subst hf
      subst hst
      exact ⟨by simp [JList.toList], by simp [JList.toList], by simp [JList.toList],
        by simp [JList.toList],
        ⟨[], by simp [JList.toList], rfl, fun i hi => absurd hi (by simp)⟩⟩
    | cons x xs =>
      simp only [loadBlockItems] at h
      rw [exbind_ok] at h
      obtain ⟨tv, htv, h⟩ := h
      rw [exbind_ok] at h
      obtain ⟨stmt, hstmt, h⟩ := h
      rw [exbind_ok] at h
      obtain ⟨fi, hfi, h⟩ := h
      rw [exbind_ok] at h
      obtain ⟨rest, hrest, h⟩ := h
      obtain ⟨rv, re, rf, rs⟩ := rest
      obtain ⟨ihv, ihe, ihf, ihm, ihrs⟩ := ih xs rv re rf rs hrest
      obtain ⟨tv2, htv2, hdisj⟩ := loadStatement_shape fuel x stmt hstmt
      rw [htv] at htv2
      injection htv2 with htv2
      subst htv2
      obtain ⟨rsl, hflat, hlen, hidx⟩ := ihrs
      rcases dispatchOf_spec tv fi hfi with ⟨hfi0, htag⟩ | ⟨hfi2, htag⟩ | ⟨hfi1, h1, h2⟩
      · subst hfi0
        subst htag
        rcases hdisj with ⟨_, dl, hdl, halldl⟩ | ⟨habs, _⟩ | ⟨habs, _⟩
        · subst hdl
          rw [if_pos rfl] at h
          simp only [Except.ok.injEq, Prod.mk.injEq] at h
          obtain ⟨hv, he, hf, hst⟩ := h
          subst hv
          subst he
          subst hf
          subst hst
          refine ⟨?_, ihe, ihf, ?_, ?_⟩
          · intro n hn
            rw [jappend_toList] at hn
            rcases List.mem_append.mp hn with hn | hn
            · exact halldl n (by simpa [toStmts] using hn)
            · exact ihv n hn
          · intro n hn
            rw [jappend_toList] at hn
            rcases List.mem_append.mp hn with hn | hn
            · exact Or.inl (by rw [jappend_toList]; exact List.mem_append.mpr (Or.inl hn))
            · rcases ihm n hn with hm | hm | hm
              · exact Or.inl (by rw [jappend_toList]; exact List.mem_append.mpr (Or.inr hm))
              · exact Or.inr (Or.inl hm)
              · exact Or.inr (Or.inr hm)
          · refine ⟨(toStmts (.stmtList dl)).toList :: rsl, ?_, by simp [hlen], ?_⟩
            · rw [jappend_toList, hflat]
              simp
            · intro i hi hi2
              cases i with
              | zero => exact ⟨fuel, .stmtList dl, hstmt, rfl⟩
              | succ i => exact hidx i (by simpa using hi) (by simpa using hi2)
        · exact absurd habs (by decide)
        · exact absurd rfl habs
      · subst hfi2
        subst htag
        rcases hdisj with ⟨habs, _⟩ | ⟨_, n0, ps, b0, hfn⟩ | ⟨_, habs, _⟩
        · exact absurd habs (by decide)
        · subst hfn
          rw [if_neg (by decide), if_pos rfl] at h
          simp only [Except.ok.injEq, Prod.mk.injEq] at h
          obtain ⟨hv, he, hf, hst⟩ := h
          subst hv
          subst he
          subst hf
          subst hst
          refine ⟨ihv, ihe, ?_, ?_, ?_⟩
          · intro n hn
            rw [jappend_toList] at hn
            rcases List.mem_append.mp hn with hn | hn
            · simp only [toStmts, JList.toList, List.mem_singleton] at hn
              subst hn
              rfl
            · exact ihf n hn
          · intro n hn
            rw [jappend_toList] at hn
            rcases List.mem_append.mp hn with hn | hn
            · exact Or.inr (Or.inr (by rw [jappend_toList]; exact List.mem_append.mpr (Or.inl hn)))
            · rcases ihm n hn with hm | hm | hm
              · exact Or.inl hm
              · exact Or.inr (Or.inl hm)
              · exact Or.inr (Or.inr (by rw [jappend_toList]; exact List.mem_append.mpr (Or.inr hm)))
          · refine ⟨(toStmts (.func n0 FunctionK.declaration ps b0)).toList :: rsl, ?_,
              by simp [hlen], ?_⟩
            · rw [jappend_toList, hflat]
              simp
            · intro i hi hi2
              cases i with
              | zero => exact ⟨fuel, _, hstmt, rfl⟩
              | succ i => exact hidx i (by simpa using hi) (by simpa using hi2)
        · exact absurd rfl habs
      · subst hfi1
        rcases hdisj with ⟨habs, _⟩ | ⟨habs, _⟩ | ⟨_, _, hshape⟩
        · exact absurd habs h1
        · exact absurd habs h2
        · obtain ⟨hnv, hnf, hnl⟩ := stmtShapeOk_spec stmt hshape
          rw [toStmts_eq_single stmt hnl] at h
          rw [if_neg (by decide), if_neg (by decide)] at h
          simp only [Except.ok.injEq, Prod.mk.injEq] at h
          obtain ⟨hv, he, hf, hst⟩ := h
          subst hv
          subst he
          subst hf
          subst hst
          refine ⟨ihv, ?_, ihf, ?_, ?_⟩
          · intro n hn
            rw [jappend_toList] at hn
            rcases List.mem_append.mp hn with hn | hn
            · simp only [JList.toList, List.mem_singleton] at hn
              subst hn
              exact ⟨hnv, hnf⟩
            · exact ihe n hn
          · intro n hn
            rw [jappend_toList] at hn
            rcases List.mem_append.mp hn with hn | hn
            · exact Or.inr (Or.inl (by rw [jappend_toList]; exact List.mem_append.mpr (Or.inl hn)))
            · rcases ihm n hn with hm | hm | hm
              · exact Or.inl hm
              · exact Or.inr (Or.inl (by rw [jappend_toList]; exact List.mem_append.mpr (Or.inr hm)))
              · exact Or.inr (Or.inr hm)
          · refine ⟨(JList.cons stmt .nil).toList :: rsl, ?_, by simp [hlen], ?_⟩
            · rw [jappend_toList, hflat]
              simp
            · intro i hi hi2
              cases i with
              | zero =>
                refine ⟨fuel, stmt, hstmt, ?_⟩
                rw [toStmts_eq_single stmt hnl]
                rfl
              | succ i => exact hidx i (by simpa using hi) (by simpa using hi2)

/-- C10: a successfully loaded block holds the typed statements in generic
input order (the `statements` list is the in-order concatenation of the
per-input loaded statement lists, a multi-declarator declaration expanding
in place), and every statement of that list appears in exactly one of the
kind-specific lists `vardecl`, `exprs`, `funcs`. -/
theorem C10_block_partition (fuel : Nat) (gv : GVal) (b : JNode)
    (h : loadBlock fuel gv = .ok b) :
    ∃ (v e f st : JList) (items : List GVal), pyIter gv = some items ∧
      b = .block v e f st false ∧
      (∀ n ∈ st.toList, (n ∈ v.toList ∧ n ∉ e.toList ∧ n ∉ f.toList) ∨
        (n ∉ v.toList ∧ n ∈ e.toList ∧ n ∉ f.toList) ∨
        (n ∉ v.toList ∧ n ∉ e.toList ∧ n ∈ f.toList)) ∧
      (∃ rs : List (List JNode), st.toList = rs.flatten ∧ rs.length = items.length ∧
        ∀ i (hi : i < items.length) (hi2 : i < rs.length),
          ∃ fu r, loadStatement fu (items.get ⟨i, hi⟩) = .ok r ∧
            rs.get ⟨i, hi2⟩ = (toStmts r).toList) := by
  cases fuel with
  | zero => exact absurd h (by simp [loadBlock])
  | succ fuel =>
    simp only [loadBlock] at h
    rcases hit : pyIter gv with _ | items
    · simp only [hit] at h
      exact absurd h (by simp)
    simp only [hit] at h
    rw [exbind_ok] at h
    obtain ⟨q, hq, h⟩ := h
    obtain ⟨qv, qe, qf, qs⟩ := q
    simp only [Except.ok.injEq] at h
    subst h
    obtain ⟨av, ae, af, am, ars⟩ := loadBlockItems_partition fuel items qv qe qf qs hq
    refine ⟨qv, qe, qf, qs, items, rfl, rfl, ?_, ars⟩
    intro n hn
    rcases am n hn with hm | hm | hm
    · left
      refine ⟨hm, ?_, ?_⟩
      · intro hne
        have h2 := (ae n hne).1
        simp [av n hm] at h2
      · intro hnf
        have h2 := af n hnf
        simp [isVD_isFD_disjoint n (av n hm)] at h2
    · right
      left
      refine ⟨?_, hm, ?_⟩
      · intro hnv
        have h2 := (ae n hm).1
        simp [av n hnv] at h2
      · intro hnf
        have h2 := (ae n hm).2
        simp [af n hnf] at h2
    · right
      right
      refine ⟨?_, ?_, hm⟩
      · intro hnv
        have h2 := isVD_isFD_disjoint n (av n hnv)
        simp [af n hm] at h2
      · intro hne
        have h2 := (ae n hne).2
        simp [af n hm] at h2

/-- Witness for C10: a one-statement block (an empty statement) loads with
the statement in `exprs` only, and the ordering decomposition exists. -/
theorem C10_witness :
    ∃ (v e f st : JList) (items : List GVal),
      pyIter (glist [gnode [("type", .str "EmptyStatement")]]) = some items ∧
      (JNode.block .nil (.cons .emptyExpr .nil) .nil (.cons .emptyExpr .nil) false)
        = .block v e f st false ∧
      (∀ n ∈ st.toList, (n ∈ v.toList ∧ n ∉ e.toList ∧ n ∉ f.toList) ∨
        (n ∉ v.toList ∧ n ∈ e.toList ∧ n ∉ f.toList) ∨
        (n ∉ v.toList ∧ n ∉ e.toList ∧ n ∈ f.toList)) ∧
      (∃ rs : List (List JNode), st.toList = rs.flatten ∧ rs.length = items.length ∧
        ∀ i (hi : i < items.length) (hi2 : i < rs.length),
          ∃ fu r, loadStatement fu (items.get ⟨i, hi⟩) = .ok r ∧
            rs.get ⟨i, hi2⟩ = (toStmts r).toList) :=
  C10_block_partition 10 (glist [gnode [("type", .str "EmptyStatement")]])
    (JNode.block .nil (.cons .emptyExpr .nil) .nil (.cons .emptyExpr .nil) false) rfl

/-- Witness for C9: `var x = 1, y;` expands to two declarations, in order. -/
theorem C9_witness :
    (JList.cons
      (JNode.variableDeclaration (some (.str "x")) (some (.str "var"))
        (.some (.operand 1 (.num 1) (.str "1"))))
      (JList.cons
        (JNode.variableDeclaration (some (.str "y")) (some (.str "var")) .none)
        .nil)).toList.length =
    (glistOf [gnode [("type", .str "VariableDeclarator"),
        ("id", gnode [("type", .str "Identifier"), ("name", .str "x")]),
        ("init", gnode [("type", .str "Literal"), ("value", .num 1), ("raw", .str "1")])],
      gnode [("type", .str "VariableDeclarator"),
        ("id", gnode [("type", .str "Identifier"), ("name", .str "y")]),
        ("init", .null)]]).toList.length :=
  (C9_vardecl_expansion 10
    (gfieldsOf [("type", .str "VariableDeclaration"),
      ("declarations", glist [gnode [("type", .str "VariableDeclarator"),
          ("id", gnode [("type", .str "Identifier"), ("name", .str "x")]),
          ("init", gnode [("type", .str "Literal"), ("value", .num 1), ("raw", .str "1")])],
        gnode [("type", .str "VariableDeclarator"),
          ("id", gnode [("type", .str "Identifier"), ("name", .str "y")]),
          ("init", .null)]]),
      ("kind", .str "var")])
    (glistOf [gnode [("type", .str "VariableDeclarator"),
        ("id", gnode [("type", .str "Identifier"), ("name", .str "x")]),
        ("init", gnode [("type", .str "Literal"), ("value", .num 1), ("raw", .str "1")])],
      gnode [("type", .str "VariableDeclarator"),
        ("id", gnode [("type", .str "Identifier"), ("name", .str "y")]),
        ("init", .null)]])
    (.str "var")
    (JList.cons
      (JNode.variableDeclaration (some (.str "x")) (some (.str "var"))
        (.some (.operand 1 (.num 1) (.str "1"))))
      (JList.cons
        (JNode.variableDeclaration (some (.str "y")) (some (.str "var")) .none)
        .nil))
    rfl rfl rfl).1

/-- The generic value is a python string. -/
def isStrB : GVal → Bool
  | .str _ => true
  | _ => false

/-- The generic value is a dict whose `type` tag is the given string. -/
def typeTagIs (v : GVal) (s : String) : Bool :=
  match v with
  | .node fs =>
    match getF fs "type" with
    | some (.str t) => t = s
    | _ => false
  | _ => false

/-- When present, the field is a string (input-boundary convention for the
grammar's string-valued fields). -/
def strIfPresent (fs : GFields) (k : String) : Bool :=
  match getF fs k with
  | some v => isStrB v
  | none => true

/-- The string-valued fields the renderer concatenates (`operator`, `name`,
`raw`, `kind`) are strings when present. -/
def strFieldsOk (fs : GFields) : Bool :=
  strIfPresent fs "operator" && strIfPresent fs "name" &&
    strIfPresent fs "raw" && strIfPresent fs "kind"

/-- The optional field value is not a generic `VariableDeclaration` node. -/
def notVDOpt : Option GVal → Bool
  | some v => !(typeTagIs v "VariableDeclaration")
  | none => true

/-- No variable declaration stands as the unbraced body of an if/else
branch or of a for/while/for-in loop. -/
def noBareDecl (fs : GFields) : Bool :=
  match getF fs "type" with
  | some (.str t) =>
    if t = "IfStatement" then
      notVDOpt (getF fs "consequent") && notVDOpt (getF fs "alternate")
    else if t = "ForStatement" ∨ t = "WhileStatement" ∨ t = "ForInStatement" then
      notVDOpt (getF fs "body")
    else true
  | _ => true

mutual
/-- Grammar-conformance assumption on the generic input (the spec's input
boundary): recursively, every dict's renderer-concatenated fields are
strings when present, and no declaration appears as an unbraced
single-statement body. -/
def GOK : GVal → Bool
  | .node fs => strFieldsOk fs && noBareDecl fs && GOKFields fs
  | .list l => GOKList l
  | _ => true

/-- `GOK` for every field value of a dict. -/
def GOKFields : GFields → Bool
  | .nil => true
  | .cons _ v rest => GOK v && GOKFields rest

/-- `GOK` for every element of a list. -/
def GOKList : GList → Bool
  | .nil => true
  | .cons v rest => GOK v && GOKList rest
end

/-- Every element of the typed list renders. -/
def allRender : JList → Bool
  | .nil => true
  | .cons n rest => (pretty n).isSome && allRender rest

/-- The optional node renders when present. -/
def optRenders : JOpt → Bool
  | .none => true
  | .some n => (pretty n).isSome

/-- Field values of a conformant dict are conformant. -/
theorem GOKFields_get : ∀ (fs : GFields) (k : String) (v : GVal),
    GOKFields fs = true → getF fs k = some v → GOK v = true
  | .nil, k, v => by simp [getF]
  | .cons k0 v0 rest, k, v => by
    simp only [GOKFields, Bool.and_eq_true, getF]
    intro h hget
    by_cases hk : k0 = k
    · rw [if_pos hk] at hget
      cases hget
      exact h.1
    · rw [if_neg hk] at hget
      exact GOKFields_get rest k v h.2 hget

/-- Elements of a conformant list are conformant. -/
theorem GOKList_mem : ∀ (l : GList) (v : GVal),
    GOKList l = true → v ∈ l.toList → GOK v = true
  | .nil, v => by simp [GList.toList]
  | .cons v0 rest, v => by
    simp only [GOKList, Bool.and_eq_true, GList.toList, List.mem_cons]
    intro h hmem
    rcases hmem with hmem | hmem
    · subst hmem
      exact h.1
    · exact GOKList_mem rest v h.2 hmem

/-- `GOK` components of a dict. -/
theorem GOK_node (fs : GFields) (h : GOK (.node fs) = true) :
    strFieldsOk fs = true ∧ noBareDecl fs = true ∧ GOKFields fs = true := by
  simpa [GOK, Bool.and_eq_true, and_assoc] using h

/-- A field fetched from a conformant dict is conformant. -/
theorem GOK_getF (fs : GFields) (k : String) (v : GVal)
    (h : GOK (.node fs) = true) (hget : getF fs k = some v) : GOK v = true :=
  GOKFields_get fs k v (GOK_node fs h).2.2 hget

/-- A successful subscript on a conformant value yields a conformant value. -/
theorem GOK_getKey (w : GVal) (k : String) (v : GVal)
    (h : GOK w = true) (hget : getKey w k = .ok v) : GOK v = true := by
  rw [getKey_ok] at hget
  obtain ⟨fs, hw, hget⟩ := hget
  subst hw
  exact GOK_getF fs k v h hget

/-- The renderer-concatenated fields of a conformant dict are strings. -/
theorem GOK_strField (fs : GFields) (k : String) (v : GVal)
    (h : GOK (.node fs) = true)
    (hk : k = "operator" ∨ k = "name" ∨ k = "raw" ∨ k = "kind")
    (hget : getF fs k = some v) : isStrB v = true := by
  have hs := (GOK_node fs h).1
  simp only [strFieldsOk, Bool.and_eq_true] at hs
  obtain ⟨⟨⟨h1, h2⟩, h3⟩, h4⟩ := hs
  rcases hk with hk | hk | hk | hk <;> subst hk
  · simpa [strIfPresent, hget] using h1
  · simpa [strIfPresent, hget] using h2
  · simpa [strIfPresent, hget] using h3
  · simpa [strIfPresent, hget] using h4

/-- Iterating a conformant value yields conformant elements. -/
theorem GOK_iter (v : GVal) (items : List GVal)
    (h : GOK v = true) (hit : pyIter v = some items) :
    ∀ x ∈ items, GOK x = true := by
  cases v with
  | list l =>
    simp only [pyIter, Option.some.injEq] at hit
    subst hit
    exact fun x hx => GOKList_mem l x (by simpa [GOK] using h) hx
  | node fs =>
    simp only [pyIter, Option.some.injEq] at hit
    subst hit
    intro x hx
    simp only [List.mem_map] at hx
    obtain ⟨kv, _, hx⟩ := hx
    subst hx
    rfl
  | str s =>
    simp only [pyIter, Option.some.injEq] at hit
    subst hit
    intro x hx
    simp only [List.mem_map] at hx
    obtain ⟨c, _, hx⟩ := hx
    subst hx
    rfl
  | null => simp [pyIter] at hit
  | bool b => simp [pyIter] at hit
  | num n => simp [pyIter] at hit

/-- Unfolding of the renderer on an operand leaf. -/
theorem pretty_operand_eq (k : Nat) (v raw : GVal) :
    pretty (.operand k v raw) = (do
      let s ← asStr raw
      if k = OperandK.regex then some ("(" ++ s ++ ")") else some s) := rfl

/-- Unfolding of the renderer on a unary modifier node. -/
theorem pretty_modifier_eq (o : GVal) (a : JNode) (p : Bool) :
    pretty (.modifier o a p) = (do
      let oo ← asStr o
      let s ← if isOperandLeaf a then pretty a
              else (pretty a).map (fun s => "(" ++ s ++ ")")
      if p then some (oo ++ s) else some (s ++ oo)) := rfl

/-- Unfolding of the renderer on an if/else statement without alternate. -/
theorem pretty_condstmt_none_eq (t c : JNode) :
    pretty (.conditionalStatement t c .none) = (do
      let ts ← pretty t
      let cs ← pretty c
      some ("if ( " ++ ts ++ " )\n" ++ applyindent (cs ++ endmark c))) := rfl

/-- Unfolding of the renderer on an if/else statement with alternate. -/
theorem pretty_condstmt_some_eq (t c a : JNode) :
    pretty (.conditionalStatement t c (.some a)) = (do
      let ts ← pretty t
      let cs ← pretty c
      let as1 ← pretty a
      some ("if ( " ++ ts ++ " )\n" ++ applyindent (cs ++ endmark c) ++
        "else\n" ++ applyindent (as1 ++ endmark a))) := rfl

/-- The renderer on a try/catch node with neither catch nor finally. -/
theorem pretty_handler_nn_eq (bb : JNode) (p : Option GVal) :
    pretty (.handler (.some bb) p .none .none) = (do
      let bs ← pretty bb
      some ("try\n" ++ applyindent (bs ++ endmark bb))) := rfl

/-- The renderer on a try/catch node with a catch clause only. -/
theorem pretty_handler_cn_eq (bb : JNode) (p : Option GVal) (cc : JNode) :
    pretty (.handler (.some bb) p (.some cc) .none) = (do
      let bs ← pretty bb
      let ps ← optStr p
      let cs ← pretty cc
      some ("try\n" ++ applyindent (bs ++ endmark bb) ++
        "catch ( " ++ ps ++ " )\n" ++ applyindent (cs ++ endmark cc))) := rfl

/-- The renderer on a try/catch node with a finally clause only. -/
theorem pretty_handler_nf_eq (bb : JNode) (p : Option GVal) (ff : JNode) :
    pretty (.handler (.some bb) p .none (.some ff)) = (do
      let bs ← pretty bb
      let fs ← pretty ff
      some ("try\n" ++ applyindent (bs ++ endmark bb) ++
        "finally \n" ++ applyindent (fs ++ endmark ff))) := rfl

/-- The renderer on a try/catch node with catch and finally clauses. -/
theorem pretty_handler_cf_eq (bb : JNode) (p : Option GVal) (cc ff : JNode) :
    pretty (.handler (.some bb) p (.some cc) (.some ff)) = (do
      let bs ← pretty bb
      let ps ← optStr p
      let cs ← pretty cc
      let fs ← pretty ff
      some ("try\n" ++ applyindent (bs ++ endmark bb) ++
        "catch ( " ++ ps ++ " )\n" ++ applyindent (cs ++ endmark cc) ++
        "finally \n" ++ applyindent (fs ++ endmark ff))) := rfl

/-- Unfolding of the renderer on a block node. -/
theorem pretty_block_eq (v e f s : JList) (top : Bool) :
    pretty (.block v e f s top) = (do
      let body ← prettyStmts s
      if top then some body
      else some ("\x7b\n" ++ applyindent body ++ "\x7d\n")) := rfl

/-- Unfolding of the renderer on a for-in iterator node. -/
theorem pretty_iterator_eq (a b c : JNode) :
    pretty (.iterator a b c) = (do
      let x ← pretty a
      let y ← pretty b
      let z ← pretty c
      some ("for(" ++ x ++ " in " ++ y ++ ")\n" ++ applyindent (z ++ endmark c))) := rfl

/-- The renderer on a loop node, no test, no update, body present. -/
theorem pretty_loop_nn_eq (k : Nat) (init : JList) (bb : JNode) :
    pretty (.loop k init .none .none (.some bb)) = (do
      let start ←
        if k = LoopK.forK then do
          let l ← prettyJoinList init
          some ("for(" ++ String.intercalate " ," l ++ "; ")
        else some "while( "
      let afterUpd ←
        if k = LoopK.forK then some (start ++ "; ")
        else some start
      let bs ← pretty bb
      some (afterUpd ++ ")\n" ++ applyindent (bs ++ endmark bb))) := rfl

/-- The renderer on a loop node, test present, no update, body present. -/
theorem pretty_loop_tn_eq (k : Nat) (init : JList) (tt bb : JNode) :
    pretty (.loop k init (.some tt) .none (.some bb)) = (do
      let start ←
        if k = LoopK.forK then do
          let l ← prettyJoinList init
          some ("for(" ++ String.intercalate " ," l ++ "; ")
        else some "while( "
      let ts ← pretty tt
      let afterUpd ←
        if k = LoopK.forK then some (start ++ ts ++ "; ")
        else some (start ++ ts)
      let bs ← pretty bb
      some (afterUpd ++ ")\n" ++ applyindent (bs ++ endmark bb))) := rfl

/-- The renderer on a loop node, no test, update present, body present. -/
theorem pretty_loop_nu_eq (k : Nat) (init : JList) (uu bb : JNode) :
    pretty (.loop k init .none (.some uu) (.some bb)) = (do
      let start ←
        if k = LoopK.forK then do
          let l ← prettyJoinList init
          some ("for(" ++ String.intercalate " ," l ++ "; ")
        else some "while( "
      let afterUpd ←
        if k = LoopK.forK then do
          let us ← pretty uu
          some (start ++ "; " ++ us)
        else some start
      let bs ← pretty bb
      some (afterUpd ++ ")\n" ++ applyindent (bs ++ endmark bb))) := rfl

/-- The renderer on a loop node, test and update present, body present. -/
theorem pretty_loop_tu_eq (k : Nat) (init : JList) (tt uu bb : JNode) :
    pretty (.loop k init (.some tt) (.some uu) (.some bb)) = (do
      let start ←
        if k = LoopK.forK then do
          let l ← prettyJoinList init
          some ("for(" ++ String.intercalate " ," l ++ "; ")
        else some "while( "
      let ts ← pretty tt
      let afterUpd ←
        if k = LoopK.forK then do
          let us ← pretty uu
          some (start ++ ts ++ "; " ++ us)
        else some (start ++ ts)
      let bs ← pretty bb
      some (afterUpd ++ ")\n" ++ applyindent (bs ++ endmark bb))) := rfl

/-- Unfolding of the renderer on a function node. -/
theorem pretty_func_eq (n : Option GVal) (k : Nat) (ps : JList) (b : JNode) :
    pretty (.func n k ps b) = (do
      let start := if k ≠ FunctionK.objprop then "function" else ""
      let named ← match n with
        | some nm => do
          let s ← asStr nm
          some (start ++ " " ++ s)
        | none => some start
      let pss ← prettyJoinList ps
      let bs ← pretty b
      let buf := named ++ "(" ++ String.intercalate "," pss ++ ")\n" ++ bs
      let buf := if k = FunctionK.inline then "(" ++ buf ++ ")" else buf
      if k ≠ FunctionK.objprop then some (buf ++ "\n") else some buf) := rfl

/-- Unfolding of the renderer on a call node. -/
theorem pretty_call_eq (c : JNode) (k : Nat) (a : JNode) :
    pretty (.call c k a) = (do
      let pre := if k = CallK.newK then "new " else ""
      let cs ← pretty c
      let as1 ← pretty a
      some (pre ++ cs ++ as1)) := rfl

/-- Unfolding of the renderer on a property node. -/
theorem pretty_prop_eq (k : Nat) (key : GVal) (v : JNode) :
    pretty (.prop k key v) = (do
      let ks ← asStr key
      if k = PropertyK.init then do
        let vs ← pretty v
        some (ks ++ " : " ++ vs)
      else if k = PropertyK.shorthand then some ks
      else if k = PropertyK.method then do
        let vs ← pretty v
        some (ks ++ " " ++ vs)
      else if k = PropertyK.setter then do
        let vs ← pretty v
        some ("set " ++ ks ++ " " ++ vs)
      else if k = PropertyK.getter then do
        let vs ← pretty v
        some ("get " ++ ks ++ " " ++ vs)
      else none) := rfl

/-- Unfolding of the renderer on an object literal node. -/
theorem pretty_object_eq (ps : JList) :
    pretty (.object ps) = (do
      let l ← prettyJoinList ps
      some ("\x7b\n" ++ applyindent (String.join (l.map (fun s => s ++ ",\n"))) ++ "\x7d")) := rfl

/-- Unfolding of the renderer on a combinator node. -/
theorem pretty_combinator_eq (o c : Char) (args : JList) :
    pretty (.combinator o c args) = (do
      let l ← prettyJoinList args
      some (String.singleton o ++ String.intercalate " ," l ++ String.singleton c)) := rfl

/-- The renderer on an action node without expression. -/
theorem pretty_action_none_eq (k : Nat) :
    pretty (.action .none k) =
      (if k = ActionK.returnK then some "return"
       else if k = ActionK.throwK then some "throw"
       else if k = ActionK.breakK then some "break"
       else if k = ActionK.continueK then some "continue"
       else none) := rfl

/-- The renderer on an action node with an expression. -/
theorem pretty_action_some_eq (x : JNode) (k : Nat) :
    pretty (.action (.some x) k) = (do
      let kw ←
        if k = ActionK.returnK then some "return"
        else if k = ActionK.throwK then some "throw"
        else if k = ActionK.breakK then some "break"
        else if k = ActionK.continueK then some "continue"
        else none
      let xs ← pretty x
      some (kw ++ " " ++ xs)) := rfl

/-- The renderer on a typed declaration without initialiser. -/
theorem pretty_vardecl_none_eq (i k : Option GVal) :
    pretty (.variableDeclaration i k .none) = (do
      let ks ← optStr k
      let is1 ← optStr i
      some (ks ++ " " ++ is1)) := rfl

/-- The renderer on a typed declaration with an initialiser. -/
theorem pretty_vardecl_some_eq (i k : Option GVal) (x : JNode) :
    pretty (.variableDeclaration i k (.some x)) = (do
      let ks ← optStr k
      let is1 ← optStr i
      let xs ← pretty x
      some (ks ++ " " ++ is1 ++ " = " ++ xs)) := rfl

/-- Unfolding of the renderer on the statement fold. -/
theorem prettyStmts_cons_eq (s : JNode) (rest : JList) :
    prettyStmts (.cons s rest) = (do
      let a ← pretty s
      let b ← prettyStmts rest
      some (a ++ endmark s ++ b)) := rfl

/-- Unfolding of the renderer on the list-of-renderings fold. -/
theorem prettyJoinList_cons_eq (s : JNode) (rest : JList) :
    prettyJoinList (.cons s rest) = (do
      let a ← pretty s
      let b ← prettyJoinList rest
      some (a :: b)) := rfl

/-- An operand with a string raw field renders. -/
theorem pretty_operand_isSome (k : Nat) (v raw : GVal) (h : isStrB raw = true) :
    (pretty (.operand k v raw)).isSome = true := by
  cases raw with
  | str s =>
    rw [pretty_operand_eq]
    simp only [asStr, Option.bind_eq_bind, Option.some_bind]
    split <;> rfl
  | null => simp [isStrB] at h
  | bool b => simp [isStrB] at h
  | num n => simp [isStrB] at h
  | node fs => simp [isStrB] at h
  | list l => simp [isStrB] at h

/-- A string generic value gives a string via `asStr`. -/
theorem asStr_of_isStrB (v : GVal) (h : isStrB v = true) : ∃ s, asStr v = some s := by
  cases v <;> simp_all [isStrB, asStr]

/-- An operation whose operator is a string and whose operands render,
renders (for every kind). -/
theorem pretty_operation_isSome (o : GVal) (l r : JNode) (k : Nat)
    (ho : isStrB o = true) (hl : (pretty l).isSome = true)
    (hr : (pretty r).isSome = true) :
    (pretty (.operation o l r k)).isSome = true := by
  obtain ⟨os, hos⟩ := asStr_of_isStrB o ho
  obtain ⟨ls, hls⟩ := Option.isSome_iff_exists.mp hl
  obtain ⟨rs, hrs⟩ := Option.isSome_iff_exists.mp hr
  rw [pretty_operation_eq]
  split
  · simp [hos, hls, hrs]
  · split
    · simp [hls, hrs]
    · split
      · simp [hls, hrs]
      · by_cases h1 : isOperandLeaf l = true <;> by_cases h2 : isOperandLeaf r = true <;>
          simp [h1, h2, hos, hls, hrs]

/-- A modifier whose operator is a string and whose argument renders,
renders. -/
theorem pretty_modifier_isSome (o : GVal) (a : JNode) (p : Bool)
    (ho : isStrB o = true) (ha : (pretty a).isSome = true) :
    (pretty (.modifier o a p)).isSome = true := by
  obtain ⟨os, hos⟩ := asStr_of_isStrB o ho
  obtain ⟨as1, has⟩ := Option.isSome_iff_exists.mp ha
  rw [pretty_modifier_eq]
  by_cases h1 : isOperandLeaf a = true <;> cases p <;> simp [h1, hos, has]

/-- A ternary conditional whose three children render, renders. -/
theorem pretty_condexpr_isSome (t c a : JNode)
    (ht : (pretty t).isSome = true) (hc : (pretty c).isSome = true)
    (ha : (pretty a).isSome = true) :
    (pretty (.conditionalExpression t c a)).isSome = true := by
  obtain ⟨ts, hts⟩ := Option.isSome_iff_exists.mp ht
  obtain ⟨cs, hcs⟩ := Option.isSome_iff_exists.mp hc
  obtain ⟨as1, has⟩ := Option.isSome_iff_exists.mp ha
  rw [pretty_condexpr_eq]
  by_cases h1 : isOperandLeaf c = true <;> by_cases h2 : isOperandLeaf a = true <;>
    simp [h1, h2, hts, hcs, has]

/-- An if/else statement whose children render, renders. -/
theorem pretty_condstmt_isSome (t c : JNode) (alt : JOpt)
    (ht : (pretty t).isSome = true) (hc : (pretty c).isSome = true)
    (halt : optRenders alt = true) :
    (pretty (.conditionalStatement t c alt)).isSome = true := by
  obtain ⟨ts, hts⟩ := Option.isSome_iff_exists.mp ht
  obtain ⟨cs, hcs⟩ := Option.isSome_iff_exists.mp hc
  cases alt with
  | none => rw [pretty_condstmt_none_eq]; simp [hts, hcs]
  | some a =>
    obtain ⟨as1, has⟩ := Option.isSome_iff_exists.mp (by simpa [optRenders] using halt)
    rw [pretty_condstmt_some_eq]
    simp [hts, hcs, has]

/-- A block whose statement fold renders, renders. -/
theorem pretty_block_isSome (v e f s : JList) (top : Bool)
    (h : (prettyStmts s).isSome = true) :
    (pretty (.block v e f s top)).isSome = true := by
  obtain ⟨b, hb⟩ := Option.isSome_iff_exists.mp h
  rw [pretty_block_eq]
  cases top <;> simp [hb]

/-- A for-in iterator whose children render, renders. -/
theorem pretty_iterator_isSome (a b c : JNode)
    (ha : (pretty a).isSome = true) (hb : (pretty b).isSome = true)
    (hc : (pretty c).isSome = true) :
    (pretty (.iterator a b c)).isSome = true := by
  obtain ⟨x, hx⟩ := Option.isSome_iff_exists.mp ha
  obtain ⟨y, hy⟩ := Option.isSome_iff_exists.mp hb
  obtain ⟨z, hz⟩ := Option.isSome_iff_exists.mp hc
  rw [pretty_iterator_eq]
  simp [hx, hy, hz]

/-- A loop whose init list, optional test/update and body render, renders. -/
theorem pretty_loop_isSome (k : Nat) (init : JList) (t u : JOpt) (bb : JNode)
    (hinit : (prettyJoinList init).isSome = true)
    (ht : optRenders t = true) (hu : optRenders u = true)
    (hb : (pretty bb).isSome = true) :
    (pretty (.loop k init t u (.some bb))).isSome = true := by
  obtain ⟨il, hil⟩ := Option.isSome_iff_exists.mp hinit
  obtain ⟨bs, hbs⟩ := Option.isSome_iff_exists.mp hb
  cases t with
  | none =>
    cases u with
    | none =>
      rw [pretty_loop_nn_eq]
      by_cases hk : k = LoopK.forK <;> simp [hk, hil, hbs]
    | some uu =>
      obtain ⟨us, hus⟩ := Option.isSome_iff_exists.mp (by simpa [optRenders] using hu)
      rw [pretty_loop_nu_eq]
      by_cases hk : k = LoopK.forK <;> simp [hk, hil, hus, hbs]
  | some tt =>
    obtain ⟨ts, hts⟩ := Option.isSome_iff_exists.mp (by simpa [optRenders] using ht)
    cases u with
    | none =>
      rw [pretty_loop_tn_eq]
      by_cases hk : k = LoopK.forK <;> simp [hk, hil, hts, hbs]
    | some uu =>
      obtain ⟨us, hus⟩ := Option.isSome_iff_exists.mp (by simpa [optRenders] using hu)
      rw [pretty_loop_tu_eq]
      by_cases hk : k = LoopK.forK <;> simp [hk, hil, hts, hus, hbs]

/-- A function node with a string (or absent) name whose parameters and
body render, renders. -/
theorem pretty_func_isSome (n : Option GVal) (k : Nat) (ps : JList) (b : JNode)
    (hn : match n with | some v => isStrB v = true | none => True)
    (hps : (prettyJoinList ps).isSome = true)
    (hb : (pretty b).isSome = true) :
    (pretty (.func n k ps b)).isSome = true := by
  obtain ⟨pl, hpl⟩ := Option.isSome_iff_exists.mp hps
  obtain ⟨bs, hbs⟩ := Option.isSome_iff_exists.mp hb
  rw [pretty_func_eq]
  cases n with
  | none =>
    simp only [hpl, hbs, Option.bind_eq_bind, Option.some_bind]
    split <;> rfl
  | some v =>
    obtain ⟨vs, hvs⟩ := asStr_of_isStrB v (by simpa using hn)
    simp only [hvs, hpl, hbs, Option.bind_eq_bind, Option.some_bind]
    split <;> rfl

/-- A call whose callee and arguments render, renders. -/
theorem pretty_call_isSome (c : JNode) (k : Nat) (a : JNode)
    (hc : (pretty c).isSome = true) (ha : (pretty a).isSome = true) :
    (pretty (.call c k a)).isSome = true := by
  obtain ⟨cs, hcs⟩ := Option.isSome_iff_exists.mp hc
  obtain ⟨as1, has⟩ := Option.isSome_iff_exists.mp ha
  rw [pretty_call_eq]
  simp [hcs, has]

/-- A property with a string key, a kind in the rendering table, and a
rendering value, renders. -/
theorem pretty_prop_isSome (k : Nat) (key : GVal) (v : JNode)
    (hkey : isStrB key = true) (hk : 1 ≤ k ∧ k ≤ 5)
    (hv : (pretty v).isSome = true) :
    (pretty (.prop k key v)).isSome = true := by
  obtain ⟨ks, hks⟩ := asStr_of_isStrB key hkey
  obtain ⟨vs, hvs⟩ := Option.isSome_iff_exists.mp hv
  obtain ⟨hk1, hk2⟩ := hk
  rw [pretty_prop_eq]
  interval_cases k <;> simp [hks, hvs, PropertyK.init, PropertyK.shorthand,
    PropertyK.method, PropertyK.setter, PropertyK.getter]

/-- An object whose properties render, renders. -/
theorem pretty_object_isSome (ps : JList)
    (h : (prettyJoinList ps).isSome = true) :
    (pretty (.object ps)).isSome = true := by
  obtain ⟨l, hl⟩ := Option.isSome_iff_exists.mp h
  rw [pretty_object_eq]
  simp [hl]

/-- A combinator whose arguments render, renders. -/
theorem pretty_combinator_isSome (o c : Char) (args : JList)
    (h : (prettyJoinList args).isSome = true) :
    (pretty (.combinator o c args)).isSome = true := by
  obtain ⟨l, hl⟩ := Option.isSome_iff_exists.mp h
  rw [pretty_combinator_eq]
  simp [hl]

/-- An action with a keyword kind and a rendering (or absent) expression,
renders. -/
theorem pretty_action_isSome (e : JOpt) (k : Nat)
    (hk : 1 ≤ k ∧ k ≤ 4) (he : optRenders e = true) :
    (pretty (.action e k)).isSome = true := by
  obtain ⟨hk1, hk2⟩ := hk
  cases e with
  | none =>
    rw [pretty_action_none_eq]
    interval_cases k <;> simp [ActionK.returnK, ActionK.throwK, ActionK.breakK,
      ActionK.continueK]
  | some x =>
    obtain ⟨xs, hxs⟩ := Option.isSome_iff_exists.mp (by simpa [optRenders] using he)
    rw [pretty_action_some_eq]
    interval_cases k <;> simp [hxs, ActionK.returnK, ActionK.throwK,
      ActionK.breakK, ActionK.continueK]

/-- A typed declaration with string name and keyword and a rendering (or
absent) initialiser, renders. -/
theorem pretty_vardecl_isSome (iv kv : GVal) (e : JOpt)
    (hi : isStrB iv = true) (hk : isStrB kv = true) (he : optRenders e = true) :
    (pretty (.variableDeclaration (some iv) (some kv) e)).isSome = true := by
  obtain ⟨is1, his⟩ := asStr_of_isStrB iv hi
  obtain ⟨ks, hks⟩ := asStr_of_isStrB kv hk
  cases e with
  | none =>
    rw [pretty_vardecl_none_eq]
    simp [optStr, his, hks]
  | some x =>
    obtain ⟨xs, hxs⟩ := Option.isSome_iff_exists.mp (by simpa [optRenders] using he)
    rw [pretty_vardecl_some_eq]
    simp [optStr, his, hks, hxs]

/-- A bare statement list never renders. -/
theorem pretty_stmtList_none (l : JList) : pretty (.stmtList l) = none := rfl

/-- `allRender` over a concatenation. -/
theorem allRender_append : ∀ (a b : JList),
    allRender (jappend a b) = (allRender a && allRender b)
  | .nil, b => by simp [jappend, allRender]
  | .cons x xs, b => by
    simp [jappend, allRender, allRender_append xs b, Bool.and_assoc]

/-- The statement fold renders when every statement renders. -/
theorem prettyStmts_isSome_of_allRender : ∀ (l : JList),
    allRender l = true → (prettyStmts l).isSome = true
  | .nil, _ => rfl
  | .cons n rest, h => by
    simp only [allRender, Bool.and_eq_true] at h
    obtain ⟨s, hs⟩ := Option.isSome_iff_exists.mp h.1
    obtain ⟨b, hb⟩ := Option.isSome_iff_exists.mp
      (prettyStmts_isSome_of_allRender rest h.2)
    rw [prettyStmts_cons_eq]
    simp [hs, hb]

/-- The rendering-list fold renders when every element renders. -/
theorem prettyJoinList_isSome_of_allRender : ∀ (l : JList),
    allRender l = true → (prettyJoinList l).isSome = true
  | .nil, _ => rfl
  | .cons n rest, h => by
    simp only [allRender, Bool.and_eq_true] at h
    obtain ⟨s, hs⟩ := Option.isSome_iff_exists.mp h.1
    obtain ⟨b, hb⟩ := Option.isSome_iff_exists.mp
      (prettyJoinList_isSome_of_allRender rest h.2)
    rw [prettyJoinList_cons_eq]
    simp [hs, hb]

/-- A rendering node wrapped as a one-element statement list is
all-rendering. -/
theorem allRender_toStmts_of_isSome (r : JNode) (h : (pretty r).isSome = true) :
    allRender (toStmts r) = true := by
  cases r <;> simp_all [toStmts, allRender, pretty_stmtList_none]

/-- A non-list statement renders when its one-element wrapping does. -/
theorem isSome_of_allRender_toStmts (r : JNode)
    (hnl : ∀ dl, r ≠ .stmtList dl) (h : allRender (toStmts r) = true) :
    (pretty r).isSome = true := by
  rw [toStmts_eq_single r hnl] at h
  simpa [allRender] using h

/-- A successful `type` subscript establishes the type tag. -/
theorem typeTagIs_of_getKey (x : GVal) (s : String)
    (h : getKey x "type" = .ok (.str s)) : typeTagIs x s = true := by
  rw [getKey_ok] at h
  obtain ⟨fs, hx, hg⟩ := h
  subst hx
  simp [typeTagIs, hg]

/-- The type tag read back from `typeTagIs`. -/
theorem typeTagIs_node (fs : GFields) (s : String)
    (h : typeTagIs (.node fs) s = true) : getF fs "type" = some (.str s) := by
  simp only [typeTagIs] at h
  rcases hg : getF fs "type" with _ | v
  · rw [hg] at h
    simp at h
  · rw [hg] at h
    cases v <;> simp_all

/-- Reading off a `notVDOpt` guarantee at a present field value. -/
theorem notVDOpt_spec (o : Option GVal) (v : GVal)
    (h : notVDOpt o = true) (ho : o = some v) :
    typeTagIs v "VariableDeclaration" = false := by
  subst ho
  simpa [notVDOpt] using h

/-- The bare-declaration exclusion at an if statement. -/
theorem noBareDecl_if (fs : GFields) (h : noBareDecl fs = true)
    (ht : getF fs "type" = some (.str "IfStatement")) :
    notVDOpt (getF fs "consequent") = true ∧
    notVDOpt (getF fs "alternate") = true := by
  simp only [noBareDecl, ht] at h
  rw [if_pos trivial] at h
  simpa [Bool.and_eq_true] using h

/-- The bare-declaration exclusion at a loop or iterator statement. -/
theorem noBareDecl_body (fs : GFields) (t : String) (h : noBareDecl fs = true)
    (ht : getF fs "type" = some (.str t))
    (hT : t = "ForStatement" ∨ t = "WhileStatement" ∨ t = "ForInStatement") :
    notVDOpt (getF fs "body") = true := by
  have hne : ¬ (t = "IfStatement") := by
    rcases hT with h1 | h1 | h1 <;> subst h1 <;> decide
  simp only [noBareDecl, ht] at h
  rw [if_neg hne, if_pos hT] at h
  exact h

/-- The property kind computed by `Property.getkind` is one of the five
rendering-table kinds. -/
theorem getkind_range (p : GVal) (k : Nat) (h : getkind p = .ok k) :
    1 ≤ k ∧ k ≤ 5 := by
  simp only [getkind] at h
  rw [exbind_ok] at h
  obtain ⟨kv, hkv, h⟩ := h
  split at h
  · rw [exbind_ok] at h
    obtain ⟨m, hm, h⟩ := h
    split at h
    · simp only [Except.ok.injEq] at h
      subst h
      decide
    · rw [exbind_ok] at h
      obtain ⟨sh, hsh, h⟩ := h
      split at h <;> simp only [Except.ok.injEq] at h <;> subst h <;> decide
  · split at h
    · simp only [Except.ok.injEq] at h
      subst h
      decide
    · split at h
      · simp only [Except.ok.injEq] at h
        subst h
        decide
      · exact absurd h (by simp)

/-- A rendering function node has rendering parameters and body. -/
theorem pretty_func_inv (n : Option GVal) (k : Nat) (ps : JList) (b : JNode)
    (h : (pretty (.func n k ps b)).isSome = true) :
    (prettyJoinList ps).isSome = true ∧ (pretty b).isSome = true := by
  rw [pretty_func_eq] at h
  rcases hps : prettyJoinList ps with _ | pl
  · cases n with
    | none => simp [hps] at h
    | some v =>
      rcases hv : asStr v with _ | vs <;> simp [hv, hps] at h
  · rcases hb : pretty b with _ | bs
    · cases n with
      | none => simp [hps, hb] at h
      | some v =>
        rcases hv : asStr v with _ | vs <;> simp [hv, hps, hb] at h
    · exact ⟨by simp [hps], by simp [hb]⟩

/-- A rendering block has a rendering statement fold. -/
theorem pretty_block_inv (v e f s : JList) (t : Bool)
    (h : (pretty (.block v e f s t)).isSome = true) :
    (prettyStmts s).isSome = true := by
  rw [pretty_block_eq] at h
  rcases hs : prettyStmts s with _ | bs
  · simp [hs] at h
  · simp

/-- `Property` construction preserves renderability: with a table kind, a
string key and a rendering value, the constructed property renders (also
when the construction rewrites a function value to an object-property
function). -/
theorem mkProperty_renders (k : Nat) (key : GVal) (v : JNode)
    (hk : 1 ≤ k ∧ k ≤ 5) (hkey : isStrB key = true)
    (hv : (pretty v).isSome = true) :
    (pretty (mkProperty k key v)).isSome = true := by
  cases v
  case func n fk ps b =>
    obtain ⟨hps, hb⟩ := pretty_func_inv n fk ps b hv
    by_cases hc : (k = PropertyK.method ∨ k = PropertyK.setter ∨ k = PropertyK.getter)
    · simp only [mkProperty, if_pos hc]
      exact pretty_prop_isSome k key _ hkey hk
        (pretty_func_isSome (some (.str "")) FunctionK.objprop ps b (by simp [isStrB]) hps hb)
    · simp only [mkProperty, if_neg hc]
      exact pretty_prop_isSome k key _ hkey hk hv
  all_goals
    by_cases hc : (k = PropertyK.method ∨ k = PropertyK.setter ∨ k = PropertyK.getter) <;>
      [simp only [mkProperty, if_pos hc]; simp only [mkProperty, if_neg hc]] <;>
      exact pretty_prop_isSome k key _ hkey hk hv

/-- Inductive invariant for the conformant-input rendering theorem: at a
given fuel, every loader turns conformant generic input into typed output
that the renderer can print. -/
structure LoadRenders (fuel : Nat) : Prop where
  expr : ∀ ast r, GOK ast = true → loadExpr fuel ast = .ok r →
    (pretty r).isSome = true
  callL : ∀ ast k r, GOK ast = true → loadCall fuel ast k = .ok r →
    (pretty r).isSome = true
  comb : ∀ v kind r, GOK v = true → loadCombinator fuel v kind = .ok r →
    (pretty r).isSome = true
  combItems : ∀ items r, (∀ x ∈ items, GOK x = true) →
    loadCombItems fuel items = .ok r → allRender r = true
  obj : ∀ ast r, GOK ast = true → loadObject fuel ast = .ok r →
    (pretty r).isSome = true
  props : ∀ items r, (∀ x ∈ items, GOK x = true) →
    loadProps fuel items = .ok r → allRender r = true
  funcL : ∀ ast d r, GOK ast = true → loadFunction fuel ast d = .ok r →
    (pretty r).isSome = true
  params : ∀ items r, (∀ x ∈ items, GOK x = true) →
    loadParams fuel items = .ok r → allRender r = true
  vdecl : ∀ vdn kv r, GOK vdn = true → isStrB kv = true →
    loadVariableDeclaration fuel vdn kv = .ok r → (pretty r).isSome = true
  decls : ∀ items x r, (∀ y ∈ items, GOK y = true) → GOK x = true →
    loadDeclarators fuel items x = .ok r → allRender r = true
  vardecl : ∀ x r, GOK x = true → loadVardecl fuel x = .ok r →
    allRender r = true
  cond : ∀ x r, GOK x = true → typeTagIs x "IfStatement" = true →
    loadConditional fuel x = .ok r → (pretty r).isSome = true
  iter : ∀ x r, GOK x = true → typeTagIs x "ForInStatement" = true →
    loadIterator fuel x = .ok r → (pretty r).isSome = true
  forL : ∀ x r, GOK x = true → typeTagIs x "ForStatement" = true →
    loadFor fuel x = .ok r → (pretty r).isSome = true
  whileL : ∀ x r, GOK x = true → typeTagIs x "WhileStatement" = true →
    loadWhile fuel x = .ok r → (pretty r).isSome = true
  handlerL : ∀ x r, GOK x = true → loadHandler fuel x = .ok r →
    (pretty r).isSome = true
  stmt : ∀ x r, GOK x = true → loadStatement fuel x = .ok r →
    allRender (toStmts r) = true ∧
      ∀ dl, r = .stmtList dl → typeTagIs x "VariableDeclaration" = true
  blockL : ∀ v r, GOK v = true → loadBlock fuel v = .ok r →
    (pretty r).isSome = true
  blockItems : ∀ items q, (∀ y ∈ items, GOK y = true) →
    loadBlockItems fuel items = .ok q → allRender q.2.2.2 = true

/-- At zero fuel every loader fails, so the invariant holds vacuously. -/
theorem loadRenders_zero : LoadRenders 0 := by
  refine ⟨?_, ?_, ?_, ?_, ?_, ?_, ?_, ?_, ?_, ?_, ?_, ?_, ?_, ?_, ?_, ?_, ?_, ?_, ?_⟩
  · intro ast r _ h; exact absurd h (by simp [loadExpr])
  · intro ast k r _ h; exact absurd h (by simp [loadCall])
  · intro v kind r _ h; exact absurd h (by simp [loadCombinator])
  · intro items r _ h; exact absurd h (by simp [loadCombItems])
  · intro ast r _ h; exact absurd h (by simp [loadObject])
  · intro items r _ h; exact absurd h (by simp [loadProps])
  · intro ast d r _ h; exact absurd h (by simp [loadFunction])
  · intro items r _ h; exact absurd h (by simp [loadParams])
  · intro vdn kv r _ _ h; exact absurd h (by simp [loadVariableDeclaration])
  · intro items x r _ _ h; exact absurd h (by simp [loadDeclarators])
  · intro x r _ h; exact absurd h (by simp [loadVardecl])
  · intro x r _ _ h; exact absurd h (by simp [loadConditional])
  · intro x r _ _ h; exact absurd h (by simp [loadIterator])
  · intro x r _ _ h; exact absurd h (by simp [loadFor])
  · intro x r _ _ h; exact absurd h (by simp [loadWhile])
  · intro x r _ h; exact absurd h (by simp [loadHandler])
  · intro x r _ h; exact absurd h (by simp [loadStatement])
  · intro v r _ h; exact absurd h (by simp [loadBlock])
  · intro items q _ h; exact absurd h (by simp [loadBlockItems])

/-- Step of the invariant for the combinator element loop. -/
theorem step_loadCombItems (fuel : Nat) (ih : LoadRenders fuel) :
    ∀ items r, (∀ x ∈ items, GOK x = true) →
      loadCombItems (fuel + 1) items = .ok r → allRender r = true := by
  intro items r hg h
  cases items with
  | nil =>
    simp only [loadCombItems] at h
    simp only [Except.ok.injEq] at h
    subst h
    rfl
  | cons x xs =>
    simp only [loadCombItems] at h
    rw [exbind_ok] at h
    obtain ⟨e, he, h⟩ := h
    rw [exbind_ok] at h
    obtain ⟨rest, hrest, h⟩ := h
    simp only [Except.ok.injEq] at h
    subst h
    simp only [allRender, Bool.and_eq_true]
    exact ⟨ih.expr x e (hg x (by simp)) he,
      ih.combItems xs rest (fun y hy => hg y (by simp [hy])) hrest⟩

/-- Step of the invariant for the function parameter loop. -/
theorem step_loadParams (fuel : Nat) (ih : LoadRenders fuel) :
    ∀ items r, (∀ x ∈ items, GOK x = true) →
      loadParams (fuel + 1) items = .ok r → allRender r = true := by
  intro items r hg h
  cases items with
  | nil =>
    simp only [loadParams] at h
    simp only [Except.ok.injEq] at h
    subst h
    rfl
  | cons p xs =>
    simp only [loadParams] at h
    rw [exbind_ok] at h
    obtain ⟨pt, hpt, h⟩ := h
    split at h
    · exact absurd h (by simp)
    · rw [exbind_ok] at h
      obtain ⟨u, hu, h⟩ := h
      rw [exbind_ok] at h
      obtain ⟨n, hn, h⟩ := h
      rw [exbind_ok] at h
      obtain ⟨rest, hrest, h⟩ := h
      simp only [Except.ok.injEq] at h
      subst h
      simp only [allRender, Bool.and_eq_true]
      refine ⟨?_, ih.params xs rest (fun y hy => hg y (by simp [hy])) hrest⟩
      rw [getKey_ok] at hn
      obtain ⟨pfs, hp, hgetn⟩ := hn
      exact pretty_operand_isSome OperandK.parameter n n
        (GOK_strField pfs "name" n (hp ▸ hg p (by simp)) (by simp) hgetn)

/-- Step of the invariant for one declarator. -/
theorem step_loadVariableDeclaration (fuel : Nat) (ih : LoadRenders fuel) :
    ∀ vdn kv r, GOK vdn = true → isStrB kv = true →
      loadVariableDeclaration (fuel + 1) vdn kv = .ok r →
      (pretty r).isSome = true := by
  intro vdn kv r hg hkv h
  cases vdn with
  | node fs =>
    simp only [loadVariableDeclaration] at h
    rw [exbind_ok] at h
    obtain ⟨u, hu, h⟩ := h
    rw [exbind_ok] at h
    obtain ⟨idv, hidv, h⟩ := h
    rw [exbind_ok] at h
    obtain ⟨u2, hu2, h⟩ := h
    rw [exbind_ok] at h
    obtain ⟨n, hn, h⟩ := h
    have hidgok : GOK idv = true := GOK_getKey (.node fs) "id" idv hg hidv
    have hnstr : isStrB n = true := by
      rw [getKey_ok] at hn
      obtain ⟨idfs, hid, hgetn⟩ := hn
      exact GOK_strField idfs "name" n (hid ▸ hidgok) (by simp) hgetn
    split at h
    · rw [exbind_ok] at h
      obtain ⟨iv, hiv, h⟩ := h
      split at h
      · rw [exbind_ok] at h
        obtain ⟨e, he, h⟩ := h
        simp only [Except.ok.injEq] at h
        subst h
        refine pretty_vardecl_isSome n kv _ hnstr hkv ?_
        have : GOK iv = true := GOK_getKey (.node fs) "init" iv hg hiv
        simpa [optRenders] using ih.expr iv e this he
      · simp only [Except.ok.injEq] at h
        subst h
        exact pretty_vardecl_isSome n kv .none hnstr hkv rfl
    · simp only [Except.ok.injEq] at h
      subst h
      exact pretty_vardecl_isSome n kv .none hnstr hkv rfl
  | null => exact absurd h (by simp [loadVariableDeclaration])
  | bool b => exact absurd h (by simp [loadVariableDeclaration])
  | num n => exact absurd h (by simp [loadVariableDeclaration])
  | str s => exact absurd h (by simp [loadVariableDeclaration])
  | list l => exact absurd h (by simp [loadVariableDeclaration])

/-- Step of the invariant for the declarator loop. -/
theorem step_loadDeclarators (fuel : Nat) (ih : LoadRenders fuel) :
    ∀ items x r, (∀ y ∈ items, GOK y = true) → GOK x = true →
      loadDeclarators (fuel + 1) items x = .ok r → allRender r = true := by
  intro items x r hg hgx h
  cases items with
  | nil =>
    simp only [loadDeclarators] at h
    simp only [Except.ok.injEq] at h
    subst h
    rfl
  | cons vdn xs =>
    simp only [loadDeclarators] at h
    rw [exbind_ok] at h
    obtain ⟨kv, hkv, h⟩ := h
    rw [exbind_ok] at h
    obtain ⟨vd, hvd, h⟩ := h
    rw [exbind_ok] at h
    obtain ⟨rest, hrest, h⟩ := h
    simp only [Except.ok.injEq] at h
    subst h
    have hkvstr : isStrB kv = true := by
      rw [getKey_ok] at hkv
      obtain ⟨xfs, hx, hgetk⟩ := hkv
      exact GOK_strField xfs "kind" kv (hx ▸ hgx) (by simp) hgetk
    simp only [allRender, Bool.and_eq_true]
    exact ⟨ih.vdecl vdn kv vd (hg vdn (by simp)) hkvstr hvd,
      ih.decls xs x rest (fun y hy => hg y (by simp [hy])) hgx hrest⟩

/-- Step of the invariant for `Block.loadvardecl`. -/
theorem step_loadVardecl (fuel : Nat) (ih : LoadRenders fuel) :
    ∀ x r, GOK x = true → loadVardecl (fuel + 1) x = .ok r →
      allRender r = true := by
  intro x r hg h
  simp only [loadVardecl] at h
  rw [exbind_ok] at h
  obtain ⟨ds, hds, h⟩ := h
  rcases hit : pyIter ds with _ | items
  · rw [hit] at h
    exact absurd h (by simp)
  · rw [hit] at h
    exact ih.decls items x r
      (GOK_iter ds items (GOK_getKey x "declarations" ds hg hds) hit) hg h

/-- Step of the invariant for `Call.load`. -/
theorem step_loadCall (fuel : Nat) (ih : LoadRenders fuel) :
    ∀ ast k r, GOK ast = true → loadCall (fuel + 1) ast k = .ok r →
      (pretty r).isSome = true := by
  intro ast k r hg h
  simp only [loadCall] at h
  rw [exbind_ok] at h
  obtain ⟨u, hu, h⟩ := h
  rw [exbind_ok] at h
  obtain ⟨cv, hcv, h⟩ := h
  rw [exbind_ok] at h
  obtain ⟨c, hc, h⟩ := h
  rw [exbind_ok] at h
  obtain ⟨av, hav, h⟩ := h
  rw [exbind_ok] at h
  obtain ⟨a, ha, h⟩ := h
  simp only [Except.ok.injEq] at h
  subst h
  exact pretty_call_isSome c k a
    (ih.expr cv c (GOK_getKey ast "callee" cv hg hcv) hc)
    (ih.comb av "()" a (GOK_getKey ast "arguments" av hg hav) ha)

/-- Step of the invariant for `Combinator.load`. -/
theorem step_loadCombinator (fuel : Nat) (ih : LoadRenders fuel) :
    ∀ v kind r, GOK v = true → loadCombinator (fuel + 1) v kind = .ok r →
      (pretty r).isSome = true := by
  intro v kind r hg h
  simp only [loadCombinator] at h
  rcases hit : pyIter v with _ | items
  · rw [hit] at h
    exact absurd h (by simp)
  · rw [hit] at h
    rw [exbind_ok] at h
    obtain ⟨args, hargs, h⟩ := h
    simp only [Except.ok.injEq] at h
    subst h
    exact pretty_combinator_isSome kind.front kind.back args
      (prettyJoinList_isSome_of_allRender args
        (ih.combItems items args (GOK_iter v items hg hit) hargs))

/-- Step of the invariant for `Object.load`. -/
theorem step_loadObject (fuel : Nat) (ih : LoadRenders fuel) :
    ∀ ast r, GOK ast = true → loadObject (fuel + 1) ast = .ok r →
      (pretty r).isSome = true := by
  intro ast r hg h
  simp only [loadObject] at h
  rw [exbind_ok] at h
  obtain ⟨u, hu, h⟩ := h
  rw [exbind_ok] at h
  obtain ⟨ps, hps, h⟩ := h
  rcases hit : pyIter ps with _ | items
  · rw [hit] at h
    exact absurd h (by simp)
  · rw [hit] at h
    rw [exbind_ok] at h
    obtain ⟨props, hprops, h⟩ := h
    simp only [Except.ok.injEq] at h
    subst h
    exact pretty_object_isSome props
      (prettyJoinList_isSome_of_allRender props
        (ih.props items props
          (GOK_iter ps items (GOK_getKey ast "properties" ps hg hps) hit) hprops))

/-- Step of the invariant for the property loop of `Object.load`. -/
theorem step_loadProps (fuel : Nat) (ih : LoadRenders fuel) :
    ∀ items r, (∀ x ∈ items, GOK x = true) →
      loadProps (fuel + 1) items = .ok r → allRender r = true := by
  intro items r hg h
  cases items with
  | nil =>
    simp only [loadProps] at h
    simp only [Except.ok.injEq] at h
    subst h
    rfl
  | cons p rest =>
    simp only [loadProps] at h
    rw [exbind_ok] at h
    obtain ⟨u, hu, h⟩ := h
    rw [exbind_ok] at h
    obtain ⟨kn0, hkn0, h⟩ := h
    rw [exbind_ok] at h
    obtain ⟨u2, hu2, h⟩ := h
    rw [exbind_ok] at h
    obtain ⟨cv, hcv, h⟩ := h
    split at h
    · exact absurd h (by simp)
    · rw [exbind_ok] at h
      obtain ⟨kind, hkind, h⟩ := h
      rw [exbind_ok] at h
      obtain ⟨keyNode, hkeyNode, h⟩ := h
      rw [exbind_ok] at h
      obtain ⟨keyName, hkeyName, h⟩ := h
      rw [exbind_ok] at h
      obtain ⟨vv, hvv, h⟩ := h
      rw [exbind_ok] at h
      obtain ⟨v, hv, h⟩ := h
      rw [exbind_ok] at h
      obtain ⟨rest2, hrest2, h⟩ := h
      simp only [Except.ok.injEq] at h
      subst h
      simp only [allRender, Bool.and_eq_true]
      refine ⟨?_, ih.props rest rest2 (fun y hy => hg y (by simp [hy])) hrest2⟩
      have hkeystr : isStrB keyName = true := by
        rw [getKey_ok] at hkeyName
        obtain ⟨kfs, hk, hgetn⟩ := hkeyName
        exact GOK_strField kfs "name" keyName
          (hk ▸ GOK_getKey p "key" keyNode (hg p (by simp)) hkeyNode) (by simp) hgetn
      exact mkProperty_renders kind keyName v (getkind_range p kind hkind) hkeystr
        (ih.expr vv v (GOK_getKey p "value" vv (hg p (by simp)) hvv) hv)

/-- Step of the invariant for `Function.load`. -/
theorem step_loadFunction (fuel : Nat) (ih : LoadRenders fuel) :
    ∀ ast d r, GOK ast = true → loadFunction (fuel + 1) ast d = .ok r →
      (pretty r).isSome = true := by
  intro ast d r hg h
  simp only [loadFunction] at h
  rw [exbind_ok] at h
  obtain ⟨u, hu, h⟩ := h
  rw [exbind_ok] at h
  obtain ⟨idv, hidv, h⟩ := h
  split at h
  · rw [exbind_ok] at h
    obtain ⟨u2, hu2, h⟩ := h
    rw [exbind_ok] at h
    obtain ⟨n, hn, h⟩ := h
    rw [exbind_ok] at h
    obtain ⟨fn, hfn, h⟩ := h
    simp only [pure, Except.pure, Except.ok.injEq] at hfn
    subst hfn
    have hnstr : isStrB n = true := by
      rw [getKey_ok] at hn
      obtain ⟨idfs, hid, hgetn⟩ := hn
      exact GOK_strField idfs "name" n
        (hid ▸ GOK_getKey ast "id" idv hg hidv) (by simp) hgetn
    rw [exbind_ok] at h
    obtain ⟨g, hgk, h⟩ := h
    rw [exbind_ok] at h
    obtain ⟨e, hek, h⟩ := h
    split at h
    · exact absurd h (by simp)
    · rw [exbind_ok] at h
      obtain ⟨d2, hd2, h⟩ := h
      rcases hlen : pyLen d2 with _ | m
      · simp only [hlen] at h
        exact absurd h (by simp)
      · simp only [hlen] at h
        split at h
        · exact absurd h (by simp)
        · rw [exbind_ok] at h
          obtain ⟨b, hb, h⟩ := h
          rw [exbind_ok] at h
          obtain ⟨bt, hbt, h⟩ := h
          split at h
          · exact absurd h (by simp)
          · rw [exbind_ok] at h
            obtain ⟨bb, hbb, h⟩ := h
            rw [exbind_ok] at h
            obtain ⟨blk, hblk, h⟩ := h
            rw [exbind_ok] at h
            obtain ⟨pv, hpv, h⟩ := h
            rcases hit : pyIter pv with _ | items
            · simp only [hit] at h
              exact absurd h (by simp)
            · simp only [hit] at h
              rw [exbind_ok] at h
              obtain ⟨ps, hps, h⟩ := h
              simp only [Except.ok.injEq] at h
              subst h
              refine pretty_func_isSome (some n) d ps blk (by simpa using hnstr) ?_ ?_
              · exact prettyJoinList_isSome_of_allRender ps
                  (ih.params items ps
                    (GOK_iter pv items (GOK_getKey ast "params" pv hg hpv) hit) hps)
              · exact ih.blockL bb blk
                  (GOK_getKey b "body" bb (GOK_getKey ast "body" b hg hb) hbb) hblk
  · rw [exbind_ok] at h
    obtain ⟨fn, hfn, h⟩ := h
    simp only [pure, Except.pure, Except.ok.injEq] at hfn
    subst hfn
    rw [exbind_ok] at h
    obtain ⟨g, hgk, h⟩ := h
    rw [exbind_ok] at h
    obtain ⟨e, hek, h⟩ := h
    split at h
    · exact absurd h (by simp)
    · rw [exbind_ok] at h
      obtain ⟨d2, hd2, h⟩ := h
      rcases hlen : pyLen d2 with _ | m
      · simp only [hlen] at h
        exact absurd h (by simp)
      · simp only [hlen] at h
        split at h
        · exact absurd h (by simp)
        · rw [exbind_ok] at h
          obtain ⟨b, hb, h⟩ := h
          rw [exbind_ok] at h
          obtain ⟨bt, hbt, h⟩ := h
          split at h
          · exact absurd h (by simp)
          · rw [exbind_ok] at h
            obtain ⟨bb, hbb, h⟩ := h
            rw [exbind_ok] at h
            obtain ⟨blk, hblk, h⟩ := h
            rw [exbind_ok] at h
            obtain ⟨pv, hpv, h⟩ := h
            rcases hit : pyIter pv with _ | items
            · simp only [hit] at h
              exact absurd h (by simp)
            · simp only [hit] at h
              rw [exbind_ok] at h
              obtain ⟨ps, hps, h⟩ := h
              simp only [Except.ok.injEq] at h
              subst h
              refine pretty_func_isSome none d ps blk trivial ?_ ?_
              · exact prettyJoinList_isSome_of_allRender ps
                  (ih.params items ps
                    (GOK_iter pv items (GOK_getKey ast "params" pv hg hpv) hit) hps)
              · exact ih.blockL bb blk
                  (GOK_getKey b "body" bb (GOK_getKey ast "body" b hg hb) hbb) hblk

/-- Step of the invariant for `Expression.load`. -/
theorem step_loadExpr (fuel : Nat) (ih : LoadRenders fuel) :
    ∀ ast r, GOK ast = true → loadExpr (fuel + 1) ast = .ok r →
      (pretty r).isSome = true := by
  intro ast r hg h
  simp only [loadExpr] at h
  split at h
  case _ fs =>
    rw [exbind_ok] at h
    obtain ⟨tv, htv, h⟩ := h
    by_cases h1 : isStrVal tv "Literal" = true
    · rw [if_pos h1] at h
      rw [exbind_ok] at h
      obtain ⟨u, hu, h⟩ := h
      rw [exbind_ok] at h
      obtain ⟨v, hv, h⟩ := h
      rw [exbind_ok] at h
      obtain ⟨raw, hraw, h⟩ := h
      simp only [Except.ok.injEq] at h
      subst h
      rw [getKey_ok] at hraw
      obtain ⟨fs2, hfs2, hgetraw⟩ := hraw
      injection hfs2 with hfs2
      subst hfs2
      exact pretty_operand_isSome _ v raw
        (GOK_strField fs "raw" raw hg (by simp) hgetraw)
    rw [if_neg h1] at h
    by_cases h2 : isStrVal tv "CallExpression" = true
    · rw [if_pos h2] at h
      exact ih.callL _ _ r hg h
    rw [if_neg h2] at h
    by_cases h3 : isStrVal tv "NewExpression" = true
    · rw [if_pos h3] at h
      exact ih.callL _ _ r hg h
    rw [if_neg h3] at h
    by_cases h4 : isStrVal tv "FunctionExpression" = true
    · rw [if_pos h4] at h
      exact ih.funcL _ _ r hg h
    rw [if_neg h4] at h
    by_cases h5 : isStrVal tv "MemberExpression" = true
    · rw [if_pos h5] at h
      rw [exbind_ok] at h
      obtain ⟨u, hu, h⟩ := h
      rw [exbind_ok] at h
      obtain ⟨c, hck, h⟩ := h
      rw [exbind_ok] at h
      obtain ⟨ov, hov, h⟩ := h
      rw [exbind_ok] at h
      obtain ⟨o, ho, h⟩ := h
      rw [exbind_ok] at h
      obtain ⟨pv, hpv, h⟩ := h
      rw [exbind_ok] at h
      obtain ⟨p, hp, h⟩ := h
      simp only [Except.ok.injEq] at h
      subst h
      exact pretty_operation_isSome (.str ".") o p _ rfl
        (ih.expr ov o (GOK_getKey _ "object" ov hg hov) ho)
        (ih.expr pv p (GOK_getKey _ "property" pv hg hpv) hp)
    rw [if_neg h5] at h
    by_cases h6 : isStrVal tv "Identifier" = true
    · rw [if_pos h6] at h
      rw [exbind_ok] at h
      obtain ⟨u, hu, h⟩ := h
      rw [exbind_ok] at h
      obtain ⟨n, hn, h⟩ := h
      simp only [Except.ok.injEq] at h
      subst h
      rw [getKey_ok] at hn
      obtain ⟨fs2, hfs2, hgetn⟩ := hn
      injection hfs2 with hfs2
      subst hfs2
      exact pretty_operand_isSome _ n n
        (GOK_strField fs "name" n hg (by simp) hgetn)
    rw [if_neg h6] at h
    by_cases h7 : isStrVal tv "ThisExpression" = true
    · rw [if_pos h7] at h
      rw [exbind_ok] at h
      obtain ⟨u, hu, h⟩ := h
      simp only [Except.ok.injEq] at h
      subst h
      exact pretty_operand_isSome _ _ _ rfl
    rw [if_neg h7] at h
    by_cases h8 : isStrVal tv "BinaryExpression" = true
    · rw [if_pos h8] at h
      rw [exbind_ok] at h
      obtain ⟨u, hu, h⟩ := h
      rw [exbind_ok] at h
      obtain ⟨o, ho, h⟩ := h
      rw [exbind_ok] at h
      obtain ⟨lv, hlv, h⟩ := h
      rw [exbind_ok] at h
      obtain ⟨l, hl, h⟩ := h
      rw [exbind_ok] at h
      obtain ⟨rv, hrv, h⟩ := h
      rw [exbind_ok] at h
      obtain ⟨rr, hrr, h⟩ := h
      simp only [Except.ok.injEq] at h
      subst h
      rw [getKey_ok] at ho
      obtain ⟨fs2, hfs2, hgeto⟩ := ho
      injection hfs2 with hfs2
      subst hfs2
      exact pretty_operation_isSome o l rr _
        (GOK_strField fs "operator" o hg (by simp) hgeto)
        (ih.expr lv l (GOK_getKey _ "left" lv hg hlv) hl)
        (ih.expr rv rr (GOK_getKey _ "right" rv hg hrv) hrr)
    rw [if_neg h8] at h
    by_cases h9 : isStrVal tv "AssignmentExpression" = true
    · rw [if_pos h9] at h
      rw [exbind_ok] at h
      obtain ⟨u, hu, h⟩ := h
      rw [exbind_ok] at h
      obtain ⟨o, ho, h⟩ := h
      rw [exbind_ok] at h
      obtain ⟨lv, hlv, h⟩ := h
      rw [exbind_ok] at h
      obtain ⟨l, hl, h⟩ := h
      rw [exbind_ok] at h
      obtain ⟨rv, hrv, h⟩ := h
      rw [exbind_ok] at h
      obtain ⟨rr, hrr, h⟩ := h
      simp only [Except.ok.injEq] at h
      subst h
      rw [getKey_ok] at ho
      obtain ⟨fs2, hfs2, hgeto⟩ := ho
      injection hfs2 with hfs2
      subst hfs2
      exact pretty_operation_isSome o l rr _
        (GOK_strField fs "operator" o hg (by simp) hgeto)
        (ih.expr lv l (GOK_getKey _ "left" lv hg hlv) hl)
        (ih.expr rv rr (GOK_getKey _ "right" rv hg hrv) hrr)
    rw [if_neg h9] at h
    by_cases h10 : isStrVal tv "LogicalExpression" = true
    · rw [if_pos h10] at h
      rw [exbind_ok] at h
      obtain ⟨u, hu, h⟩ := h
      rw [exbind_ok] at h
      obtain ⟨o, ho, h⟩ := h
      rw [exbind_ok] at h
      obtain ⟨lv, hlv, h⟩ := h
      rw [exbind_ok] at h
      obtain ⟨l, hl, h⟩ := h
      rw [exbind_ok] at h
      obtain ⟨rv, hrv, h⟩ := h
      rw [exbind_ok] at h
      obtain ⟨rr, hrr, h⟩ := h
      simp only [Except.ok.injEq] at h
      subst h
      rw [getKey_ok] at ho
      obtain ⟨fs2, hfs2, hgeto⟩ := ho
      injection hfs2 with hfs2
      subst hfs2
      exact pretty_operation_isSome o l rr _
        (GOK_strField fs "operator" o hg (by simp) hgeto)
        (ih.expr lv l (GOK_getKey _ "left" lv hg hlv) hl)
        (ih.expr rv rr (GOK_getKey _ "right" rv hg hrv) hrr)
    rw [if_neg h10] at h
    by_cases h11 : isStrVal tv "ConditionalExpression" = true
    · rw [if_pos h11] at h
      rw [exbind_ok] at h
      obtain ⟨u, hu, h⟩ := h
      rw [exbind_ok] at h
      obtain ⟨tv2, htv2, h⟩ := h
      rw [exbind_ok] at h
      obtain ⟨t, hts, h⟩ := h
      rw [exbind_ok] at h
      obtain ⟨cv, hcv, h⟩ := h
      rw [exbind_ok] at h
      obtain ⟨c, hc, h⟩ := h
      rw [exbind_ok] at h
      obtain ⟨av, hav, h⟩ := h
      rw [exbind_ok] at h
      obtain ⟨a, ha, h⟩ := h
      simp only [Except.ok.injEq] at h
      subst h
      exact pretty_condexpr_isSome t c a
        (ih.expr tv2 t (GOK_getKey _ "test" tv2 hg htv2) hts)
        (ih.expr cv c (GOK_getKey _ "consequent" cv hg hcv) hc)
        (ih.expr av a (GOK_getKey _ "alternate" av hg hav) ha)
    rw [if_neg h11] at h
    by_cases h12 : isStrVal tv "UnaryExpression" = true ∨ isStrVal tv "UpdateExpression" = true
    · rw [if_pos h12] at h
      rw [exbind_ok] at h
      obtain ⟨u, hu, h⟩ := h
      rw [exbind_ok] at h
      obtain ⟨o, ho, h⟩ := h
      rw [exbind_ok] at h
      obtain ⟨av, hav, h⟩ := h
      rw [exbind_ok] at h
      obtain ⟨a, ha, h⟩ := h
      rw [exbind_ok] at h
      obtain ⟨p, hp, h⟩ := h
      simp only [Except.ok.injEq] at h
      subst h
      rw [getKey_ok] at ho
      obtain ⟨fs2, hfs2, hgeto⟩ := ho
      injection hfs2 with hfs2
      subst hfs2
      exact pretty_modifier_isSome o a _
        (GOK_strField fs "operator" o hg (by simp) hgeto)
        (ih.expr av a (GOK_getKey _ "argument" av hg hav) ha)
    rw [if_neg h12] at h
    by_cases h13 : isStrVal tv "ArrayExpression" = true
    · rw [if_pos h13] at h
      rw [exbind_ok] at h
      obtain ⟨u, hu, h⟩ := h
      rw [exbind_ok] at h
      obtain ⟨ev, hev, h⟩ := h
      exact ih.comb ev "[]" r (GOK_getKey _ "elements" ev hg hev) h
    rw [if_neg h13] at h
    by_cases h14 : isStrVal tv "ObjectExpression" = true
    · rw [if_pos h14] at h
      exact ih.obj _ r hg h
    rw [if_neg h14] at h
    simp at h
  case _ => simp at h

/-- A type-tagged value is a dict carrying that tag. -/
theorem typeTagIs_spec (x : GVal) (s : String) (h : typeTagIs x s = true) :
    ∃ fs, x = .node fs ∧ getF fs "type" = some (.str s) := by
  cases x with
  | node fs => exact ⟨fs, rfl, typeTagIs_node fs s h⟩
  | null => simp [typeTagIs] at h
  | bool b => simp [typeTagIs] at h
  | num n => simp [typeTagIs] at h
  | str t => simp [typeTagIs] at h
  | list l => simp [typeTagIs] at h

/-- A statement loaded from a non-declaration-tagged generic value is a
single rendering node. -/
theorem stmt_renders_of_notVD (fuel : Nat) (ih : LoadRenders fuel)
    (v : GVal) (c : JNode) (hg : GOK v = true)
    (hnvd : typeTagIs v "VariableDeclaration" = false)
    (hc : loadStatement fuel v = .ok c) : (pretty c).isSome = true := by
  obtain ⟨hall, himp⟩ := ih.stmt v c hg hc
  refine isSome_of_allRender_toStmts c ?_ hall
  intro dl heq
  rw [himp dl heq] at hnvd
  exact absurd hnvd (by decide)

/-- Step of the invariant for `Block.loadconditional`. -/
theorem step_loadConditional (fuel : Nat) (ih : LoadRenders fuel) :
    ∀ x r, GOK x = true → typeTagIs x "IfStatement" = true →
      loadConditional (fuel + 1) x = .ok r → (pretty r).isSome = true := by
  intro x r hg htag h
  obtain ⟨fs, hx, htype⟩ := typeTagIs_spec x "IfStatement" htag
  subst hx
  obtain ⟨hcons, halt⟩ := noBareDecl_if fs (GOK_node fs hg).2.1 htype
  simp only [loadConditional] at h
  rw [exbind_ok] at h
  obtain ⟨tv, htv, h⟩ := h
  rw [exbind_ok] at h
  obtain ⟨t, ht, h⟩ := h
  rw [exbind_ok] at h
  obtain ⟨cv, hcv, h⟩ := h
  rw [exbind_ok] at h
  obtain ⟨c, hc, h⟩ := h
  rw [exbind_ok] at h
  obtain ⟨av, hav, h⟩ := h
  have hts : (pretty t).isSome = true :=
    ih.expr tv t (GOK_getKey _ "test" tv hg htv) ht
  have hcgok : GOK cv = true := GOK_getKey _ "consequent" cv hg hcv
  have hcnvd : typeTagIs cv "VariableDeclaration" = false := by
    rw [getKey_ok] at hcv
    obtain ⟨fs2, hfs2, hgetc⟩ := hcv
    injection hfs2 with hfs2
    subst hfs2
    exact notVDOpt_spec _ cv hcons hgetc
  have hcs : (pretty c).isSome = true :=
    stmt_renders_of_notVD fuel ih cv c hcgok hcnvd hc
  split at h
  · simp only [Except.ok.injEq] at h
    subst h
    exact pretty_condstmt_isSome t c .none hts hcs rfl
  · rw [exbind_ok] at h
    obtain ⟨a, ha, h⟩ := h
    simp only [Except.ok.injEq] at h
    subst h
    have hagok : GOK av = true := GOK_getKey _ "alternate" av hg hav
    have hanvd : typeTagIs av "VariableDeclaration" = false := by
      rw [getKey_ok] at hav
      obtain ⟨fs2, hfs2, hgeta⟩ := hav
      injection hfs2 with hfs2
      subst hfs2
      exact notVDOpt_spec _ av halt hgeta
    have has : (pretty a).isSome = true :=
      stmt_renders_of_notVD fuel ih av a hagok hanvd ha
    exact pretty_condstmt_isSome t c (.some a) hts hcs (by simpa [optRenders] using has)

/-- Step of the invariant for `Iterator.load`. -/
theorem step_loadIterator (fuel : Nat) (ih : LoadRenders fuel) :
    ∀ x r, GOK x = true → typeTagIs x "ForInStatement" = true →
      loadIterator (fuel + 1) x = .ok r → (pretty r).isSome = true := by
  intro x r hg htag h
  obtain ⟨fs, hx, htype⟩ := typeTagIs_spec x "ForInStatement" htag
  subst hx
  have hbody := noBareDecl_body fs "ForInStatement" (GOK_node fs hg).2.1 htype
    (Or.inr (Or.inr rfl))
  simp only [loadIterator] at h
  rw [exbind_ok] at h
  obtain ⟨u, hu, h⟩ := h
  rw [exbind_ok] at h
  obtain ⟨e, he, h⟩ := h
  split at h
  · exact absurd h (by simp)
  · rw [exbind_ok] at h
    obtain ⟨lv, hlv, h⟩ := h
    rw [exbind_ok] at h
    obtain ⟨l, hl, h⟩ := h
    rw [exbind_ok] at h
    obtain ⟨rv, hrv, h⟩ := h
    rw [exbind_ok] at h
    obtain ⟨rr, hrr, h⟩ := h
    rw [exbind_ok] at h
    obtain ⟨bv, hbv, h⟩ := h
    rw [exbind_ok] at h
    obtain ⟨b, hb, h⟩ := h
    simp only [Except.ok.injEq] at h
    subst h
    have hbnvd : typeTagIs bv "VariableDeclaration" = false := by
      rw [getKey_ok] at hbv
      obtain ⟨fs2, hfs2, hgetb⟩ := hbv
      injection hfs2 with hfs2
      subst hfs2
      exact notVDOpt_spec _ bv hbody hgetb
    exact pretty_iterator_isSome l rr b
      (ih.expr lv l (GOK_getKey _ "left" lv hg hlv) hl)
      (ih.expr rv rr (GOK_getKey _ "right" rv hg hrv) hrr)
      (stmt_renders_of_notVD fuel ih bv b (GOK_getKey _ "body" bv hg hbv) hbnvd hb)

/-- Step of the invariant for `Loop.loadwhile`. -/
theorem step_loadWhile (fuel : Nat) (ih : LoadRenders fuel) :
    ∀ x r, GOK x = true → typeTagIs x "WhileStatement" = true →
      loadWhile (fuel + 1) x = .ok r → (pretty r).isSome = true := by
  intro x r hg htag h
  obtain ⟨fs, hx, htype⟩ := typeTagIs_spec x "WhileStatement" htag
  subst hx
  have hbody := noBareDecl_body fs "WhileStatement" (GOK_node fs hg).2.1 htype
    (Or.inr (Or.inl rfl))
  simp only [loadWhile] at h
  rw [exbind_ok] at h
  obtain ⟨u, hu, h⟩ := h
  rw [exbind_ok] at h
  obtain ⟨tv, htv, h⟩ := h
  split at h
  · rw [exbind_ok] at h
    obtain ⟨t, ht, h⟩ := h
    rw [exbind_ok] at h
    obtain ⟨topt, htopt, h⟩ := h
    simp only [pure, Except.pure, Except.ok.injEq] at htopt
    subst htopt
    rw [exbind_ok] at h
    obtain ⟨bv, hbv, h⟩ := h
    rw [exbind_ok] at h
    obtain ⟨b, hb, h⟩ := h
    simp only [Except.ok.injEq] at h
    subst h
    have hbnvd : typeTagIs bv "VariableDeclaration" = false := by
      rw [getKey_ok] at hbv
      obtain ⟨fs2, hfs2, hgetb⟩ := hbv
      injection hfs2 with hfs2
      subst hfs2
      exact notVDOpt_spec _ bv hbody hgetb
    exact pretty_loop_isSome LoopK.whileK .nil (.some t) .none b rfl
      (by simpa [optRenders] using ih.expr tv t (GOK_getKey _ "test" tv hg htv) ht)
      rfl
      (stmt_renders_of_notVD fuel ih bv b (GOK_getKey _ "body" bv hg hbv) hbnvd hb)
  · rw [exbind_ok] at h
    obtain ⟨topt, htopt, h⟩ := h
    simp only [pure, Except.pure, Except.ok.injEq] at htopt
    subst htopt
    rw [exbind_ok] at h
    obtain ⟨bv, hbv, h⟩ := h
    rw [exbind_ok] at h
    obtain ⟨b, hb, h⟩ := h
    simp only [Except.ok.injEq] at h
    subst h
    have hbnvd : typeTagIs bv "VariableDeclaration" = false := by
      rw [getKey_ok] at hbv
      obtain ⟨fs2, hfs2, hgetb⟩ := hbv
      injection hfs2 with hfs2
      subst hfs2
      exact notVDOpt_spec _ bv hbody hgetb
    exact pretty_loop_isSome LoopK.whileK .nil .none .none b rfl rfl rfl
      (stmt_renders_of_notVD fuel ih bv b (GOK_getKey _ "body" bv hg hbv) hbnvd hb)

/-- A statement loaded from a node field that the bare-declaration
exclusion covers, renders. -/
theorem stmt_renders_at_key (fuel : Nat) (ih : LoadRenders fuel)
    (fs : GFields) (k : String) (hg : GOK (.node fs) = true)
    (hnb : notVDOpt (getF fs k) = true) (bv : GVal) (b : JNode)
    (hbv : getKey (.node fs) k = .ok bv)
    (hb : loadStatement fuel bv = .ok b) : (pretty b).isSome = true := by
  have hbnvd : typeTagIs bv "VariableDeclaration" = false := by
    rw [getKey_ok] at hbv
    obtain ⟨fs2, hfs2, hgetb⟩ := hbv
    injection hfs2 with hfs2
    subst hfs2
    exact notVDOpt_spec _ bv hnb hgetb
  exact stmt_renders_of_notVD fuel ih bv b (GOK_getKey _ k bv hg hbv) hbnvd hb

/-- The test/update/body tail of `Loop.loadfor` renders once the init
clause has been loaded into a rendering list. -/
theorem loadFor_tail (fuel : Nat) (ih : LoadRenders fuel) (fs : GFields)
    (hg : GOK (.node fs) = true) (hbody : notVDOpt (getF fs "body") = true)
    (initList : JList) (hinit : allRender initList = true) (r : JNode)
    (h : (do
      let tv ← getKey (GVal.node fs) "test"
      let testOpt ←
        if ¬ gIsNull tv then do
          let t ← loadExpr fuel tv
          pure (JOpt.some t)
        else pure JOpt.none
      let uv ← getKey (GVal.node fs) "update"
      let updOpt ←
        if ¬ gIsNull uv then do
          let u ← loadExpr fuel uv
          pure (JOpt.some u)
        else pure JOpt.none
      let b ← loadStatement fuel (← getKey (GVal.node fs) "body")
      Except.ok (JNode.loop LoopK.forK initList testOpt updOpt (JOpt.some b))) = .ok r) :
    (pretty r).isSome = true := by
  have hinitJ := prettyJoinList_isSome_of_allRender initList hinit
  rw [exbind_ok] at h
  obtain ⟨tv, htv, h⟩ := h
  split at h
  · rw [exbind_ok] at h
    obtain ⟨t, ht, h⟩ := h
    rw [exbind_ok] at h
    obtain ⟨y1, hy1, h⟩ := h
    simp only [pure, Except.pure, Except.ok.injEq] at hy1
    subst hy1
    have htR : optRenders (JOpt.some t) = true := by
      simpa [optRenders] using ih.expr tv t (GOK_getKey _ "test" tv hg htv) ht
    rw [exbind_ok] at h
    obtain ⟨uv, huv, h⟩ := h
    split at h
    · rw [exbind_ok] at h
      obtain ⟨u2, hu2, h⟩ := h
      rw [exbind_ok] at h
      obtain ⟨y2, hy2, h⟩ := h
      simp only [pure, Except.pure, Except.ok.injEq] at hy2
      subst hy2
      rw [exbind_ok] at h
      obtain ⟨bv, hbv, h⟩ := h
      rw [exbind_ok] at h
      obtain ⟨b, hb, h⟩ := h
      simp only [Except.ok.injEq] at h
      subst h
      exact pretty_loop_isSome LoopK.forK initList (JOpt.some t) (JOpt.some u2) b
        hinitJ htR
        (by simpa [optRenders] using ih.expr uv u2 (GOK_getKey _ "update" uv hg huv) hu2)
        (stmt_renders_at_key fuel ih fs "body" hg hbody bv b hbv hb)
    · rw [exbind_ok] at h
      obtain ⟨y2, hy2, h⟩ := h
      simp only [pure, Except.pure, Except.ok.injEq] at hy2
      subst hy2
      rw [exbind_ok] at h
      obtain ⟨bv, hbv, h⟩ := h
      rw [exbind_ok] at h
      obtain ⟨b, hb, h⟩ := h
      simp only [Except.ok.injEq] at h
      subst h
      exact pretty_loop_isSome LoopK.forK initList (JOpt.some t) .none b
        hinitJ htR rfl
        (stmt_renders_at_key fuel ih fs "body" hg hbody bv b hbv hb)
  · rw [exbind_ok] at h
    obtain ⟨y1, hy1, h⟩ := h
    simp only [pure, Except.pure, Except.ok.injEq] at hy1
    subst hy1
    rw [exbind_ok] at h
    obtain ⟨uv, huv, h⟩ := h
    split at h
    · rw [exbind_ok] at h
      obtain ⟨u2, hu2, h⟩ := h
      rw [exbind_ok] at h
      obtain ⟨y2, hy2, h⟩ := h
      simp only [pure, Except.pure, Except.ok.injEq] at hy2
      subst hy2
      rw [exbind_ok] at h
      obtain ⟨bv, hbv, h⟩ := h
      rw [exbind_ok] at h
      obtain ⟨b, hb, h⟩ := h
      simp only [Except.ok.injEq] at h
      subst h
      exact pretty_loop_isSome LoopK.forK initList .none (JOpt.some u2) b
        hinitJ rfl
        (by simpa [optRenders] using ih.expr uv u2 (GOK_getKey _ "update" uv hg huv) hu2)
        (stmt_renders_at_key fuel ih fs "body" hg hbody bv b hbv hb)
    · rw [exbind_ok] at h
      obtain ⟨y2, hy2, h⟩ := h
      simp only [pure, Except.pure, Except.ok.injEq] at hy2
      subst hy2
      rw [exbind_ok] at h
      obtain ⟨bv, hbv, h⟩ := h
      rw [exbind_ok] at h
      obtain ⟨b, hb, h⟩ := h
      simp only [Except.ok.injEq] at h
      subst h
      exact pretty_loop_isSome LoopK.forK initList .none .none b
        hinitJ rfl rfl
        (stmt_renders_at_key fuel ih fs "body" hg hbody bv b hbv hb)

/-- Step of the invariant for `Loop.loadfor`. -/
theorem step_loadFor (fuel : Nat) (ih : LoadRenders fuel) :
    ∀ x r, GOK x = true → typeTagIs x "ForStatement" = true →
      loadFor (fuel + 1) x = .ok r → (pretty r).isSome = true := by
  intro x r hg htag h
  obtain ⟨fs, hx, htype⟩ := typeTagIs_spec x "ForStatement" htag
  subst hx
  have hbody := noBareDecl_body fs "ForStatement" (GOK_node fs hg).2.1 htype
    (Or.inl rfl)
  simp only [loadFor] at h
  rw [exbind_ok] at h
  obtain ⟨u, hu, h⟩ := h
  rw [exbind_ok] at h
  obtain ⟨iv, hiv, h⟩ := h
  have hivg : GOK iv = true := GOK_getKey _ "init" iv hg hiv
  split at h
  · rw [exbind_ok] at h
    obtain ⟨it, hit, h⟩ := h
    split at h
    · rw [exbind_ok] at h
      obtain ⟨u2, hu2, h⟩ := h
      rw [exbind_ok] at h
      obtain ⟨dl, hdl, h⟩ := h
      exact loadFor_tail fuel ih fs hg hbody dl (ih.vardecl iv dl hivg hdl) r h
    · rw [exbind_ok] at h
      obtain ⟨e, he, h⟩ := h
      rw [exbind_ok] at h
      obtain ⟨y, hy, h⟩ := h
      simp only [pure, Except.pure, Except.ok.injEq] at hy
      subst hy
      refine loadFor_tail fuel ih fs hg hbody _ ?_ r h
      simp only [allRender, Bool.and_eq_true]
      exact ⟨ih.expr iv e hivg he, by trivial⟩
  · rw [exbind_ok] at h
    obtain ⟨y, hy, h⟩ := h
    simp only [pure, Except.pure, Except.ok.injEq] at hy
    subst hy
    exact loadFor_tail fuel ih fs hg hbody .nil rfl r h

/-- The finalizer tail of `Handler.load` renders once the try block and the
catch clause have been loaded into rendering parts. -/
theorem loadHandler_tail (fuel : Nat) (ih : LoadRenders fuel) (x : GVal)
    (hg : GOK x = true) (blk : JNode) (hblkR : (pretty blk).isSome = true)
    (pc : Option GVal × JOpt)
    (hpc : pc = (none, JOpt.none) ∨
      ∃ pn cb, pc = (some pn, JOpt.some cb) ∧ isStrB pn = true ∧
        (pretty cb).isSome = true)
    (r : JNode)
    (h : (do
      let fv ← getKey x "finalizer"
      if ¬ gIsNull fv then do
        checknode fv ["body"] (some "BlockStatement")
        let fblk ← loadBlock fuel (← getKey fv "body")
        Except.ok (JNode.handler (JOpt.some blk) pc.1 pc.2 (JOpt.some fblk))
      else Except.ok (JNode.handler (JOpt.some blk) pc.1 pc.2 JOpt.none)) = .ok r) :
    (pretty r).isSome = true := by
  obtain ⟨bs, hbs⟩ := Option.isSome_iff_exists.mp hblkR
  rw [exbind_ok] at h
  obtain ⟨fv, hfv, h⟩ := h
  split at h
  · rw [exbind_ok] at h
    obtain ⟨u6, hu6, h⟩ := h
    rw [exbind_ok] at h
    obtain ⟨fbv, hfbv, h⟩ := h
    rw [exbind_ok] at h
    obtain ⟨fblk, hfblk, h⟩ := h
    simp only [Except.ok.injEq] at h
    subst h
    have hfR : (pretty fblk).isSome = true :=
      ih.blockL fbv fblk
        (GOK_getKey fv "body" fbv (GOK_getKey x "finalizer" fv hg hfv) hfbv)
        hfblk
    obtain ⟨fsx, hfsx⟩ := Option.isSome_iff_exists.mp hfR
    rcases hpc with hpcE | ⟨pn, cb, hpcE, hpn, hcb⟩ <;> subst hpcE
    · rw [show (pretty (.handler (.some blk) ((none : Option GVal), JOpt.none).1
        ((none : Option GVal), JOpt.none).2 (.some fblk))) =
        pretty (.handler (.some blk) none .none (.some fblk)) from rfl]
      rw [pretty_handler_nf_eq]
      simp [hbs, hfsx]
    · obtain ⟨cs, hcs⟩ := Option.isSome_iff_exists.mp hcb
      obtain ⟨ps, hps⟩ := asStr_of_isStrB pn hpn
      rw [show (pretty (.handler (.some blk) (some pn, JOpt.some cb).1
        (some pn, JOpt.some cb).2 (.some fblk))) =
        pretty (.handler (.some blk) (some pn) (.some cb) (.some fblk)) from rfl]
      rw [pretty_handler_cf_eq]
      simp [hbs, hfsx, hcs, optStr, hps]
  · simp only [Except.ok.injEq] at h
    subst h
    rcases hpc with hpcE | ⟨pn, cb, hpcE, hpn, hcb⟩ <;> subst hpcE
    · rw [show (pretty (.handler (.some blk) ((none : Option GVal), JOpt.none).1
        ((none : Option GVal), JOpt.none).2 JOpt.none)) =
        pretty (.handler (.some blk) none .none .none) from rfl]
      rw [pretty_handler_nn_eq]
      simp [hbs]
    · obtain ⟨cs, hcs⟩ := Option.isSome_iff_exists.mp hcb
      obtain ⟨ps, hps⟩ := asStr_of_isStrB pn hpn
      rw [show (pretty (.handler (.some blk) (some pn, JOpt.some cb).1
        (some pn, JOpt.some cb).2 JOpt.none)) =
        pretty (.handler (.some blk) (some pn) (.some cb) .none) from rfl]
      rw [pretty_handler_cn_eq]
      simp [hbs, hcs, optStr, hps]

/-- Step of the invariant for `Handler.load`. -/
theorem step_loadHandler (fuel : Nat) (ih : LoadRenders fuel) :
    ∀ x r, GOK x = true → loadHandler (fuel + 1) x = .ok r →
      (pretty r).isSome = true := by
  intro x r hg h
  simp only [loadHandler] at h
  rw [exbind_ok] at h
  obtain ⟨u, hu, h⟩ := h
  rw [exbind_ok] at h
  obtain ⟨bv, hbv, h⟩ := h
  rw [exbind_ok] at h
  obtain ⟨u2, hu2, h⟩ := h
  rw [exbind_ok] at h
  obtain ⟨gh, hgh, h⟩ := h
  split at h
  · rw [exbind_ok] at h
    obtain ⟨bbv, hbbv, h⟩ := h
    rw [exbind_ok] at h
    obtain ⟨blk, hblk, h⟩ := h
    rw [exbind_ok] at h
    obtain ⟨hv, hhv, h⟩ := h
    have hblkR : (pretty blk).isSome = true :=
      ih.blockL bbv blk
        (GOK_getKey bv "body" bbv (GOK_getKey x "block" bv hg hbv) hbbv) hblk
    split at h
    · rw [exbind_ok] at h
      obtain ⟨hs, hhs, h⟩ := h
      split at h
      · rw [exbind_ok] at h
        obtain ⟨y, hy, h⟩ := h
        exact absurd hy (by simp)
      · split at h
        · rw [exbind_ok] at h
          obtain ⟨y, hy, h⟩ := h
          exact absurd hy (by simp)
        · rw [exbind_ok] at h
          obtain ⟨u3, hu3, h⟩ := h
          rw [exbind_ok] at h
          obtain ⟨pv, hpv, h⟩ := h
          rw [exbind_ok] at h
          obtain ⟨u4, hu4, h⟩ := h
          rw [exbind_ok] at h
          obtain ⟨hb2, hhb2, h⟩ := h
          rw [exbind_ok] at h
          obtain ⟨u5, hu5, h⟩ := h
          rw [exbind_ok] at h
          obtain ⟨pname, hpname, h⟩ := h
          rw [exbind_ok] at h
          obtain ⟨bbv2, hbbv2, h⟩ := h
          rw [exbind_ok] at h
          obtain ⟨cblk, hcblk, h⟩ := h
          rw [exbind_ok] at h
          obtain ⟨y, hy, h⟩ := h
          simp only [pure, Except.pure, Except.ok.injEq] at hy
          subst hy
          have hvg : GOK hv = true := GOK_getKey x "handler" hv hg hhv
          have hpvg : GOK pv = true := GOK_getKey hv "param" pv hvg hpv
          refine loadHandler_tail fuel ih x hg blk hblkR _ (Or.inr ⟨pname, cblk, rfl, ?_, ?_⟩) r h
          · rw [getKey_ok] at hpname
            obtain ⟨fs3, hfs3, hget3⟩ := hpname
            subst hfs3
            exact GOK_strField fs3 "name" pname hpvg (Or.inr (Or.inl rfl)) hget3
          · exact ih.blockL bbv2 cblk
              (GOK_getKey hb2 "body" bbv2 (GOK_getKey hv "body" hb2 hvg hhb2)
                hbbv2) hcblk
    · rw [exbind_ok] at h
      obtain ⟨hs, hhs, h⟩ := h
      split at h
      · rw [exbind_ok] at h
        obtain ⟨y, hy, h⟩ := h
        exact absurd hy (by simp)
      · split at h
        · rw [exbind_ok] at h
          obtain ⟨y, hy, h⟩ := h
          exact absurd hy (by simp)
        · rw [exbind_ok] at h
          obtain ⟨y, hy, h⟩ := h
          simp only [pure, Except.pure, Except.ok.injEq] at hy
          subst hy
          exact loadHandler_tail fuel ih x hg blk hblkR _ (Or.inl rfl) r h
  all_goals exact absurd h (by simp)

/-- A rendering statement satisfies the statement-level invariant for any
source node. -/
theorem stmt_conclusion_of_isSome (x : GVal) (r : JNode)
    (hs : (pretty r).isSome = true) :
    allRender (toStmts r) = true ∧
      ∀ dl, r = .stmtList dl → typeTagIs x "VariableDeclaration" = true :=
  ⟨allRender_toStmts_of_isSome r hs,
   fun _ heq => absurd (heq ▸ hs) (by simp [pretty_stmtList_none])⟩

/-- Step of the invariant for `Block.loadstatement`. -/
theorem step_loadStatement (fuel : Nat) (ih : LoadRenders fuel) :
    ∀ x r, GOK x = true → loadStatement (fuel + 1) x = .ok r →
      allRender (toStmts r) = true ∧
        ∀ dl, r = .stmtList dl → typeTagIs x "VariableDeclaration" = true := by
  intro x r hg h
  simp only [loadStatement] at h
  rw [exbind_ok] at h
  obtain ⟨tv, htv, h⟩ := h
  split at h
  case _ s =>
    rcases hcs : checksOf s with _ | c
    · simp only [hcs] at h
      simp at h
    simp only [hcs] at h
    rw [exbind_ok] at h
    obtain ⟨u, hcheck, h⟩ := h
    by_cases hv : s = "VariableDeclaration"
    · rw [if_pos hv] at h
      rw [exbind_ok] at h
      obtain ⟨dl, hdl, h⟩ := h
      simp only [Except.ok.injEq] at h
      subst h
      refine ⟨?_, fun _ _ => typeTagIs_of_getKey x _ (hv ▸ htv)⟩
      simpa [toStmts] using ih.vardecl x dl hg hdl
    rw [if_neg hv] at h
    by_cases he : s = "ExpressionStatement"
    · rw [if_pos he] at h
      rw [exbind_ok] at h
      obtain ⟨v, hvv, h⟩ := h
      exact stmt_conclusion_of_isSome x r
        (ih.expr v r (GOK_getKey x "expression" v hg hvv) h)
    rw [if_neg he] at h
    by_cases hf : s = "FunctionDeclaration"
    · rw [if_pos hf] at h
      exact stmt_conclusion_of_isSome x r
        (ih.funcL x FunctionK.declaration r hg h)
    rw [if_neg hf] at h
    by_cases hes : s = "EmptyStatement"
    · rw [if_pos hes] at h
      simp only [Except.ok.injEq] at h
      subst h
      exact stmt_conclusion_of_isSome x _ rfl
    rw [if_neg hes] at h
    by_cases hr2 : s = "ReturnStatement"
    · rw [if_pos hr2] at h
      rw [exbind_ok] at h
      obtain ⟨v, hvv, h⟩ := h
      rw [exbind_ok] at h
      obtain ⟨e, he2, h⟩ := h
      simp only [Except.ok.injEq] at h
      subst h
      exact stmt_conclusion_of_isSome x _
        (pretty_action_isSome (.some e) ActionK.returnK (by decide)
          (by simpa [optRenders] using
            ih.expr v e (GOK_getKey x "argument" v hg hvv) he2))
    rw [if_neg hr2] at h
    by_cases hi : s = "IfStatement"
    · rw [if_pos hi] at h
      exact stmt_conclusion_of_isSome x r
        (ih.cond x r hg (typeTagIs_of_getKey x _ (hi ▸ htv)) h)
    rw [if_neg hi] at h
    by_cases hb : s = "BlockStatement"
    · rw [if_pos hb] at h
      rw [exbind_ok] at h
      obtain ⟨v, hvv, h⟩ := h
      exact stmt_conclusion_of_isSome x r
        (ih.blockL v r (GOK_getKey x "body" v hg hvv) h)
    rw [if_neg hb] at h
    by_cases ht : s = "ThrowStatement"
    · rw [if_pos ht] at h
      rw [exbind_ok] at h
      obtain ⟨v, hvv, h⟩ := h
      rw [exbind_ok] at h
      obtain ⟨e, he2, h⟩ := h
      simp only [Except.ok.injEq] at h
      subst h
      exact stmt_conclusion_of_isSome x _
        (pretty_action_isSome (.some e) ActionK.throwK (by decide)
          (by simpa [optRenders] using
            ih.expr v e (GOK_getKey x "argument" v hg hvv) he2))
    rw [if_neg ht] at h
    by_cases hfo : s = "ForStatement"
    · rw [if_pos hfo] at h
      exact stmt_conclusion_of_isSome x r
        (ih.forL x r hg (typeTagIs_of_getKey x _ (hfo ▸ htv)) h)
    rw [if_neg hfo] at h
    by_cases hfi : s = "ForInStatement"
    · rw [if_pos hfi] at h
      exact stmt_conclusion_of_isSome x r
        (ih.iter x r hg (typeTagIs_of_getKey x _ (hfi ▸ htv)) h)
    rw [if_neg hfi] at h
    by_cases hbr : s = "BreakStatement"
    · rw [if_pos hbr] at h
      rw [loadcontrol_shape x ActionK.breakK r h]
      exact stmt_conclusion_of_isSome x _
        (pretty_action_isSome .none ActionK.breakK (by decide) rfl)
    rw [if_neg hbr] at h
    by_cases hco : s = "ContinueStatement"
    · rw [if_pos hco] at h
      rw [loadcontrol_shape x ActionK.continueK r h]
      exact stmt_conclusion_of_isSome x _
        (pretty_action_isSome .none ActionK.continueK (by decide) rfl)
    rw [if_neg hco] at h
    by_cases hw : s = "WhileStatement"
    · rw [if_pos hw] at h
      exact stmt_conclusion_of_isSome x r
        (ih.whileL x r hg (typeTagIs_of_getKey x _ (hw ▸ htv)) h)
    rw [if_neg hw] at h
    by_cases htr : s = "TryStatement"
    · rw [if_pos htr] at h
      exact stmt_conclusion_of_isSome x r (ih.handlerL x r hg h)
    rw [if_neg htr] at h
    simp at h
  case _ => simp at h

/-- Step of the invariant for `Block.load`. -/
theorem step_loadBlock (fuel : Nat) (ih : LoadRenders fuel) :
    ∀ v r, GOK v = true → loadBlock (fuel + 1) v = .ok r →
      (pretty r).isSome = true := by
  intro v r hg h
  simp only [loadBlock] at h
  cases hit : pyIter v with
  | none =>
    simp only [hit] at h
    exact absurd h (by simp)
  | some items =>
    simp only [hit] at h
    rw [exbind_ok] at h
    obtain ⟨q, hq, h⟩ := h
    simp only [Except.ok.injEq] at h
    subst h
    exact pretty_block_isSome q.1 q.2.1 q.2.2.1 q.2.2.2 false
      (prettyStmts_isSome_of_allRender q.2.2.2
        (ih.blockItems items q (GOK_iter v items hg hit) hq))

/-- Step of the invariant for the statement loop of `Block.load`. -/
theorem step_loadBlockItems (fuel : Nat) (ih : LoadRenders fuel) :
    ∀ items q, (∀ y ∈ items, GOK y = true) →
      loadBlockItems (fuel + 1) items = .ok q → allRender q.2.2.2 = true := by
  intro items q hg h
  cases items with
  | nil =>
    simp only [loadBlockItems] at h
    simp only [Except.ok.injEq] at h
    subst h
    rfl
  | cons x xs =>
    simp only [loadBlockItems] at h
    rw [exbind_ok] at h
    obtain ⟨tv, htv, h⟩ := h
    rw [exbind_ok] at h
    obtain ⟨stmt, hstmt, h⟩ := h
    rw [exbind_ok] at h
    obtain ⟨fi, hfi, h⟩ := h
    rw [exbind_ok] at h
    obtain ⟨rest, hrest, h⟩ := h
    have hparts : allRender (toStmts stmt) = true :=
      (ih.stmt x stmt (hg x (by simp)) hstmt).1
    have hrestR : allRender rest.2.2.2 = true :=
      ih.blockItems xs rest (fun y hy => hg y (by simp [hy])) hrest
    split at h
    · simp only [Except.ok.injEq] at h
      subst h
      show allRender (jappend (toStmts stmt) rest.2.2.2) = true
      rw [allRender_append]
      simp [hparts, hrestR]
    · split at h
      · simp only [Except.ok.injEq] at h
        subst h
        show allRender (jappend (toStmts stmt) rest.2.2.2) = true
        rw [allRender_append]
        simp [hparts, hrestR]
      · simp only [Except.ok.injEq] at h
        subst h
        show allRender (jappend (toStmts stmt) rest.2.2.2) = true
        rw [allRender_append]
        simp [hparts, hrestR]

/-- The fuel-indexed invariant: at every fuel, each loader turns
grammar-conformant generic input into typed output that renders. -/
theorem load_renders : ∀ fuel, LoadRenders fuel := by
  intro fuel
  induction fuel with
  | zero => exact loadRenders_zero
  | succ fuel ih =>
    exact ⟨step_loadExpr fuel ih, step_loadCall fuel ih,
      step_loadCombinator fuel ih, step_loadCombItems fuel ih,
      step_loadObject fuel ih, step_loadProps fuel ih,
      step_loadFunction fuel ih, step_loadParams fuel ih,
      step_loadVariableDeclaration fuel ih, step_loadDeclarators fuel ih,
      step_loadVardecl fuel ih, step_loadConditional fuel ih,
      step_loadIterator fuel ih, step_loadFor fuel ih, step_loadWhile fuel ih,
      step_loadHandler fuel ih, step_loadStatement fuel ih,
      step_loadBlock fuel ih, step_loadBlockItems fuel ih⟩

/-- The renderer passes through a program node to its body. -/
theorem pretty_program_eq (b : JNode) : pretty (.program b) = pretty b := rfl

/-- A generic `Program` whose body places a variable declaration as the
unbraced consequent of an if statement: the loader accepts it, the
renderer fails on it. -/
def C6_cex : GVal := gnode [("type", .str "Program"), ("body", glist [
  gnode [("type", .str "IfStatement"),
    ("test", gnode [("type", .str "Identifier"), ("name", .str "a")]),
    ("consequent", gnode [("type", .str "VariableDeclaration"),
      ("declarations", glist [gnode [("type", .str "VariableDeclarator"),
        ("id", gnode [("type", .str "Identifier"), ("name", .str "x")]),
        ("init", gnode [("type", .str "Literal"), ("value", .num 1),
          ("raw", .str "1")])]]),
      ("kind", .str "var")]),
    ("alternate", .null)]])]

/-- The typed tree the loader builds from `C6_cex`: the if consequent is a
bare list of declarations, which the renderer cannot print. -/
def C6_cex_prog : JNode :=
  .program (.block .nil
    (.cons (.conditionalStatement (.operand 2 (.str "a") (.str "a"))
      (.stmtList (.cons (.variableDeclaration (some (.str "x"))
        (some (.str "var")) (.some (.operand 1 (.num 1) (.str "1")))) .nil))
      .none) .nil)
    .nil
    (.cons (.conditionalStatement (.operand 2 (.str "a") (.str "a"))
      (.stmtList (.cons (.variableDeclaration (some (.str "x"))
        (some (.str "var")) (.some (.operand 1 (.num 1) (.str "1")))) .nil))
      .none) .nil)
    true)

/-- C6: counterexample. The generic program `if (a) var x = 1;` is accepted
by the loader, but rendering the loaded program fails (the Python renderer
raises on the bare declaration list standing as the if consequent), so the
renderer does have a failure mode on a tree that passed the loader. -/
theorem C6_counterexample :
    loadProgram 20 C6_cex = .ok C6_cex_prog ∧ pretty C6_cex_prog = none :=
  ⟨rfl, rfl⟩

/-- C6 (amended): for every generic program that is grammar-conformant —
its `operator`, `name`, `raw` and `kind` fields are strings wherever
present, and no variable declaration stands as the unbraced consequent or
alternate of an if statement or as the unbraced body of a for, while or
for-in loop — every program the loader accepts is rendered successfully:
`pretty` returns a string. -/
theorem C6_conformant_program_renders (ast : GVal) (fuel : Nat) (p : JNode)
    (hg : GOK ast = true) (h : loadProgram fuel ast = .ok p) :
    (pretty p).isSome = true := by
  cases fuel with
  | zero => exact absurd h (by simp [loadProgram])
  | succ fuel =>
    simp only [loadProgram] at h
    rw [exbind_ok] at h
    obtain ⟨u, hu, h⟩ := h
    rw [exbind_ok] at h
    obtain ⟨bv, hbv, h⟩ := h
    rw [exbind_ok] at h
    obtain ⟨b, hb, h⟩ := h
    simp only [Except.ok.injEq] at h
    subst h
    have hbR : (pretty b).isSome = true :=
      (load_renders fuel).blockL bv b (GOK_getKey ast "body" bv hg hbv) hb
    obtain ⟨v, e, f, s, hsh⟩ := loadBlock_shape fuel bv b hb
    subst hsh
    have hs : (prettyStmts s).isSome = true := pretty_block_inv v e f s false hbR
    show (pretty (.program (.block v e f s true))).isSome = true
    rw [pretty_program_eq]
    exact pretty_block_isSome v e f s true hs

/-- A grammar-conformant generic program: `if (a) b;`. -/
def C6_wit_ast : GVal := gnode [("type", .str "Program"), ("body", glist [
  gnode [("type", .str "IfStatement"),
    ("test", gnode [("type", .str "Identifier"), ("name", .str "a")]),
    ("consequent", gnode [("type", .str "ExpressionStatement"),
      ("expression", gnode [("type", .str "Identifier"), ("name", .str "b")])]),
    ("alternate", .null)]])]

/-- The typed tree loaded from `C6_wit_ast`. -/
def C6_wit_prog : JNode :=
  .program (.block .nil
    (.cons (.conditionalStatement (.operand 2 (.str "a") (.str "a"))
      (.operand 2 (.str "b") (.str "b")) .none) .nil)
    .nil
    (.cons (.conditionalStatement (.operand 2 (.str "a") (.str "a"))
      (.operand 2 (.str "b") (.str "b")) .none) .nil)
    true)

/-- C6: witness for the amended theorem at the concrete conformant program
`if (a) b;`. -/
theorem C6_witness :
    GOK C6_wit_ast = true ∧ loadProgram 20 C6_wit_ast = .ok C6_wit_prog ∧
    (pretty C6_wit_prog).isSome = true :=
  ⟨rfl, rfl,
    C6_conformant_program_renders C6_wit_ast 20 C6_wit_prog rfl rfl⟩
